import Mathlib

/-!
Shallow embedding of the SF2000 AVI video player core (the container indexer,
the ring-buffered audio pipeline, the sync/transport controller and the
seek logic), translated from the C source, together with theorems settling
the specification claims.

Modelling conventions:
* machine integers are modelled as `Int` (C `int`, which never legitimately
  overflows in this code) or `Nat` (C unsigned types); where the source
  performs `uint32_t`/`uint64_t` wraparound arithmetic the model applies an
  explicit `% 2^32` / `% 2^64`;
* the container file is a `List Nat` of bytes; `fread` returns the available
  prefix (short only at end of file) and `fseek` positions freely;
* the vendored opaque decoders (froggyMP3's `mad_decode` and the Xvid
  `xvid_decore`), which live outside this repository's sources, are modelled
  as oracle functions carried in an environment and quantified universally;
* loops whose C termination relies on decoder progress are modelled with an
  explicit fuel parameter; theorems hold for every fuel value.
-/

namespace SF2000

/-! ## Constants from the source -/

def SCREEN_WIDTH : Nat := 320
def FRAME_PIXELS : Nat := 320 * 240
def MAX_JPEG_SIZE : Nat := 64 * 1024
def MAX_AUDIO_BUFFER : Nat := 4096
def AUDIO_RING_SIZE : Nat := 44100 * 4
def AUDIO_REFILL_THRESHOLD : Nat := AUDIO_RING_SIZE / 2
def MAX_FRAMES : Nat := 360000
def MAX_AUDIO_CHUNKS : Nat := 360000
def AUDIO_FMT_PCM : Nat := 1
def AUDIO_FMT_ADPCM : Nat := 2
def AUDIO_FMT_MP3 : Nat := 3
def CODEC_TYPE_UNKNOWN : Nat := 0
def CODEC_TYPE_MJPEG : Nat := 1
def CODEC_TYPE_MPEG4 : Nat := 2
def MAX_EXTRADATA_SIZE : Nat := 256
def ADPCM_DECODE_BUF_SIZE : Nat := 16384
def MP3_INPUT_BUF_SIZE : Nat := 8192
def MP3_DECODE_BUF_SIZE : Nat := 8192

/-! ## Machine arithmetic helpers -/

def U32 : Nat := 4294967296
def U64 : Nat := 18446744073709551616

/-- `uint32_t` subtraction (wraps modulo 2^32). -/
def u32sub (a b : Nat) : Nat := (((a : Int) - (b : Int)).emod (U32 : Int)).toNat

/-- Cast a C `int` value to `uint64_t` (two's complement reinterpretation). -/
def u64ofInt (i : Int) : Nat := (i.emod (U64 : Int)).toNat

/-- Reinterpret a `uint64_t` value as `int64_t`. -/
def i64ofU64 (n : Nat) : Int :=
  if n < 9223372036854775808 then (n : Int) else (n : Int) - (U64 : Int)

/-- `(int16_t)(lo | hi << 8)`: two bytes, little endian, sign extended. -/
def s16 (n : Nat) : Int :=
  if n % 65536 < 32768 then ((n % 65536 : Nat) : Int) else ((n % 65536 : Nat) : Int) - 65536

/-- C `>> 8` on a (possibly negative) `int`: arithmetic shift = floor division. -/
def sar8 (x : Int) : Int := Int.fdiv x 256

/-- Number of bytes `fread` returns when asked for `n` bytes at `pos`
(short only at end of file; I/O errors are not modelled). -/
def freadLen (f : List Nat) (pos n : Nat) : Nat := min n (f.length - pos)

/-- The bytes `fread` returns when asked for `n` bytes at `pos`. -/
def freadList (f : List Nat) (pos n : Nat) : List Nat := (f.drop pos).take n

/-- `read_u32_le`: little-endian 32-bit load from a byte list. -/
def read_u32_le (p : List Nat) : Nat :=
  p.getD 0 0 % 256 + 256 * (p.getD 1 0 % 256) + 65536 * (p.getD 2 0 % 256) +
    16777216 * (p.getD 3 0 % 256)

/-- `read_u16_le`: little-endian 16-bit load from a byte list. -/
def read_u16_le (p : List Nat) : Nat := p.getD 0 0 % 256 + 256 * (p.getD 1 0 % 256)

/-! ## MS ADPCM decoder (decode_adpcm_sample / decode_adpcm_block_*)

The per-channel predictor registers are globals in the source, fully
re-initialised from the block header on every block decode. -/

def adpcm_adapt_table : List Int :=
  [230, 230, 230, 230, 307, 409, 512, 614, 768, 614, 512, 409, 307, 230, 230, 230]

def adpcm_coef1 : List Int := [256, 512, 0, 192, 240, 460, 392]

def adpcm_coef2 : List Int := [0, -256, 0, 64, 0, -208, -232]

/-- ADPCM decoder registers (`adpcm_sample1/2`, `adpcm_delta`, `adpcm_coef_idx`),
one component per channel. -/
structure AdpcmRegs where
  sample1 : Int × Int := (0, 0)
  sample2 : Int × Int := (0, 0)
  delta : Int × Int := (0, 0)
  coef_idx : Nat × Nat := (0, 0)
  deriving Repr, DecidableEq

/-- Channel projection for the per-channel register pairs. -/
def pget {α : Type} (p : α × α) (ch : Nat) : α := if ch = 0 then p.1 else p.2

/-- Channel update for the per-channel register pairs. -/
def pset {α : Type} (p : α × α) (ch : Nat) (v : α) : α × α :=
  if ch = 0 then (v, p.2) else (p.1, v)

/-- `clamp16`. -/
def clamp16 (v : Int) : Int := if v < -32768 then -32768 else if 32767 < v then 32767 else v

/-- `decode_adpcm_sample`: decode one nibble (already masked to 0..15 at the
call sites) on channel `ch`, returning the updated registers and the sample. -/
def decode_adpcm_sample (nibble : Nat) (ch : Nat) (r : AdpcmRegs) : AdpcmRegs × Int :=
  let unsigned_nibble := nibble % 16
  let pred := sar8 (pget r.sample1 ch * adpcm_coef1.getD (pget r.coef_idx ch) 0 +
    pget r.sample2 ch * adpcm_coef2.getD (pget r.coef_idx ch) 0)
  let signed_nibble : Int := if nibble % 16 < 8 then (nibble : Int) else (nibble : Int) - 16
  let sample := clamp16 (pred + signed_nibble * pget r.delta ch)
  let r := { r with sample2 := pset r.sample2 ch (pget r.sample1 ch) }
  let r := { r with sample1 := pset r.sample1 ch sample }
  let d := sar8 (adpcm_adapt_table.getD unsigned_nibble 0 * pget r.delta ch)
  let d := if d < 16 then 16 else d
  ({ r with delta := pset r.delta ch d }, sample)

/-- Nibble loop of `decode_adpcm_block_mono` (`for i = 7; i < src_size ...`):
high nibble then low nibble per byte, bounded by `max_samples`.  The decoded
sample values go into a scratch buffer whose contents the pipeline copies to
the ring; only the registers and the output count are tracked. -/
def adpcm_mono_loop : List Nat → Nat → Nat → AdpcmRegs → AdpcmRegs × Nat
  | [], out_idx, _max_samples, r => (r, out_idx)
  | b :: rest, out_idx, max_samples, r =>
    if out_idx < max_samples then
      let r := (decode_adpcm_sample (b / 16 % 16) 0 r).1
      let out_idx := out_idx + 1
      if out_idx < max_samples then
        adpcm_mono_loop rest (out_idx + 1) max_samples (decode_adpcm_sample (b % 16) 0 r).1
      else
        adpcm_mono_loop rest out_idx max_samples r
    else (r, out_idx)

/-- `decode_adpcm_block_mono`: returns the updated registers and the number of
samples produced. -/
def decode_adpcm_block_mono (src : List Nat) (max_samples : Nat) (r : AdpcmRegs) :
    AdpcmRegs × Nat :=
  if src.length < 7 then (r, 0) else
  let c0 := src.getD 0 0
  let r := { r with coef_idx := pset r.coef_idx 0 (if 6 < c0 then 0 else c0) }
  let r := { r with delta := pset r.delta 0 (s16 (src.getD 1 0 + 256 * src.getD 2 0)) }
  let r := { r with sample1 := pset r.sample1 0 (s16 (src.getD 3 0 + 256 * src.getD 4 0)) }
  let r := { r with sample2 := pset r.sample2 0 (s16 (src.getD 5 0 + 256 * src.getD 6 0)) }
  let out_idx := 0
  let out_idx := if out_idx < max_samples then out_idx + 1 else out_idx
  let out_idx := if out_idx < max_samples then out_idx + 1 else out_idx
  adpcm_mono_loop (src.drop 7) out_idx max_samples r

/-- Nibble loop of `decode_adpcm_block_stereo` (`for i = 14; ...`): left
channel from the high nibble, right channel from the low nibble. -/
def adpcm_stereo_loop : List Nat → Nat → Nat → AdpcmRegs → AdpcmRegs × Nat
  | [], out_idx, _max_samples, r => (r, out_idx)
  | b :: rest, out_idx, max_samples, r =>
    if out_idx + 1 < max_samples then
      let r := (decode_adpcm_sample (b / 16 % 16) 0 r).1
      let r := (decode_adpcm_sample (b % 16) 1 r).1
      adpcm_stereo_loop rest (out_idx + 2) max_samples r
    else (r, out_idx)

/-- `decode_adpcm_block_stereo`. -/
def decode_adpcm_block_stereo (src : List Nat) (max_samples : Nat) (r : AdpcmRegs) :
    AdpcmRegs × Nat :=
  if src.length < 14 then (r, 0) else
  let c0 := src.getD 0 0
  let c1 := src.getD 1 0
  let r := { r with coef_idx := (if 6 < c0 then 0 else c0, if 6 < c1 then 0 else c1) }
  let r := { r with delta := (s16 (src.getD 2 0 + 256 * src.getD 3 0),
                              s16 (src.getD 4 0 + 256 * src.getD 5 0)) }
  let r := { r with sample1 := (s16 (src.getD 6 0 + 256 * src.getD 7 0),
                                s16 (src.getD 8 0 + 256 * src.getD 9 0)) }
  let r := { r with sample2 := (s16 (src.getD 10 0 + 256 * src.getD 11 0),
                                s16 (src.getD 12 0 + 256 * src.getD 13 0)) }
  let out_idx := 0
  let out_idx := if out_idx + 1 < max_samples then out_idx + 2 else out_idx
  let out_idx := if out_idx + 1 < max_samples then out_idx + 2 else out_idx
  adpcm_stereo_loop (src.drop 14) out_idx max_samples r

/-! ## Player state

All of the source's process-wide globals that the indexer, the audio
pipeline and the transport controller read or write.  The frame and
audio-chunk tables (`frame_offsets`/`frame_sizes` with counter
`total_frames`, and `audio_offsets`/`audio_sizes` with counter
`total_audio_chunks`) are modelled as lists of (offset, size) pairs holding
exactly the valid prefix of the C arrays; the counters are the list
lengths.  Video-decoder-side state (framebuffer, Xvid handle) is modelled
separately in the video section below. -/

structure Player where
  is_playing : Bool := false
  is_paused : Bool := false
  current_frame_idx : Int := 0
  repeat_counter : Int := 0
  repeat_count : Int := 1
  frame_index : List (Nat × Nat) := []
  audio_index : List (Nat × Nat) := []
  total_audio_bytes : Nat := 0
  clip_fps : Nat := 30
  us_per_frame : Nat := 33333
  has_audio : Bool := false
  audio_format : Nat := 0
  audio_channels : Nat := 0
  audio_sample_rate : Nat := 0
  audio_bits : Nat := 0
  audio_bytes_per_sample : Nat := 0
  adpcm_block_align : Nat := 0
  adpcm_samples_per_block : Int := 0
  video_codec_type : Nat := 0
  video_fourcc : List Nat := [0, 0, 0, 0]
  mpeg4_extradata : List Nat := []
  mpeg4_extradata_sent : Bool := false
  xvid_width : Int := 0
  xvid_height : Int := 0
  audio_chunk_idx : Int := 0
  audio_chunk_pos : Nat := 0
  audio_samples_sent : Nat := 0
  adpcm : AdpcmRegs := {}
  mp3_detected_samplerate : Nat := 0
  mp3_detected_channels : Nat := 0
  mp3_initialized : Bool := false
  mp3_dec : Nat := 0
  mp3_input_len : Int := 0
  mp3_input_remaining : Int := 0
  aring_read : Int := 0
  aring_write : Int := 0
  aring_count : Int := 0
  deriving Repr, DecidableEq

/-- `total_frames` (the C counter) is the length of the valid frame table. -/
def Player.total_frames (st : Player) : Int := st.frame_index.length

/-- `total_audio_chunks` is the length of the valid audio-chunk table. -/
def Player.total_audio_chunks (st : Player) : Int := st.audio_index.length

/-- `audio_sizes[audio_chunk_idx]` (guarded accesses only in the source). -/
def Player.chunkSize (st : Player) : Nat := (st.audio_index.getD st.audio_chunk_idx.toNat (0, 0)).2

/-- `audio_offsets[audio_chunk_idx]`. -/
def Player.chunkOffset (st : Player) : Nat := (st.audio_index.getD st.audio_chunk_idx.toNat (0, 0)).1

/-! ## Opaque decoder oracles

froggyMP3 (`mad_init` / `mad_decode` / `mad_get_info`) and Xvid
(`xvid_decore`) are vendored libraries outside this repository's sources;
the spec treats their bitstream internals as opaque decode functions.  They
are modelled as oracles over an abstract decoder-handle state (`Nat`, with 0
denoting a freshly initialised handle). -/

/-- Result discriminator of `mad_decode` (MAD_OK / MAD_NEED_MORE_INPUT /
MAD_ERR / any other fatal code). -/
inductive MadCode where
  | ok
  | needMore
  | err
  | fatal
  deriving Repr, DecidableEq

/-- One `mad_decode` outcome: result code, `*bytes_read`, `*bytes_done` and
the decoder handle state after the call. -/
structure MadRes where
  code : MadCode := .fatal
  bytesRead : Nat := 0
  bytesDone : Nat := 0
  newDec : Nat := 0
  deriving Repr, DecidableEq

/-- Environment: the open container file plus the opaque collaborator
interfaces (audio batch callback availability, MP3 decoder oracle). -/
structure Env where
  file : List Nat := []
  hasAudioCb : Bool := true
  mad : Nat → Int → MadRes := fun _ _ => {}
  madInfo : Nat → Option (Nat × Nat) := fun _ => none

/-! ## Ring buffer consume (`read_audio_ring`) -/

/-- Loop body of `read_audio_ring`; each iteration with a positive count and
in-range read cursor makes progress, so `bytes_needed + 1` fuel is enough. -/
def read_audio_ring_loop (fuel : Nat) (bytes_needed bytes_read : Int) (st : Player) :
    Player × Int :=
  match fuel with
  | 0 => (st, bytes_read)
  | fuel + 1 =>
    if bytes_read < bytes_needed ∧ 0 < st.aring_count then
      let before_wrap : Int := (AUDIO_RING_SIZE : Int) - st.aring_read
      let avail : Int := if st.aring_count < before_wrap then st.aring_count else before_wrap
      let to_read : Int := bytes_needed - bytes_read
      let to_read : Int := if avail < to_read then avail else to_read
      let st := { st with
        aring_read := (st.aring_read + to_read) % (AUDIO_RING_SIZE : Int),
        aring_count := st.aring_count - to_read }
      read_audio_ring_loop fuel bytes_needed (bytes_read + to_read) st
    else (st, bytes_read)

/-- `read_audio_ring` (consume): returns the state and the bytes read. -/
def read_audio_ring (bytes_needed : Int) (st : Player) : Player × Int :=
  read_audio_ring_loop (bytes_needed.toNat + 1) bytes_needed 0 st

/-! ## PCM path (`read_audio_disk_pcm` and the PCM branch of
`refill_audio_ring`) -/

/-- Loop of `read_audio_disk_pcm`: pull bytes from the audio chunks on disk,
advancing the audio cursor.  Each iteration either reads at least one byte,
advances to the next chunk, or breaks; `bytes_needed + chunks + 1` fuel
suffices. -/
def read_audio_disk_pcm_loop (fuel : Nat) (env : Env) (bytes_needed bytes_read : Int)
    (st : Player) : Player × Int :=
  match fuel with
  | 0 => (st, bytes_read)
  | fuel + 1 =>
    if bytes_read < bytes_needed ∧ st.audio_chunk_idx < st.total_audio_chunks then
      let chunk_size := st.chunkSize
      let remaining := u32sub chunk_size st.audio_chunk_pos
      let to_read : Int := bytes_needed - bytes_read
      let to_read : Int := if (remaining : Int) < to_read then (remaining : Int) else to_read
      let file_pos := st.chunkOffset + st.audio_chunk_pos
      let got := freadLen env.file file_pos to_read.toNat
      let bytes_read := bytes_read + got
      let st := { st with audio_chunk_pos := st.audio_chunk_pos + got }
      let st := if chunk_size ≤ st.audio_chunk_pos then
        { st with audio_chunk_idx := st.audio_chunk_idx + 1, audio_chunk_pos := 0 }
      else st
      if (got : Int) < to_read then (st, bytes_read)
      else read_audio_disk_pcm_loop fuel env bytes_needed bytes_read st
    else (st, bytes_read)

/-- `read_audio_disk_pcm`. -/
def read_audio_disk_pcm (env : Env) (bytes_needed : Int) (st : Player) : Player × Int :=
  read_audio_disk_pcm_loop (bytes_needed.toNat + st.audio_index.length + 1) env bytes_needed 0 st

/-- PCM branch of `refill_audio_ring`: read directly into the ring.  Each
iteration reads at least one byte or stops, so `free_space + 1` fuel is
enough. -/
def refill_pcm_loop (fuel : Nat) (env : Env) (free_space : Int) (st : Player) : Player :=
  match fuel with
  | 0 => st
  | fuel + 1 =>
    if 0 < free_space ∧ st.audio_chunk_idx < st.total_audio_chunks then
      let before_wrap : Int := (AUDIO_RING_SIZE : Int) - st.aring_write
      let to_read : Int := if free_space < before_wrap then free_space else before_wrap
      let to_read : Int := if 4096 < to_read then 4096 else to_read
      let p := read_audio_disk_pcm env to_read st
      let st := p.1
      let got := p.2
      if got ≤ 0 then st
      else
        let st := { st with
          aring_write := (st.aring_write + got) % (AUDIO_RING_SIZE : Int),
          aring_count := st.aring_count + got }
        refill_pcm_loop fuel env (free_space - got) st
    else st

/-! ## ADPCM path (`read_audio_disk_adpcm`) -/

/-- Outcome of one iteration of a refill decode loop: the new state, the new
skip/error counter, the bytes written to the ring by this iteration,
whether the write path ran (`wrote`), and whether the C loop `break`s after
this iteration (`brk`); `continue` paths have `wrote = false, brk =
false`. -/
structure IterOut where
  st : Player
  ctr : Int := 0
  written : Int := 0
  wrote : Bool := false
  brk : Bool := false

/-- The block-size computation at the head of the `read_audio_disk_adpcm`
loop body (`adpcm_block_align` clamped to the chunk remainder and to
`sizeof(adpcm_read_buf) = 8192`). -/
def adpcm_block_size (st : Player) : Int :=
  let remaining := u32sub st.chunkSize st.audio_chunk_pos
  let block_size : Int := st.adpcm_block_align
  let block_size : Int := if (remaining : Int) < block_size then (remaining : Int) else block_size
  if 8192 < block_size then 8192 else block_size

/-- The block decode dispatch of the ADPCM loop body (`adpcm_read_buf` holds
the bytes read at `file_pos`). -/
def adpcm_decode_block (env : Env) (file_pos : Nat) (block_size : Int) (st : Player) :
    AdpcmRegs × Nat :=
  let src := freadList env.file file_pos block_size.toNat
  if st.audio_channels = 1 then decode_adpcm_block_mono src ADPCM_DECODE_BUF_SIZE st.adpcm
  else decode_adpcm_block_stereo src ADPCM_DECODE_BUF_SIZE st.adpcm

/-- The audio-cursor advance after a block read (`audio_chunk_pos += got;`
move to the next chunk when the current one is exhausted).  Shared by the
ADPCM and MP3 fill paths. -/
def advance_audio_cursor (got : Nat) (st : Player) : Player :=
  let st := { st with audio_chunk_pos := st.audio_chunk_pos + got }
  if st.chunkSize ≤ st.audio_chunk_pos then
    { st with audio_chunk_idx := st.audio_chunk_idx + 1, audio_chunk_pos := 0 }
  else st

/-- One iteration of the `read_audio_disk_adpcm` while-loop body (`ctr` is
`skip_count`).  The inner byte-copy loop into the ring advances
`aring_write` by `to_write` per step, totalling `decoded_bytes`; its net
effect `aring_write := (aring_write + decoded_bytes) % AUDIO_RING_SIZE` is
modelled directly (the ring byte contents feed the output sink only).
The block decode reads `st.adpcm` and `st.audio_channels`, which the cursor
advance does not touch. -/
def read_audio_disk_adpcm_iter (env : Env) (free_space skip_count : Int) (st : Player) :
    IterOut :=
  let block_size := adpcm_block_size st
  if block_size < 7 then
    let skip_count := skip_count + 1
    let st := { st with audio_chunk_idx := st.audio_chunk_idx + 1, audio_chunk_pos := 0 }
    { st := st, ctr := skip_count, brk := 100 < skip_count }
  else
    let file_pos := st.chunkOffset + st.audio_chunk_pos
    let got := freadLen env.file file_pos block_size.toNat
    if got < 7 then { st := st, ctr := skip_count, brk := true }
    else
      let dec := adpcm_decode_block env file_pos block_size st
      let st := advance_audio_cursor got st
      let st := { st with adpcm := dec.1 }
      let samples : Int := dec.2
      if samples ≤ 0 then { st := st, ctr := skip_count }
      else
        let decoded_bytes : Int := samples * 2
        let decoded_bytes : Int := if free_space < decoded_bytes then free_space else decoded_bytes
        let st := { st with
          aring_write := (st.aring_write + decoded_bytes) % (AUDIO_RING_SIZE : Int),
          aring_count := st.aring_count + decoded_bytes }
        { st := st, ctr := skip_count, written := decoded_bytes, wrote := true }

/-- The `read_audio_disk_adpcm` while-loop.  The source bounds it by
`loop_count < 500`; the fuel parameter is exactly `500 - loop_count`.  On
the write path the source checks `total_decoded_bytes > 4096` and breaks
after updating the total. -/
def read_audio_disk_adpcm_loop (fuel : Nat) (env : Env)
    (free_space total_decoded skip_count : Int) (st : Player) : Player × Int :=
  match fuel with
  | 0 => (st, total_decoded)
  | fuel + 1 =>
    if 512 < free_space ∧ st.audio_chunk_idx < st.total_audio_chunks then
      let o := read_audio_disk_adpcm_iter env free_space skip_count st
      let total_decoded := total_decoded + o.written
      if o.brk then (o.st, total_decoded)
      else if o.wrote ∧ 4096 < total_decoded then (o.st, total_decoded)
      else read_audio_disk_adpcm_loop fuel env (free_space - o.written) total_decoded o.ctr o.st
    else (st, total_decoded)

/-- `read_audio_disk_adpcm`: returns the state and `total_decoded_bytes`. -/
def read_audio_disk_adpcm (env : Env) (st : Player) : Player × Int :=
  if st.adpcm_block_align ≤ 0 ∨ st.total_audio_chunks ≤ st.audio_chunk_idx then (st, 0)
  else read_audio_disk_adpcm_loop 500 env ((AUDIO_RING_SIZE : Int) - st.aring_count) 0 0 st

/-! ## MP3 path (`mp3_init` / `mp3_reset` / `mp3_fill_input_buffer` /
`read_audio_disk_mp3`) -/

/-- `mp3_init` (`mad_init` is assumed to succeed; a decoder handle state of 0
denotes a freshly initialised handle). -/
def mp3_init (st : Player) : Player :=
  if ¬st.mp3_initialized then
    { st with mp3_initialized := true, mp3_dec := 0, mp3_input_len := 0, mp3_input_remaining := 0 }
  else st

/-- `mp3_reset` (for seek): re-initialise the decoder handle and drop the
staged input bytes. -/
def mp3_reset (st : Player) : Player :=
  let st := if st.mp3_initialized then { st with mp3_dec := 0 } else st
  { st with mp3_input_len := 0, mp3_input_remaining := 0 }

/-- Chunk-reading loop of `mp3_fill_input_buffer`.  Each iteration reads at
least one byte, skips an exhausted chunk, or breaks. -/
def mp3_fill_loop (fuel : Nat) (env : Env) (space : Int) (st : Player) : Player :=
  match fuel with
  | 0 => st
  | fuel + 1 =>
    if 0 < space ∧ st.audio_chunk_idx < st.total_audio_chunks then
      let chunk_size := st.chunkSize
      let remaining := u32sub chunk_size st.audio_chunk_pos
      if remaining = 0 then
        mp3_fill_loop fuel env space
          { st with audio_chunk_idx := st.audio_chunk_idx + 1, audio_chunk_pos := 0 }
      else
        let to_read : Int := if space < (remaining : Int) then space else (remaining : Int)
        let file_pos := st.chunkOffset + st.audio_chunk_pos
        let got := freadLen env.file file_pos to_read.toNat
        if got = 0 then st
        else
          let st := { st with
            mp3_input_len := st.mp3_input_len + got,
            audio_chunk_pos := st.audio_chunk_pos + got }
          let space := space - got
          let st := if chunk_size ≤ st.audio_chunk_pos then
            { st with audio_chunk_idx := st.audio_chunk_idx + 1, audio_chunk_pos := 0 }
          else st
          mp3_fill_loop fuel env space st
    else st

/-- The move-to-buffer-start step at the head of `mp3_fill_input_buffer`
(the `memmove` only relocates bytes; the tracked effect is on
`mp3_input_len`). -/
def mp3_fill_move (st : Player) : Player :=
  if 0 < st.mp3_input_remaining ∧ st.mp3_input_remaining < st.mp3_input_len then
    { st with mp3_input_len := st.mp3_input_remaining }
  else if st.mp3_input_remaining ≤ 0 then { st with mp3_input_len := 0 }
  else st

/-- `mp3_fill_input_buffer`: move unconsumed staged bytes to the buffer
start, then top the staging buffer up from the container's audio chunks.
Returns the state and the new `mp3_input_len`. -/
def mp3_fill_input_buffer (env : Env) (st : Player) : Player × Int :=
  let st := mp3_fill_move st
  let space : Int := (MP3_INPUT_BUF_SIZE : Int) - st.mp3_input_len - 8
  if space ≤ 0 then (st, st.mp3_input_len)
  else
    let st := mp3_fill_loop (space.toNat + st.audio_index.length + 1) env space st
    let st := { st with mp3_input_remaining := st.mp3_input_len }
    (st, st.mp3_input_len)

/-- The ring write of the `MAD_OK` path: stereo input is copied (clamped to
the free space), mono input is duplicated to stereo sample-by-sample (the
per-sample write advances `aring_write` by 4; the net modular effect is
modelled).  Returns the state and the bytes written. -/
def mp3_write_ring (free_space : Int) (bytesDone : Nat) (st : Player) : Player × Int :=
  let actual_channels :=
    if 0 < st.mp3_detected_channels then st.mp3_detected_channels else st.audio_channels
  if actual_channels = 1 then
    let mono_samples : Int := (bytesDone : Int) / 2
    let stereo_bytes : Int := mono_samples * 4
    let mono_samples : Int :=
      if free_space < stereo_bytes then free_space / 4 else mono_samples
    let stereo_bytes : Int :=
      if free_space < stereo_bytes then mono_samples * 4 else stereo_bytes
    ({ st with
      aring_write := (st.aring_write + 4 * mono_samples) % (AUDIO_RING_SIZE : Int),
      aring_count := st.aring_count + stereo_bytes }, stereo_bytes)
  else
    let decoded_bytes : Int := bytesDone
    let decoded_bytes : Int := if free_space < decoded_bytes then free_space else decoded_bytes
    ({ st with
      aring_write := (st.aring_write + decoded_bytes) % (AUDIO_RING_SIZE : Int),
      aring_count := st.aring_count + decoded_bytes }, decoded_bytes)

/-- One iteration of the `read_audio_disk_mp3` while-loop body (`ctr` is
`consecutive_errors`).  `mad_decode` is the opaque oracle `env.mad` over the
decoder handle state and the staged input length. -/
def read_audio_disk_mp3_iter (env : Env) (free_space consecutive_errors : Int)
    (st : Player) : IterOut :=
  let doFill := st.mp3_input_remaining < 2048
  let p := if doFill then mp3_fill_input_buffer env st else (st, 1)
  let st := p.1
  if doFill ∧ p.2 ≤ 0 then { st := st, ctr := consecutive_errors, brk := true }
  else if st.mp3_input_len ≤ 0 then { st := st, ctr := consecutive_errors, brk := true }
  else
    let res := env.mad st.mp3_dec st.mp3_input_len
    let st := { st with mp3_dec := res.newDec }
    match res.code with
    | .ok =>
      let st :=
        if st.mp3_detected_samplerate = 0 then
          match env.madInfo st.mp3_dec with
          | some (sr, ch) =>
            { st with mp3_detected_samplerate := sr, mp3_detected_channels := ch }
          | none => st
        else st
      let st := { st with mp3_input_remaining := st.mp3_input_len - res.bytesRead }
      let st := { st with mp3_input_len := st.mp3_input_remaining }
      if (res.bytesDone : Int) ≤ 0 then { st := st, ctr := 0 }
      else
        let w := mp3_write_ring free_space res.bytesDone st
        { st := w.1, ctr := 0, written := w.2, wrote := true }
    | .needMore =>
      let st := { st with mp3_input_remaining := st.mp3_input_len - res.bytesRead }
      let st := { st with mp3_input_len := st.mp3_input_remaining }
      let q := mp3_fill_input_buffer env st
      if q.2 ≤ 0 then { st := q.1, ctr := consecutive_errors, brk := true }
      else { st := q.1, ctr := consecutive_errors }
    | .err =>
      let consecutive_errors := consecutive_errors + 1
      let bytes_read : Int := if res.bytesRead = 0 then 1 else res.bytesRead
      let st := { st with mp3_input_remaining := st.mp3_input_len - bytes_read }
      let st := { st with mp3_input_len := st.mp3_input_remaining }
      { st := st, ctr := consecutive_errors }
    | .fatal => { st := st, ctr := consecutive_errors, brk := true }

/-- The `read_audio_disk_mp3` while-loop.  Its C termination relies on
decoder progress, so the model takes explicit fuel; on the write path the
source checks `total_decoded_bytes > 4096` and breaks after updating the
total. -/
def read_audio_disk_mp3_loop (fuel : Nat) (env : Env)
    (free_space total_decoded consecutive_errors : Int) (st : Player) : Player × Int :=
  match fuel with
  | 0 => (st, total_decoded)
  | fuel + 1 =>
    if 512 < free_space ∧ consecutive_errors < 100 then
      let o := read_audio_disk_mp3_iter env free_space consecutive_errors st
      let total_decoded := total_decoded + o.written
      if o.brk then (o.st, total_decoded)
      else if o.wrote ∧ 4096 < total_decoded then (o.st, total_decoded)
      else read_audio_disk_mp3_loop fuel env (free_space - o.written) total_decoded o.ctr o.st
    else (st, total_decoded)

/-- `read_audio_disk_mp3` (fuel made explicit). -/
def read_audio_disk_mp3 (env : Env) (fuel : Nat) (st : Player) : Player × Int :=
  if st.total_audio_chunks ≤ st.audio_chunk_idx ∧ st.mp3_input_remaining ≤ 0 then (st, 0)
  else
    let st := mp3_init st
    read_audio_disk_mp3_loop fuel env ((AUDIO_RING_SIZE : Int) - st.aring_count) 0 0 st

/-! ## `refill_audio_ring` -/

/-- `refill_audio_ring`: dispatch on the audio format. -/
def refill_audio_ring (env : Env) (fuel : Nat) (st : Player) : Player :=
  if ¬st.has_audio ∨ st.total_audio_chunks ≤ st.audio_chunk_idx then st
  else if st.audio_format = AUDIO_FMT_ADPCM then (read_audio_disk_adpcm env st).1
  else if st.audio_format = AUDIO_FMT_MP3 then (read_audio_disk_mp3 env fuel st).1
  else refill_pcm_loop (((AUDIO_RING_SIZE : Int) - st.aring_count).toNat + 1) env
    ((AUDIO_RING_SIZE : Int) - st.aring_count) st

/-! ## `play_audio_for_frame` -/

/-- The effective sample rate: the MP3-bitstream-detected rate overrides the
container-declared rate once detected. -/
def effectiveRate (st : Player) : Nat :=
  if st.audio_format = AUDIO_FMT_MP3 ∧ 0 < st.mp3_detected_samplerate then
    st.mp3_detected_samplerate
  else st.audio_sample_rate

/-- The state `seek_to_frame` builds just before its `mp3_reset` call on an
MP3 clip: frame-granular audio cursor, realigned sample counter, empty ring. -/
def mp3SeekTarget (f : Int) (u : Player) : Player :=
  { u with
    current_frame_idx :=
      (if u.total_frames ≤ (if f < 0 then 0 else f) then u.total_frames - 1
        else (if f < 0 then 0 else f)),
    repeat_counter := 0,
    audio_chunk_idx :=
      (if u.total_audio_chunks ≤
          ((u64ofInt (if u.total_frames ≤ (if f < 0 then 0 else f) then u.total_frames - 1
              else (if f < 0 then 0 else f)) * effectiveRate u % U64 / u.clip_fps) /
            (if 32000 ≤ effectiveRate u then 1152 else 576) : Nat)
        then u.total_audio_chunks - 1
        else ((u64ofInt (if u.total_frames ≤ (if f < 0 then 0 else f) then u.total_frames - 1
              else (if f < 0 then 0 else f)) * effectiveRate u % U64 / u.clip_fps) /
            (if 32000 ≤ effectiveRate u then 1152 else 576) : Nat)),
    audio_chunk_pos := 0,
    audio_samples_sent :=
      u64ofInt (if u.total_audio_chunks ≤
          ((u64ofInt (if u.total_frames ≤ (if f < 0 then 0 else f) then u.total_frames - 1
              else (if f < 0 then 0 else f)) * effectiveRate u % U64 / u.clip_fps) /
            (if 32000 ≤ effectiveRate u then 1152 else 576) : Nat)
        then u.total_audio_chunks - 1
        else ((u64ofInt (if u.total_frames ≤ (if f < 0 then 0 else f) then u.total_frames - 1
              else (if f < 0 then 0 else f)) * effectiveRate u % U64 / u.clip_fps) /
            (if 32000 ≤ effectiveRate u then 1152 else 576) : Nat)) *
        (if 32000 ≤ effectiveRate u then 1152 else 576) % U64 % U64,
    aring_read := 0, aring_write := 0, aring_count := 0 }

/-- `expected = (uint64_t)current_frame_idx * effective_rate / clip_fps +
sync_offset` with `sync_offset = effective_rate / 10` (~0.1 s lead),
computed in `uint64_t`. -/
def expectedSamples (st : Player) : Nat :=
  let effective_rate := effectiveRate st
  let sync_offset := effective_rate / 10
  (u64ofInt st.current_frame_idx * effective_rate % U64 / st.clip_fps + sync_offset) % U64

/-- `int64_t to_send = expected - audio_samples_sent` (`uint64_t`
subtraction reinterpreted as `int64_t`). -/
def toSend (st : Player) : Int :=
  i64ofU64 ((((expectedSamples st : Int) - (st.audio_samples_sent : Int)).emod (U64 : Int)).toNat)

/-- The two clamps on the send request: `to_send` is clamped to
`MAX_AUDIO_BUFFER`, and `bytes_needed = to_send * audio_bytes_per_sample`
is clamped to `sizeof(temp) = MAX_AUDIO_BUFFER * 4 = 16384` (re-deriving
`to_send` when that clamp bites).  Returns (to_send, bytes_needed). -/
def sendRequest (st : Player) : Int × Int :=
  let to_send := toSend st
  let to_send : Int := if (MAX_AUDIO_BUFFER : Int) < to_send then MAX_AUDIO_BUFFER else to_send
  let bytes_needed : Int := to_send * st.audio_bytes_per_sample
  let to_send : Int :=
    if 16384 < bytes_needed then 16384 / (st.audio_bytes_per_sample : Int) else to_send
  let bytes_needed : Int := if 16384 < bytes_needed then 16384 else bytes_needed
  (to_send, bytes_needed)

/-- The per-format output conversion loops: each matching branch emits one
output sample per input sample, bounded by `out < MAX_AUDIO_BUFFER`; an
unmatched format emits nothing. -/
def outSamples (st : Player) (got_samples : Int) : Int :=
  let effective_bits : Nat :=
    if st.audio_format = AUDIO_FMT_ADPCM ∨ st.audio_format = AUDIO_FMT_MP3 then 16
    else st.audio_bits
  let effective_channels : Nat :=
    if st.audio_format = AUDIO_FMT_MP3 then 2 else st.audio_channels
  if effective_channels = 1 ∧ effective_bits = 16 then
    if got_samples < (MAX_AUDIO_BUFFER : Int) then got_samples else MAX_AUDIO_BUFFER
  else if effective_channels = 2 ∧ effective_bits = 16 then
    if got_samples < (MAX_AUDIO_BUFFER : Int) then got_samples else MAX_AUDIO_BUFFER
  else if effective_bits = 8 then
    if got_samples < (MAX_AUDIO_BUFFER : Int) then got_samples else MAX_AUDIO_BUFFER
  else 0

/-- `play_audio_for_frame`: opportunistic refill below the half-full
threshold, then compute the due sample count from the video position and
deliver it from the ring to the output sink.  Returns the state and the
sample count handed to the sink (`out`, 0 if nothing was sent). -/
def play_audio_for_frame (env : Env) (fuel : Nat) (st : Player) : Player × Nat :=
  if ¬st.has_audio ∨ ¬env.hasAudioCb ∨ st.audio_bytes_per_sample = 0 then (st, 0)
  else
    let st := if st.aring_count < (AUDIO_REFILL_THRESHOLD : Int) then refill_audio_ring env fuel st
      else st
    if toSend st ≤ 0 then (st, 0)
    else
      let q := sendRequest st
      let p := read_audio_ring q.2 st
      let st := p.1
      let got_samples : Int := p.2 / (st.audio_bytes_per_sample : Int)
      if got_samples ≤ 0 then (st, 0)
      else
        let out : Int := outSamples st got_samples
        if 0 < out then
          ({ st with audio_samples_sent := (st.audio_samples_sent + out.toNat) % U64 }, out.toNat)
        else (st, 0)

/-! ## `seek_to_frame` -/

/-- Chunk-table walk of the ADPCM seek branch: accumulate chunk sizes until
the target byte falls inside a chunk, then align the in-chunk position down
to a block boundary.  Returns (chunk index, in-chunk byte position). -/
def adpcm_seek_walk (block_align target_bytes : Nat) :
    List (Nat × Nat) → Int → Nat → Int × Nat
  | [], idx, _ => (idx, 0)
  | e :: rest, idx, bytes_so_far =>
    if target_bytes < bytes_so_far + e.2 then
      (idx, (target_bytes - bytes_so_far) / block_align * block_align)
    else adpcm_seek_walk block_align target_bytes rest (idx + 1) (bytes_so_far + e.2)

/-- Chunk-table walk of the PCM seek branch. -/
def pcm_seek_walk (target_bytes : Nat) : List (Nat × Nat) → Int → Nat → Int × Nat
  | [], idx, _ => (idx, 0)
  | e :: rest, idx, bytes_so_far =>
    if target_bytes < bytes_so_far + e.2 then (idx, target_bytes - bytes_so_far)
    else pcm_seek_walk target_bytes rest (idx + 1) (bytes_so_far + e.2)

/-- `seek_to_frame`: clamp the target, set the transport cursor, re-derive
the audio cursor per codec, reset the ring, and refill (except for MP3,
which instead resets its decoder).  The trailing `decode_single_frame`
call touches only video-side state and is modelled in the video section. -/
def seek_to_frame (env : Env) (fuel : Nat) (target_frame : Int) (st : Player) : Player :=
  let target_frame := if target_frame < 0 then 0 else target_frame
  let target_frame := if st.total_frames ≤ target_frame then st.total_frames - 1 else target_frame
  let s1 := { st with current_frame_idx := target_frame, repeat_counter := 0 }
  if st.has_audio ∧ 0 < st.audio_bytes_per_sample then
    let effective_rate := effectiveRate st
    let time_samples : Nat := u64ofInt target_frame * effective_rate % U64 / st.clip_fps
    let s2 := { s1 with audio_chunk_idx := 0, audio_chunk_pos := 0 }
    let q : Player × Nat :=
      if st.audio_format = AUDIO_FMT_MP3 then
        let samples_per_mp3_frame : Nat := if 32000 ≤ effective_rate then 1152 else 576
        let idx : Int := (time_samples / samples_per_mp3_frame : Nat)
        let idx : Int := if st.total_audio_chunks ≤ idx then st.total_audio_chunks - 1 else idx
        ({ s2 with audio_chunk_idx := idx, audio_chunk_pos := 0 },
          u64ofInt idx * samples_per_mp3_frame % U64)
      else if st.audio_format = AUDIO_FMT_ADPCM ∧ 0 < st.adpcm_samples_per_block ∧
          0 < st.adpcm_block_align then
        let target_blocks := time_samples / st.adpcm_samples_per_block.toNat
        let target_bytes := target_blocks * st.adpcm_block_align % U64
        let w := adpcm_seek_walk st.adpcm_block_align target_bytes st.audio_index 0 0
        ({ s2 with audio_chunk_idx := w.1, audio_chunk_pos := w.2 }, time_samples)
      else
        let target_bytes := time_samples * st.audio_bytes_per_sample % U64
        let w := pcm_seek_walk target_bytes st.audio_index 0 0
        ({ s2 with audio_chunk_idx := w.1, audio_chunk_pos := w.2 }, time_samples)
    let s3 := { q.1 with
      audio_samples_sent := q.2 % U64,
      aring_read := 0, aring_write := 0, aring_count := 0 }
    if st.audio_format = AUDIO_FMT_MP3 then mp3_reset s3
    else refill_audio_ring env fuel s3
  else s1

/-! ## Transport tick (`retro_run` playback core) and the other public
operations -/

/-- The repeat-counter increment and conditional frame advance of the tick
(`repeat_counter++; if (repeat_counter >= repeat_count) { repeat_counter =
0; current_frame_idx++; }`). -/
def tick_advance (st : Player) : Player :=
  let st := { st with repeat_counter := st.repeat_counter + 1 }
  if st.repeat_count ≤ st.repeat_counter then
    { st with repeat_counter := 0, current_frame_idx := st.current_frame_idx + 1 }
  else st

/-- The loop-reset assignments of the tick (everything zeroed before
`mp3_reset()` runs). -/
def loop_reset (st : Player) : Player :=
  { st with
    current_frame_idx := 0, audio_chunk_idx := 0, audio_chunk_pos := 0,
    audio_samples_sent := 0, aring_read := 0, aring_write := 0, aring_count := 0 }

/-- The playback block of `retro_run` (`if (is_playing && !is_paused)`),
returning the new state and the index of the video frame decoded this tick
(`none` when the previous image is redisplayed or nothing was decoded). -/
def tick (env : Env) (fuel : Nat) (st : Player) : Player × Option Int :=
  if st.is_playing ∧ ¬st.is_paused then
    let decoded : Option Int :=
      if st.repeat_counter = 0 ∧ st.current_frame_idx < st.total_frames then
        some st.current_frame_idx
      else none
    let s1 := (play_audio_for_frame env fuel (tick_advance st)).1
    let s2 :=
      if s1.total_frames ≤ s1.current_frame_idx then
        refill_audio_ring env fuel { (mp3_reset (loop_reset s1)) with repeat_counter := 0 }
      else s1
    (s2, decoded)
  else (st, none)

/-- The A-button pause toggle of `retro_run`. -/
def toggle_pause (st : Player) : Player := { st with is_paused := ¬st.is_paused }

/-- `retro_reset`. -/
def retro_reset (st : Player) : Player :=
  let st := { st with
    current_frame_idx := 0, audio_chunk_idx := 0, audio_chunk_pos := 0,
    audio_samples_sent := 0, aring_read := 0, aring_write := 0, aring_count := 0 }
  let st := mp3_reset st
  { st with repeat_counter := 0 }

/-! ## Container indexer (`check4` / `read32` / `check_chunk_header` /
`check_jpeg_magic` / `parse_idx1` / `scan_movi_buffered` / `parse_avi`)

File positions are explicit; `fseek` always succeeds (the SF2000 filesystem
shim permits seeking past end of file, after which `fread` returns 0
bytes). -/

/-- `check4`: read 4 bytes and compare with a tag. -/
def check4 (f : List Nat) (pos : Nat) (tag : List Nat) : Bool :=
  freadLen f pos 4 = 4 ∧ freadList f pos 4 = tag

/-- `read32`: read a little-endian `uint32_t`, `none` on short read. -/
def read32 (f : List Nat) (pos : Nat) : Option Nat :=
  if freadLen f pos 4 = 4 then some (read_u32_le (freadList f pos 4)) else none

/-- `check_chunk_header`: is there a valid `##dc` / `##wb` sub-chunk header
at `offset`?  (Negative offsets are rejected up front in the source.) -/
def check_chunk_header (f : List Nat) (offset : Int) : Bool :=
  if offset < 0 then false
  else
    let h := freadList f offset.toNat 4
    h.length = 4 ∧ 48 ≤ h.getD 0 0 ∧ h.getD 0 0 ≤ 57 ∧ 48 ≤ h.getD 1 0 ∧ h.getD 1 0 ≤ 57 ∧
      ((Nat.lor (h.getD 2 0) 32 = 100 ∧ Nat.lor (h.getD 3 0) 32 = 99) ∨
        (Nat.lor (h.getD 2 0) 32 = 119 ∧ Nat.lor (h.getD 3 0) 32 = 98))

/-- `check_jpeg_magic`: FF D8 at `offset`.  (For a negative offset the C
`fseek` fails and the subsequent read happens at the saved position; the
probe is modelled as failing there.) -/
def check_jpeg_magic (f : List Nat) (offset : Int) : Bool :=
  if offset < 0 then false
  else freadLen f offset.toNat 2 = 2 ∧ freadList f offset.toNat 2 = [255, 216]

/-- The idx1 probe loop: scan up to `min num_entries 100` records looking for
the first video (`dc`) record; returns its stored offset and size. -/
def idx1_probe (f : List Nat) (pos : Nat) : Nat → Option (Nat × Nat)
  | 0 => none
  | n + 1 =>
    if freadLen f pos 16 = 16 then
      let e := freadList f pos 16
      if (e.getD 2 0 = 100 ∨ e.getD 2 0 = 68) ∧ (e.getD 3 0 = 99 ∨ e.getD 3 0 = 67) then
        some (read_u32_le (e.drop 8), read_u32_le (e.drop 12))
      else idx1_probe f (pos + 16) n
    else none

/-- Offset-base auto-detection: the chunk-header probe over the three base
conventions, then the JPEG-magic fallback variants.  Returns
(offset_base, add_header). -/
def detect_idx1_base (f : List Nat) (movi_data_start first_video_offset : Nat) :
    Option (Int × Nat) :=
  if check_chunk_header f (movi_data_start + first_video_offset) then
    some ((movi_data_start : Int), 8)
  else if check_chunk_header f (first_video_offset : Int) then some (0, 8)
  else if check_chunk_header f ((movi_data_start : Int) - 4 + first_video_offset) then
    some ((movi_data_start : Int) - 4, 8)
  else if check_jpeg_magic f (movi_data_start + first_video_offset + 8) then
    some ((movi_data_start : Int), 8)
  else if check_jpeg_magic f (movi_data_start + first_video_offset) then
    some ((movi_data_start : Int), 0)
  else if check_jpeg_magic f (first_video_offset + 8) then some (0, 8)
  else if check_jpeg_magic f (first_video_offset : Int) then some (0, 0)
  else none

/-- Cast a C `long` expression to `uint32_t` (the index tables store 32-bit
offsets). -/
def u32ofInt (i : Int) : Nat := (i.emod (U32 : Int)).toNat

/-- Classify and record one 16-byte idx1 record. -/
def idx1_entry (offset_base : Int) (add_header : Nat) (e : List Nat) (st : Player) : Player :=
  let offset := read_u32_le (e.drop 8)
  let size := read_u32_le (e.drop 12)
  let abs_data_offset := u32ofInt (offset_base + offset + add_header)
  if (e.getD 2 0 = 100 ∨ e.getD 2 0 = 68) ∧ (e.getD 3 0 = 99 ∨ e.getD 3 0 = 67) then
    if st.frame_index.length < MAX_FRAMES then
      { st with frame_index := st.frame_index ++ [(abs_data_offset, size)] }
    else st
  else if (e.getD 2 0 = 119 ∨ e.getD 2 0 = 87) ∧ (e.getD 3 0 = 98 ∨ e.getD 3 0 = 66) then
    if st.audio_index.length < MAX_AUDIO_CHUNKS then
      { st with audio_index := st.audio_index ++ [(abs_data_offset, size)],
                total_audio_bytes := (st.total_audio_bytes + size) % U32 }
    else st
  else st

/-- Record `cnt` consecutive idx1 records starting at `pos`. -/
def idx1_apply_entries (offset_base : Int) (add_header : Nat) (f : List Nat) :
    Nat → Nat → Player → Player
  | _, 0, st => st
  | pos, n + 1, st =>
    idx1_apply_entries offset_base add_header f (pos + 16) n
      (idx1_entry offset_base add_header (freadList f pos 16) st)

/-- Block-buffered full parse of the idx1 records (`while entries_done <
num_entries`, reading up to `entries_per_block = MAX_JPEG_SIZE/16 = 4096`
records per `fread`; a block read returning 0 complete records stops). -/
def idx1_parse_all (offset_base : Int) (add_header : Nat) (f : List Nat) :
    Nat → Nat → Nat → Nat → Player → Player
  | 0, _, _, _, st => st
  | fuel + 1, pos, num_entries, entries_done, st =>
    if entries_done < num_entries then
      let to_read := min (num_entries - entries_done) 4096
      let got := min to_read ((f.length - pos) / 16)
      if got = 0 then st
      else idx1_parse_all offset_base add_header f fuel (pos + 16 * got) num_entries
        (entries_done + got) (idx1_apply_entries offset_base add_header f pos got st)
    else st

/-- Body of `parse_idx1` once the `idx1` tag has been found: `chunk_size` is
the idx1 chunk size and `idx_start` the position of its first record. -/
def parse_idx1_found (f : List Nat) (movi_data_start chunk_size idx_start : Nat)
    (st : Player) : Bool × Player :=
  let num_entries := chunk_size / 16
  match idx1_probe f idx_start (min num_entries 100) with
  | none => (false, st)
  | some fv =>
    match detect_idx1_base f movi_data_start fv.1 with
    | none => (false, st)
    | some ba =>
      (true, idx1_parse_all ba.1 ba.2 f (num_entries + 1) idx_start num_entries 0 st)

/-- Search loop of `parse_idx1`: scan forward chunk-by-chunk from the
current position (the end of `movi`) for an `idx1` chunk. -/
def parse_idx1_loop (f : List Nat) (movi_data_start : Nat) :
    Nat → Nat → Player → Bool × Player
  | 0, _, st => (false, st)
  | fuel + 1, pos, st =>
    if freadLen f pos 4 = 4 then
      let tag := freadList f pos 4
      match read32 f (pos + 4) with
      | none => (false, st)
      | some chunk_size =>
        if tag = [105, 100, 120, 49] then
          parse_idx1_found f movi_data_start chunk_size (pos + 8) st
        else parse_idx1_loop f movi_data_start fuel (pos + 8 + chunk_size + chunk_size % 2) st
    else (false, st)

/-- `parse_idx1`. -/
def parse_idx1 (f : List Nat) (movi_data_start search_pos : Nat) (st : Player) :
    Bool × Player :=
  parse_idx1_loop f movi_data_start (f.length + 1) search_pos st

/-- `scan_movi_buffered`: the linear media-data fallback scan. -/
def scan_movi_loop (f : List Nat) (movi_end : Nat) : Nat → Nat → Player → Player
  | 0, _, st => st
  | fuel + 1, pos, st =>
    if pos < movi_end ∧ st.frame_index.length < MAX_FRAMES then
      if freadLen f pos 8 = 8 then
        let header := freadList f pos 8
        let fsize := read_u32_le (header.drop 4)
        let data_pos := pos + 8
        let st :=
          if (header.getD 2 0 = 100 ∨ header.getD 2 0 = 68) ∧
              (header.getD 3 0 = 99 ∨ header.getD 3 0 = 67) then
            { st with frame_index := st.frame_index ++ [(data_pos % U32, fsize)] }
          else if (header.getD 2 0 = 119 ∨ header.getD 2 0 = 87) ∧
              (header.getD 3 0 = 98 ∨ header.getD 3 0 = 66) then
            if st.audio_index.length < MAX_AUDIO_CHUNKS then
              { st with audio_index := st.audio_index ++ [(data_pos % U32, fsize)],
                        total_audio_bytes := (st.total_audio_bytes + fsize) % U32 }
            else st
          else st
        scan_movi_loop f movi_end fuel (data_pos + fsize + fsize % 2) st
      else st
    else st

/-- `scan_movi_buffered` entry point. -/
def scan_movi_buffered (f : List Nat) (movi_start movi_end : Nat) (st : Player) : Player :=
  scan_movi_loop f movi_end (movi_end + 1) movi_start st

/-- A file that is a bare `idx1` chunk with 101 records: one hundred audio
(`01wb`) records followed by a single video (`01dc`) record. -/
def W10f : List Nat :=
  [105, 100, 120, 49, 80, 6, 0, 0] ++
  (List.replicate 100 [48, 49, 119, 98, 0, 0, 0, 0, 0, 0, 0, 0, 0, 0, 0, 0]).flatten ++
  [48, 49, 100, 99, 0, 0, 0, 0, 0, 0, 0, 0, 0, 0, 0, 0]

/-- The `avih` handler inside the hdrl walk: frame timing and repeat count.
Returns the state and the file position after the handler. -/
def parse_avih (f : List Nat) (pos hsize : Nat) (st : Player) : Player × Nat :=
  let got := freadLen f pos (min hsize 56)
  if 4 ≤ hsize ∧ 4 ≤ got then
    let buf := freadList f pos (min hsize 56)
    let st := { st with us_per_frame := read_u32_le buf }
    let st :=
      if 0 < st.us_per_frame then
        let fps := 1000000 / st.us_per_frame
        { st with clip_fps := if fps = 0 then 1 else fps }
      else st
    let st := { st with repeat_count :=
      if 25 ≤ st.clip_fps then 1 else if 12 ≤ st.clip_fps then 2 else 3 }
    (st, pos + got + (if 56 < hsize then hsize - 56 else 0))
  else
    -- the short-circuited fread still advanced by `got` bytes when it ran
    (st, pos + (if 4 ≤ hsize then got else 0) + hsize)

/-- The `strh` handler inside a strl walk: stream classification and the
video fourcc.  Returns (state, stream type, position). -/
def parse_strh (f : List Nat) (pos shsize : Nat) (strl_type : Nat) (st : Player) :
    Player × Nat × Nat :=
  let got := freadLen f pos (min shsize 64)
  if 8 ≤ shsize ∧ 8 ≤ got then
    let buf := freadList f pos (min shsize 64)
    let p :=
      if buf.take 4 = [97, 117, 100, 115] then (st, 2)
      else if buf.take 4 = [118, 105, 100, 115] then
        ({ st with video_fourcc := [buf.getD 4 0, buf.getD 5 0, buf.getD 6 0, buf.getD 7 0] }, 1)
      else (st, strl_type)
    (p.1, p.2, pos + got + (if 64 < shsize then shsize - 64 else 0))
  else (st, strl_type, pos + (if 8 ≤ shsize then got else 0) + shsize)

/-- The audio `strf` handler (WAVEFORMATEX): codec selection and the
44 kHz audio-disable policy. -/
def parse_strf_audio (f : List Nat) (pos shsize : Nat) (st : Player) : Player × Nat :=
  let got := freadLen f pos (min shsize 64)
  if 16 ≤ got then
    let buf := freadList f pos (min shsize 64)
    let fmt := read_u16_le buf
    let st := { st with
      audio_channels := read_u16_le (buf.drop 2),
      audio_sample_rate := read_u32_le (buf.drop 4),
      adpcm_block_align := read_u16_le (buf.drop 12),
      audio_bits := read_u16_le (buf.drop 14) }
    let st :=
      if fmt = 1 ∧ 0 < st.audio_channels ∧ 0 < st.audio_sample_rate then
        { st with
          has_audio := true, audio_format := AUDIO_FMT_PCM,
          audio_bytes_per_sample := st.audio_bits / 8 * st.audio_channels }
      else if fmt = 2 ∧ 0 < st.audio_channels ∧ 0 < st.audio_sample_rate then
        let st := { st with
          has_audio := true, audio_format := AUDIO_FMT_ADPCM,
          audio_bytes_per_sample := 2 * st.audio_channels }
        if 20 ≤ shsize then
          { st with adpcm_samples_per_block := (read_u16_le (buf.drop 18) : Int) }
        else
          let header : Int := if st.audio_channels = 1 then 7 else 14
          { st with adpcm_samples_per_block :=
            2 + Int.tdiv (((st.adpcm_block_align : Int) - header) * 2) st.audio_channels }
      else if fmt = 85 ∧ 0 < st.audio_channels ∧ 0 < st.audio_sample_rate then
        { st with has_audio := true, audio_format := AUDIO_FMT_MP3, audio_bytes_per_sample := 4 }
      else st
    let st :=
      if 44000 ≤ st.audio_sample_rate then { st with has_audio := false, audio_format := 0 }
      else st
    (st, pos + got + (if 64 < shsize then shsize - 64 else 0))
  else (st, pos + got)

/-- The video `strf` handler (BITMAPINFOHEADER, 40-byte form with trailing
codec extradata). -/
def parse_strf_video40 (f : List Nat) (pos shsize : Nat) (st : Player) : Player × Nat :=
  let got := freadLen f pos 40
  if got = 40 then
    let buf := freadList f pos 40
    let st := { st with xvid_width := (read_u32_le (buf.drop 4) : Int),
                        xvid_height := (read_u32_le (buf.drop 8) : Int) }
    let st :=
      if st.video_fourcc.getD 0 0 = 0 ∨ st.video_fourcc.getD 0 0 = 32 then
        { st with video_fourcc := [buf.getD 16 0, buf.getD 17 0, buf.getD 18 0, buf.getD 19 0] }
      else st
    let extradata_len := shsize - 40
    if 0 < extradata_len ∧ extradata_len ≤ MAX_EXTRADATA_SIZE then
      let gotx := freadLen f (pos + 40) extradata_len
      let st := if gotx = extradata_len then
        { st with mpeg4_extradata := freadList f (pos + 40) extradata_len }
      else st
      (st, pos + 40 + gotx)
    else if MAX_EXTRADATA_SIZE < extradata_len then (st, pos + 40 + extradata_len)
    else (st, pos + 40)
  else (st, pos + got)

/-- The video `strf` handler (short 20-byte BITMAPINFOHEADER form). -/
def parse_strf_video20 (f : List Nat) (pos shsize : Nat) (st : Player) : Player × Nat :=
  let got := freadLen f pos 20
  if got = 20 then
    let buf := freadList f pos 20
    let st := { st with xvid_width := (read_u32_le (buf.drop 4) : Int),
                        xvid_height := (read_u32_le (buf.drop 8) : Int) }
    let st :=
      if st.video_fourcc.getD 0 0 = 0 ∨ st.video_fourcc.getD 0 0 = 32 then
        { st with video_fourcc := [buf.getD 16 0, buf.getD 17 0, buf.getD 18 0, buf.getD 19 0] }
      else st
    (st, pos + 20 + (if 20 < shsize then shsize - 20 else 0))
  else (st, pos + got)

/-- The strl sub-list walk (`while ftell < strl_end`). -/
def parse_strl_loop (f : List Nat) (strl_end : Nat) :
    Nat → Nat → Nat → Player → Player × Nat
  | 0, pos, _, st => (st, pos)
  | fuel + 1, pos, strl_type, st =>
    if pos < strl_end then
      if freadLen f pos 4 = 4 then
        let htag := freadList f pos 4
        match read32 f (pos + 4) with
        | none => (st, pos + 4 + freadLen f (pos + 4) 4)
        | some shsize =>
          if htag = [115, 116, 114, 104] then
            let r := parse_strh f (pos + 8) shsize strl_type st
            parse_strl_loop f strl_end fuel r.2.2 r.2.1 r.1
          else if htag = [115, 116, 114, 102] then
            if strl_type = 2 ∧ 16 ≤ shsize then
              let r := parse_strf_audio f (pos + 8) shsize st
              parse_strl_loop f strl_end fuel r.2 strl_type r.1
            else if strl_type = 1 ∧ 40 ≤ shsize then
              let r := parse_strf_video40 f (pos + 8) shsize st
              parse_strl_loop f strl_end fuel r.2 strl_type r.1
            else if strl_type = 1 ∧ 20 ≤ shsize then
              let r := parse_strf_video20 f (pos + 8) shsize st
              parse_strl_loop f strl_end fuel r.2 strl_type r.1
            else parse_strl_loop f strl_end fuel (pos + 8 + shsize) strl_type st
          else parse_strl_loop f strl_end fuel (pos + 8 + shsize + shsize % 2) strl_type st
      else (st, pos)
    else (st, pos)

/-- The hdrl list walk (`while ftell < hdrl_end`). -/
def parse_hdrl_loop (f : List Nat) (hdrl_end : Nat) : Nat → Nat → Player → Player × Nat
  | 0, pos, st => (st, pos)
  | fuel + 1, pos, st =>
    if pos < hdrl_end then
      if freadLen f pos 4 = 4 then
        let htag := freadList f pos 4
        match read32 f (pos + 4) with
        | none => (st, pos + 4 + freadLen f (pos + 4) 4)
        | some hsize =>
          if htag = [97, 118, 105, 104] then
            let r := parse_avih f (pos + 8) hsize st
            parse_hdrl_loop f hdrl_end fuel r.2 r.1
          else if htag = [76, 73, 83, 84] then
            if freadLen f (pos + 8) 4 = 4 then
              if freadList f (pos + 8) 4 = [115, 116, 114, 108] then
                let strl_end := pos + 8 + hsize
                let r := parse_strl_loop f strl_end (strl_end + 1) (pos + 12) 0 st
                parse_hdrl_loop f hdrl_end fuel r.2 r.1
              else parse_hdrl_loop f hdrl_end fuel (pos + 12 + u32sub hsize 4) st
            else (st, pos + 8 + freadLen f (pos + 8) 4)
          else parse_hdrl_loop f hdrl_end fuel (pos + 8 + hsize + hsize % 2) st
      else (st, pos)
    else (st, pos)

/-- Classification of the video codec family from the fourcc against the
two allow-lists (MJPEG variants vs MPEG-4 Part 2 variants), defaulting to
MJPEG. -/
def classify_fourcc (st : Player) : Player :=
  if st.video_fourcc.getD 0 0 ≠ 0 then
    let up : Nat → Nat := fun c => if 97 ≤ c ∧ c ≤ 122 then c - 32 else c
    let fc := (st.video_fourcc.take 4).map up
    if fc = [77, 74, 80, 71] ∨ fc = [74, 80, 69, 71] ∨ fc = [65, 86, 82, 78] ∨
        fc = [68, 77, 66, 49] ∨ fc = [77, 74, 76, 83] then
      { st with video_codec_type := CODEC_TYPE_MJPEG }
    else if fc = [88, 86, 73, 68] ∨ fc = [68, 73, 86, 88] ∨ fc = [68, 88, 53, 48] ∨
        fc = [70, 77, 80, 52] ∨ fc = [77, 80, 52, 86] ∨ fc = [77, 80, 52, 83] ∨
        fc = [77, 52, 83, 50] ∨ fc = [51, 73, 86, 50] ∨ fc = [66, 76, 90, 48] then
      { st with video_codec_type := CODEC_TYPE_MPEG4 }
    else { st with video_codec_type := CODEC_TYPE_MJPEG }
  else { st with video_codec_type := CODEC_TYPE_MJPEG }

/-- The top-level chunk walk of `parse_avi`.  The `movi` branch records the
media-data range, tries the idx1 path from the end of `movi`, falls back to
the linear scan when it is rejected, and breaks out of the walk. -/
def parse_avi_loop (f : List Nat) : Nat → Nat → Player → Player
  | 0, _, st => st
  | fuel + 1, pos, st =>
    if freadLen f pos 4 = 4 then
      let tag := freadList f pos 4
      match read32 f (pos + 4) with
      | none => st
      | some chunk_size =>
        if tag = [76, 73, 83, 84] then
          if freadLen f (pos + 8) 4 = 4 then
            let list_type := freadList f (pos + 8) 4
            if list_type = [104, 100, 114, 108] then
              let hdrl_end := pos + 8 + chunk_size
              let r := parse_hdrl_loop f hdrl_end (hdrl_end + 1) (pos + 12) st
              parse_avi_loop f fuel r.2 r.1
            else if list_type = [109, 111, 118, 105] then
              let movi_start := pos + 12
              let movi_end := pos + 8 + chunk_size
              let r := parse_idx1 f movi_start movi_end st
              if ¬r.1 then scan_movi_buffered f movi_start movi_end r.2 else r.2
            else parse_avi_loop f fuel (pos + 12 + u32sub chunk_size 4) st
          else st
        else parse_avi_loop f fuel (pos + 8 + chunk_size + chunk_size % 2) st
    else st

/-- `parse_avi`: validate the RIFF/AVI signature, reset the indexing and
descriptor state, walk the top-level chunks, classify the codec, and
succeed iff at least one video frame was indexed. -/
def parse_avi (f : List Nat) (st : Player) : Bool × Player :=
  if ¬check4 f 0 [82, 73, 70, 70] then (false, st)
  else if (read32 f 4).isNone then (false, st)
  else if ¬check4 f 8 [65, 86, 73, 32] then (false, st)
  else
    let st := { st with
      frame_index := [], audio_index := [], total_audio_bytes := 0,
      clip_fps := 30, us_per_frame := 33333, repeat_count := 1,
      has_audio := false, audio_format := 0,
      adpcm_block_align := 0, adpcm_samples_per_block := 0,
      video_codec_type := CODEC_TYPE_UNKNOWN, video_fourcc := [0, 0, 0, 0],
      mpeg4_extradata := [], mpeg4_extradata_sent := false }
    let st := parse_avi_loop f (f.length + 1) 12 st
    let st := classify_fourcc st
    (0 < st.frame_index.length, st)

/-- `open_video` (the file itself stands in for `fopen` succeeding): tear
down the previous decoder state, parse, and on success reset all playback
state, pre-fill the audio ring and start playing.  On a parse failure the
caller sees only `false` — but the state mutated by the attempted parse is
left in place.  (`close_xvid`, `mpeg4_error_shown` and the immediate MJPEG
first-frame decode touch only video-side state, modelled separately.) -/
def open_video (env : Env) (fuel : Nat) (st : Player) : Bool × Player :=
  let r := parse_avi env.file st
  if ¬r.1 then (false, r.2)
  else
    let st := r.2
    let st := { st with
      current_frame_idx := 0, audio_chunk_idx := 0, audio_chunk_pos := 0,
      audio_samples_sent := 0, aring_read := 0, aring_write := 0, aring_count := 0 }
    let st := mp3_reset st
    let st := { st with mp3_detected_samplerate := 0, mp3_detected_channels := 0,
                        repeat_counter := 0 }
    let st := refill_audio_ring env fuel st
    (true, { st with is_playing := true })

/-- The frame index decoded immediately by `open_video` (frame 0 for MJPEG;
for MPEG-4 the first decode is deferred to the first `retro_run` tick,
which decodes the same index 0). -/
def open_decoded_frame (st : Player) : Option Int :=
  if st.video_codec_type ≠ CODEC_TYPE_MPEG4 then some 0 else none

/-! ## Video decode paths (`decode_mpeg4_frame` / `decode_single_frame`)

Framebuffer effects.  The Xvid and TJpgDec bitstream internals are opaque
decode functions (vendored libraries); their outcomes are oracle fields of
a video environment.  The framebuffer is a pixel function `Nat → Nat`. -/

/-- `XVID_TYPE_VOL` from the vendored Xvid API headers. -/
def XVID_TYPE_VOL : Int := -1

/-- One `xvid_decore(XVID_DEC_DECODE)` outcome: return value (consumed
bytes, or negative on error), `xstats.type`, and the VOL dimensions when a
VOL was parsed. -/
structure XvidRes where
  ret : Int := 0
  statsType : Int := 0
  volW : Int := 0
  volH : Int := 0

/-- Video-side environment: decoder oracles and the pixel outputs of the
out-of-scope pixel transforms (`draw_str` glyphs in the debug overlay, the
YUV-to-RGB conversion, the TJpgDec output callbacks). -/
structure VEnv where
  xvidInitOk : Bool := true
  xvid : Nat → XvidRes := fun _ => {}
  hexPixels : Nat → Nat := fun _ => 0
  yuvPixels : Nat → Nat := fun _ => 0
  jpegPixels : Nat → Nat := fun _ => 0
  jpegPartial : (Nat → Nat) → Nat → Nat := fun fb => fb
  jdPrepareOk : Bool := true
  jdDecompOk : Bool := true
  jdecWidth : Nat := 320
  jdecHeight : Nat := 240

/-- Video-side globals: the framebuffer, the Xvid handle flag and the
detected MJPEG dimensions. -/
structure VideoSt where
  fb : Nat → Nat := fun _ => 0
  xvid_initialized : Bool := false
  video_width : Nat := 320
  video_height : Nat := 240

/-- `0xF800` (red: Xvid init failed) and `0xFD20` (orange: decode error). -/
def FB_RED : Nat := 63488

def FB_ORANGE : Nat := 64800

/-- `debug_fill_screen`. -/
def debug_fill_screen (color : Nat) : Nat → Nat := fun _ => color

/-- `debug_show_hex`: clears the top 30 pixel rows and draws the debug text
over them (glyph pixels from the environment); the rest of the framebuffer
is untouched. -/
def debug_show_hex (venv : VEnv) (fb : Nat → Nat) : Nat → Nat :=
  fun i => if i < 320 * 30 then venv.hexPixels i else fb i

/-- `calculate_scaling` (the scale factor and centering offsets are pure
display placement, out of scope; the detected dimensions are kept). -/
def calculate_scaling (w h : Nat) (v : VideoSt) : VideoSt :=
  { v with video_width := w, video_height := h }

/-- The sub-unit consumption loop of `decode_mpeg4_frame` (`do ... while
(xstats.type <= 0 && ret > 0 && remaining > 4 && loops < 10)`); the body has
already run once when the fuel (`10 - loops`) is consulted.  Returns the
updated state, the last `ret` and the last `xstats.type`. -/
def decode_mpeg4_loop (venv : VEnv) : Nat → Nat → Int → Player → Player × Int × Int
  | fuel, callIdx, remaining, st =>
    let res := venv.xvid callIdx
    let st :=
      if res.statsType = XVID_TYPE_VOL then
        let st := if 0 < res.volW then { st with xvid_width := res.volW } else st
        if 0 < res.volH then { st with xvid_height := res.volH } else st
      else st
    let remaining := if 0 < res.ret then remaining - res.ret else remaining
    match fuel with
    | 0 => (st, res.ret, res.statsType)
    | fuel + 1 =>
      if res.statsType ≤ 0 ∧ 0 < res.ret ∧ 4 < remaining then
        decode_mpeg4_loop venv fuel (callIdx + 1) remaining st
      else (st, res.ret, res.statsType)

/-- `decode_mpeg4_frame`: lazily init the decoder (red screen on failure),
submit the captured extradata once, loop over sub-units, draw the debug
overlay, and either paint the orange error screen (decoder error), keep the
framebuffer (no picture yet: recoverable success), or write the converted
picture. -/
def decode_mpeg4_frame (venv : VEnv) (size : Nat) (st : Player) (v : VideoSt) :
    (Player × VideoSt) × Bool :=
  if ¬v.xvid_initialized ∧ ¬venv.xvidInitOk then
    ((st, { v with fb := debug_fill_screen FB_RED }), false)
  else
    let v := { v with xvid_initialized := true }
    let st :=
      if ¬st.mpeg4_extradata_sent ∧ 0 < st.mpeg4_extradata.length then
        { st with mpeg4_extradata_sent := true }
      else st
    let r := decode_mpeg4_loop venv 9 0 (size : Int) st
    let st := r.1
    let v := { v with fb := debug_show_hex venv v.fb }
    if r.2.1 < 0 then ((st, { v with fb := debug_fill_screen FB_ORANGE }), false)
    else if r.2.2 ≤ 0 then ((st, v), true)
    else ((st, { v with fb := venv.yuvPixels }), true)

/-- `decode_single_frame`: fetch the indexed frame payload and dispatch to
the MPEG-4 or MJPEG path.  (A negative `idx` indexes out of bounds in C —
undefined behaviour; the model reads table entry 0 there.) -/
def decode_single_frame (env : Env) (venv : VEnv) (idx : Int) (st : Player) (v : VideoSt) :
    (Player × VideoSt) × Bool :=
  if st.total_frames ≤ idx then ((st, v), false)
  else
    let e := st.frame_index.getD idx.toNat (0, 0)
    let size := if MAX_JPEG_SIZE < e.2 then MAX_JPEG_SIZE else e.2
    if size = 0 then ((st, v), false)
    else if freadLen env.file e.1 size ≠ size then ((st, v), false)
    else
      let data := freadList env.file e.1 size
      if st.video_codec_type = CODEC_TYPE_MPEG4 then decode_mpeg4_frame venv size st v
      else
        if ¬(data.getD 0 0 = 255 ∧ data.getD 1 0 = 216) then ((st, v), false)
        else if ¬venv.jdPrepareOk then ((st, v), false)
        else
          let v :=
            if idx = 0 ∨ (v.video_width = 320 ∧ v.video_height = 240) then
              let v := calculate_scaling venv.jdecWidth venv.jdecHeight v
              { v with fb := fun _ => 0 }
            else v
          if ¬venv.jdDecompOk then ((st, { v with fb := venv.jpegPartial v.fb }), false)
          else ((st, { v with fb := venv.jpegPixels }), true)

/-! ## Invariants, reachability relations and concrete test vectors -/

/-- States reachable from a successful open (cursor at 0 on a clip with at
least one indexed frame) through the public operations: a `retro_run` playback
tick, `seek_to_frame`, the pause toggle and `retro_reset`. -/
inductive Reach (env : Env) : Player → Prop where
  | opened (st : Player) (hidx : st.current_frame_idx = 0)
      (hpos : 0 < st.total_frames) : Reach env st
  | step_tick (st : Player) (fuel : Nat) : Reach env st → Reach env (tick env fuel st).1
  | step_seek (st : Player) (fuel : Nat) (f : Int) :
      Reach env st → Reach env (seek_to_frame env fuel f st)
  | step_pause (st : Player) : Reach env st → Reach env (toggle_pause st)
  | step_reset (st : Player) : Reach env st → Reach env (retro_reset st)

/-- A concrete 44.1 kHz MP3 clip state used as the C6 test vector. -/
def mp3SeekSt : Player :=
  { frame_index := [(12, 4)], audio_index := [(20, 100)], has_audio := true,
    audio_bytes_per_sample := 2, audio_format := 3, audio_sample_rate := 44100,
    mp3_initialized := true }

/-- A concrete one-frame playing clip used as the C5 test vector. -/
def loopSt : Player := { frame_index := [(12, 4)], is_playing := true }

/-- Well-formedness of the audio ring cursors: both cursors in `[0,
AUDIO_RING_SIZE)` and the fill count in `[0, AUDIO_RING_SIZE]`. -/
def RingInv (st : Player) : Prop :=
  0 ≤ st.aring_read ∧ st.aring_read < (AUDIO_RING_SIZE : Int) ∧
  0 ≤ st.aring_write ∧ st.aring_write < (AUDIO_RING_SIZE : Int) ∧
  0 ≤ st.aring_count ∧ st.aring_count ≤ (AUDIO_RING_SIZE : Int)

/-- Ring states reachable from an empty ring through any sequence of refill
and consume calls. -/
inductive AudioReach (env : Env) : Player → Prop where
  | init (st : Player)
      (h : st.aring_read = 0 ∧ st.aring_write = 0 ∧ st.aring_count = 0) :
      AudioReach env st
  | refill (st : Player) (fuel : Nat) : AudioReach env st →
      AudioReach env (refill_audio_ring env fuel st)
  | consume (st : Player) (n : Int) : AudioReach env st →
      AudioReach env (read_audio_ring n st).1

/-- Concrete PCM clip state and environment for the C1 witness. -/
def audioSt : Player :=
  { frame_index := [(12, 4)], has_audio := true, audio_format := 1,
    audio_bytes_per_sample := 2, audio_sample_rate := 30, audio_channels := 1,
    audio_bits := 16 }

def audioEnv : Env := { hasAudioCb := true }

/-- Channel-0 register agreement. -/
def Ch0Eq (r r' : AdpcmRegs) : Prop :=
  r.sample1.1 = r'.sample1.1 ∧ r.sample2.1 = r'.sample2.1 ∧
  r.delta.1 = r'.delta.1 ∧ r.coef_idx.1 = r'.coef_idx.1

/-- Channel-1 register agreement. -/
def Ch1Eq (r r' : AdpcmRegs) : Prop :=
  r.sample1.2 = r'.sample1.2 ∧ r.sample2.2 = r'.sample2.2 ∧
  r.delta.2 = r'.delta.2 ∧ r.coef_idx.2 = r'.coef_idx.2

/-- Relation between the registers of two parallel ADPCM refill runs that
started from `x` and `y` on otherwise equal states: either neither run has
decoded yet, or a full-header block has synchronized them, or (mono) the
channel-0 registers are synchronized while channel 1 still carries the
respective inputs. -/
def RegRel (x y x' y' : AdpcmRegs) : Prop :=
  (x' = x ∧ y' = y) ∨ x' = y' ∨ (Ch0Eq x' y' ∧ Ch1Eq x' x ∧ Ch1Eq y' y)

/-! ## Shape lemmas: which fields each audio-pipeline operation mutates -/

theorem read_audio_ring_loop_shape (fuel : Nat) : ∀ (n r : Int) (st : Player),
    ∃ rd cnt, (read_audio_ring_loop fuel n r st).1 =
      { st with aring_read := rd, aring_count := cnt } := by
  induction fuel with
  | zero => intro n r st; exact ⟨st.aring_read, st.aring_count, rfl⟩
  | succ fuel ih =>
    intro n r st
    simp only [read_audio_ring_loop]
    split
    · obtain ⟨rd, cnt, heq⟩ := ih n _ _
      exact ⟨rd, cnt, heq.trans rfl⟩
    · exact ⟨st.aring_read, st.aring_count, rfl⟩

theorem read_audio_ring_shape (n : Int) (st : Player) :
    ∃ rd cnt, (read_audio_ring n st).1 = { st with aring_read := rd, aring_count := cnt } :=
  read_audio_ring_loop_shape _ n 0 st

theorem read_audio_disk_pcm_loop_shape (fuel : Nat) : ∀ (env : Env) (n r : Int) (st : Player),
    ∃ ci cp, (read_audio_disk_pcm_loop fuel env n r st).1 =
      { st with audio_chunk_idx := ci, audio_chunk_pos := cp } := by
  induction fuel with
  | zero => intro env n r st; exact ⟨st.audio_chunk_idx, st.audio_chunk_pos, rfl⟩
  | succ fuel ih =>
    intro env n r st
    simp only [read_audio_disk_pcm_loop]
    repeat' split
    all_goals first
      | exact ⟨st.audio_chunk_idx, st.audio_chunk_pos, rfl⟩
      | exact ⟨_, _, rfl⟩
      | (obtain ⟨ci, cp, heq⟩ := ih env n _ _; exact ⟨ci, cp, heq.trans rfl⟩)

theorem read_audio_disk_pcm_shape (env : Env) (n : Int) (st : Player) :
    ∃ ci cp, (read_audio_disk_pcm env n st).1 =
      { st with audio_chunk_idx := ci, audio_chunk_pos := cp } :=
  read_audio_disk_pcm_loop_shape _ env n 0 st

theorem refill_pcm_loop_shape (fuel : Nat) : ∀ (env : Env) (free : Int) (st : Player),
    ∃ ci cp wr cnt, refill_pcm_loop fuel env free st =
      { st with audio_chunk_idx := ci, audio_chunk_pos := cp,
                aring_write := wr, aring_count := cnt } := by
  induction fuel with
  | zero =>
    intro env free st
    exact ⟨st.audio_chunk_idx, st.audio_chunk_pos, st.aring_write, st.aring_count, rfl⟩
  | succ fuel ih =>
    intro env free st
    simp only [refill_pcm_loop]
    repeat' split
    all_goals first
      | exact ⟨st.audio_chunk_idx, st.audio_chunk_pos, st.aring_write, st.aring_count, rfl⟩
      | (obtain ⟨ci0, cp0, hp⟩ := read_audio_disk_pcm_shape env _ st
         first
          | exact ⟨ci0, cp0, st.aring_write, st.aring_count, hp.trans rfl⟩
          | (rw [hp]
             obtain ⟨ci, cp, wr, cnt, heq⟩ := ih env _ _
             exact ⟨ci, cp, wr, cnt, heq.trans rfl⟩))

theorem advance_audio_cursor_shape (got : Nat) (st : Player) :
    ∃ ci cp, advance_audio_cursor got st =
      { st with audio_chunk_idx := ci, audio_chunk_pos := cp } := by
  simp only [advance_audio_cursor]
  split
  · exact ⟨_, _, rfl⟩
  · exact ⟨_, _, rfl⟩

theorem read_audio_disk_adpcm_iter_shape (env : Env) (free skip : Int) (st : Player) :
    ∃ ci cp wr cnt regs, (read_audio_disk_adpcm_iter env free skip st).st =
      { st with audio_chunk_idx := ci, audio_chunk_pos := cp,
                aring_write := wr, aring_count := cnt, adpcm := regs } := by
  simp only [read_audio_disk_adpcm_iter]
  obtain ⟨ci0, cp0, ha⟩ := advance_audio_cursor_shape
    (freadLen env.file (st.chunkOffset + st.audio_chunk_pos) (adpcm_block_size st).toNat) st
  repeat' split
  all_goals try rw [ha]
  all_goals exact ⟨_, _, _, _, _, rfl⟩

theorem read_audio_disk_adpcm_loop_shape (fuel : Nat) :
    ∀ (env : Env) (free total skip : Int) (st : Player),
    ∃ ci cp wr cnt regs, (read_audio_disk_adpcm_loop fuel env free total skip st).1 =
      { st with audio_chunk_idx := ci, audio_chunk_pos := cp,
                aring_write := wr, aring_count := cnt, adpcm := regs } := by
  induction fuel with
  | zero =>
    intro env free total skip st
    exact ⟨st.audio_chunk_idx, st.audio_chunk_pos, st.aring_write, st.aring_count, st.adpcm, rfl⟩
  | succ fuel ih =>
    intro env free total skip st
    simp only [read_audio_disk_adpcm_loop]
    obtain ⟨ci0, cp0, wr0, cnt0, regs0, hi⟩ := read_audio_disk_adpcm_iter_shape env free skip st
    repeat' split
    all_goals first
      | exact ⟨st.audio_chunk_idx, st.audio_chunk_pos, st.aring_write, st.aring_count,
          st.adpcm, rfl⟩
      | exact ⟨_, _, _, _, _, hi.trans rfl⟩
      | (rw [hi]
         obtain ⟨ci, cp, wr, cnt, regs, heq⟩ := ih env _ _ _ _
         exact ⟨ci, cp, wr, cnt, regs, heq.trans rfl⟩)

theorem read_audio_disk_adpcm_shape (env : Env) (st : Player) :
    ∃ ci cp wr cnt regs, (read_audio_disk_adpcm env st).1 =
      { st with audio_chunk_idx := ci, audio_chunk_pos := cp,
                aring_write := wr, aring_count := cnt, adpcm := regs } := by
  unfold read_audio_disk_adpcm
  split
  · exact ⟨st.audio_chunk_idx, st.audio_chunk_pos, st.aring_write, st.aring_count,
      st.adpcm, rfl⟩
  · exact read_audio_disk_adpcm_loop_shape _ env _ _ _ st

theorem mp3_fill_loop_shape (fuel : Nat) : ∀ (env : Env) (space : Int) (st : Player),
    ∃ ci cp ml, mp3_fill_loop fuel env space st =
      { st with audio_chunk_idx := ci, audio_chunk_pos := cp, mp3_input_len := ml } := by
  induction fuel with
  | zero =>
    intro env space st
    exact ⟨st.audio_chunk_idx, st.audio_chunk_pos, st.mp3_input_len, rfl⟩
  | succ fuel ih =>
    intro env space st
    simp only [mp3_fill_loop]
    repeat' split
    all_goals first
      | exact ⟨st.audio_chunk_idx, st.audio_chunk_pos, st.mp3_input_len, rfl⟩
      | exact ⟨_, _, _, rfl⟩
      | (obtain ⟨ci, cp, ml, heq⟩ := ih env _ _
         exact ⟨ci, cp, ml, heq.trans rfl⟩)

theorem mp3_fill_move_shape (st : Player) :
    ∃ ml, mp3_fill_move st = { st with mp3_input_len := ml } := by
  unfold mp3_fill_move
  repeat' split
  all_goals exact ⟨_, rfl⟩

theorem mp3_fill_input_buffer_shape (env : Env) (st : Player) :
    ∃ ci cp ml mr, (mp3_fill_input_buffer env st).1 =
      { st with audio_chunk_idx := ci, audio_chunk_pos := cp,
                mp3_input_len := ml, mp3_input_remaining := mr } := by
  simp only [mp3_fill_input_buffer]
  obtain ⟨ml0, hm⟩ := mp3_fill_move_shape st
  rw [hm]
  split
  · exact ⟨_, _, _, _, rfl⟩
  · obtain ⟨ci, cp, ml, hloop⟩ := mp3_fill_loop_shape _ env _ _
    rw [hloop]
    exact ⟨ci, cp, ml, ml, rfl⟩

theorem mp3_write_ring_shape (free : Int) (bd : Nat) (st : Player) :
    ∃ wr cnt, (mp3_write_ring free bd st).1 =
      { st with aring_write := wr, aring_count := cnt } := by
  simp only [mp3_write_ring]
  repeat' split
  all_goals exact ⟨_, _, rfl⟩

theorem read_audio_disk_mp3_iter_shape (env : Env) (free errs : Int) (st : Player) :
    ∃ ci cp wr cnt sr ch ml mr dec, (read_audio_disk_mp3_iter env free errs st).st =
      { st with audio_chunk_idx := ci, audio_chunk_pos := cp,
                aring_write := wr, aring_count := cnt,
                mp3_detected_samplerate := sr, mp3_detected_channels := ch,
                mp3_input_len := ml, mp3_input_remaining := mr, mp3_dec := dec } := by
  simp only [read_audio_disk_mp3_iter]
  obtain ⟨ci0, cp0, ml0, mr0, hf⟩ := mp3_fill_input_buffer_shape env st
  by_cases hd : st.mp3_input_remaining < 2048 <;>
    [simp only [if_pos hd, hf]; simp only [if_neg hd]] <;>
    repeat' split
  all_goals first
    | exact ⟨_, _, _, _, _, _, _, _, _, rfl⟩
    | (obtain ⟨wr1, cnt1, hw⟩ := mp3_write_ring_shape free _ _
       rw [hw]
       exact ⟨_, _, _, _, _, _, _, _, _, rfl⟩)
    | (obtain ⟨ci1, cp1, ml1, mr1, hf1⟩ := mp3_fill_input_buffer_shape env _
       rw [hf1]
       exact ⟨_, _, _, _, _, _, _, _, _, rfl⟩)

theorem read_audio_disk_mp3_loop_shape (fuel : Nat) :
    ∀ (env : Env) (free total errs : Int) (st : Player),
    ∃ ci cp wr cnt sr ch ml mr dec, (read_audio_disk_mp3_loop fuel env free total errs st).1 =
      { st with audio_chunk_idx := ci, audio_chunk_pos := cp,
                aring_write := wr, aring_count := cnt,
                mp3_detected_samplerate := sr, mp3_detected_channels := ch,
                mp3_input_len := ml, mp3_input_remaining := mr, mp3_dec := dec } := by
  induction fuel with
  | zero =>
    intro env free total errs st
    exact ⟨st.audio_chunk_idx, st.audio_chunk_pos, st.aring_write, st.aring_count,
      st.mp3_detected_samplerate, st.mp3_detected_channels, st.mp3_input_len,
      st.mp3_input_remaining, st.mp3_dec, rfl⟩
  | succ fuel ih =>
    intro env free total errs st
    simp only [read_audio_disk_mp3_loop]
    obtain ⟨ci0, cp0, wr0, cnt0, sr0, ch0, ml0, mr0, dec0, hi⟩ :=
      read_audio_disk_mp3_iter_shape env free errs st
    repeat' split
    all_goals first
      | exact ⟨st.audio_chunk_idx, st.audio_chunk_pos, st.aring_write, st.aring_count,
          st.mp3_detected_samplerate, st.mp3_detected_channels, st.mp3_input_len,
          st.mp3_input_remaining, st.mp3_dec, rfl⟩
      | exact ⟨_, _, _, _, _, _, _, _, _, hi.trans rfl⟩
      | (rw [hi]
         obtain ⟨ci, cp, wr, cnt, sr, ch, ml, mr, dec, heq⟩ := ih env _ _ _ _
         exact ⟨ci, cp, wr, cnt, sr, ch, ml, mr, dec, heq.trans rfl⟩)

theorem mp3_init_shape (st : Player) :
    ∃ mi dec ml mr, mp3_init st =
      { st with mp3_initialized := mi, mp3_dec := dec,
                mp3_input_len := ml, mp3_input_remaining := mr } := by
  unfold mp3_init
  split
  · exact ⟨_, _, _, _, rfl⟩
  · exact ⟨st.mp3_initialized, st.mp3_dec, st.mp3_input_len, st.mp3_input_remaining, rfl⟩

theorem mp3_reset_shape (st : Player) :
    ∃ dec ml mr, mp3_reset st =
      { st with mp3_dec := dec, mp3_input_len := ml, mp3_input_remaining := mr } := by
  simp only [mp3_reset]
  split
  · exact ⟨_, _, _, rfl⟩
  · exact ⟨st.mp3_dec, _, _, rfl⟩

theorem read_audio_disk_mp3_shape (env : Env) (fuel : Nat) (st : Player) :
    ∃ ci cp wr cnt sr ch ml mr dec mi, (read_audio_disk_mp3 env fuel st).1 =
      { st with audio_chunk_idx := ci, audio_chunk_pos := cp,
                aring_write := wr, aring_count := cnt,
                mp3_detected_samplerate := sr, mp3_detected_channels := ch,
                mp3_input_len := ml, mp3_input_remaining := mr, mp3_dec := dec,
                mp3_initialized := mi } := by
  simp only [read_audio_disk_mp3]
  split
  · exact ⟨st.audio_chunk_idx, st.audio_chunk_pos, st.aring_write, st.aring_count,
      st.mp3_detected_samplerate, st.mp3_detected_channels, st.mp3_input_len,
      st.mp3_input_remaining, st.mp3_dec, st.mp3_initialized, rfl⟩
  · obtain ⟨mi0, dec0, ml0, mr0, hinit⟩ := mp3_init_shape st
    rw [hinit]
    obtain ⟨ci, cp, wr, cnt, sr, ch, ml, mr, dec, heq⟩ :=
      read_audio_disk_mp3_loop_shape fuel env _ _ _ _
    exact ⟨ci, cp, wr, cnt, sr, ch, ml, mr, dec, mi0, heq.trans rfl⟩

theorem refill_audio_ring_shape (env : Env) (fuel : Nat) (st : Player) :
    ∃ ci cp wr cnt regs sr ch mi dec ml mr, refill_audio_ring env fuel st =
      { st with audio_chunk_idx := ci, audio_chunk_pos := cp,
                aring_write := wr, aring_count := cnt, adpcm := regs,
                mp3_detected_samplerate := sr, mp3_detected_channels := ch,
                mp3_initialized := mi, mp3_dec := dec,
                mp3_input_len := ml, mp3_input_remaining := mr } := by
  unfold refill_audio_ring
  split
  · exact ⟨st.audio_chunk_idx, st.audio_chunk_pos, st.aring_write, st.aring_count, st.adpcm,
      st.mp3_detected_samplerate, st.mp3_detected_channels, st.mp3_initialized, st.mp3_dec,
      st.mp3_input_len, st.mp3_input_remaining, rfl⟩
  · split
    · obtain ⟨ci, cp, wr, cnt, regs, h⟩ := read_audio_disk_adpcm_shape env st
      exact ⟨ci, cp, wr, cnt, regs, _, _, _, _, _, _, h.trans rfl⟩
    · split
      · obtain ⟨ci, cp, wr, cnt, sr, ch, ml, mr, dec, mi, h⟩ :=
          read_audio_disk_mp3_shape env fuel st
        exact ⟨ci, cp, wr, cnt, st.adpcm, sr, ch, mi, dec, ml, mr, h.trans rfl⟩
      · obtain ⟨ci, cp, wr, cnt, h⟩ := refill_pcm_loop_shape _ env _ st
        exact ⟨ci, cp, wr, cnt, _, _, _, _, _, _, _, h.trans rfl⟩

theorem play_audio_for_frame_shape (env : Env) (fuel : Nat) (st : Player) :
    ∃ ci cp rd wr cnt regs sr ch mi dec ml mr sent,
      (play_audio_for_frame env fuel st).1 =
      { st with audio_chunk_idx := ci, audio_chunk_pos := cp, aring_read := rd,
                aring_write := wr, aring_count := cnt, adpcm := regs,
                mp3_detected_samplerate := sr, mp3_detected_channels := ch,
                mp3_initialized := mi, mp3_dec := dec,
                mp3_input_len := ml, mp3_input_remaining := mr,
                audio_samples_sent := sent } := by
  simp only [play_audio_for_frame]
  obtain ⟨ci1, cp1, wr1, cnt1, regs1, sr1, ch1, mi1, dec1, ml1, mr1, hr⟩ :=
    refill_audio_ring_shape env fuel st
  repeat' split
  all_goals try rw [hr]
  all_goals first
    | exact ⟨_, _, _, _, _, _, _, _, _, _, _, _, _, rfl⟩
    | (obtain ⟨rd2, cnt2, hc⟩ := read_audio_ring_shape _ _
       rw [hc]
       exact ⟨_, _, _, _, _, _, _, _, _, _, _, _, _, rfl⟩)

/-- Fields preserved by `refill_audio_ring` that the transport controller
reads. -/
theorem refill_preserves (env : Env) (fuel : Nat) (st : Player) :
    (refill_audio_ring env fuel st).is_playing = st.is_playing ∧
    (refill_audio_ring env fuel st).is_paused = st.is_paused ∧
    (refill_audio_ring env fuel st).current_frame_idx = st.current_frame_idx ∧
    (refill_audio_ring env fuel st).repeat_counter = st.repeat_counter ∧
    (refill_audio_ring env fuel st).repeat_count = st.repeat_count ∧
    (refill_audio_ring env fuel st).frame_index = st.frame_index ∧
    (refill_audio_ring env fuel st).audio_index = st.audio_index ∧
    (refill_audio_ring env fuel st).clip_fps = st.clip_fps ∧
    (refill_audio_ring env fuel st).has_audio = st.has_audio ∧
    (refill_audio_ring env fuel st).audio_format = st.audio_format ∧
    (refill_audio_ring env fuel st).audio_sample_rate = st.audio_sample_rate ∧
    (refill_audio_ring env fuel st).audio_bytes_per_sample = st.audio_bytes_per_sample ∧
    (refill_audio_ring env fuel st).audio_samples_sent = st.audio_samples_sent ∧
    (refill_audio_ring env fuel st).aring_read = st.aring_read ∧
    (refill_audio_ring env fuel st).video_codec_type = st.video_codec_type := by
  obtain ⟨ci, cp, wr, cnt, regs, sr, ch, mi, dec, ml, mr, h⟩ :=
    refill_audio_ring_shape env fuel st
  rw [h]
  exact ⟨rfl, rfl, rfl, rfl, rfl, rfl, rfl, rfl, rfl, rfl, rfl, rfl, rfl, rfl, rfl⟩

/-- Fields preserved by `play_audio_for_frame` that the transport controller
reads. -/
theorem play_audio_preserves (env : Env) (fuel : Nat) (st : Player) :
    (play_audio_for_frame env fuel st).1.is_playing = st.is_playing ∧
    (play_audio_for_frame env fuel st).1.is_paused = st.is_paused ∧
    (play_audio_for_frame env fuel st).1.current_frame_idx = st.current_frame_idx ∧
    (play_audio_for_frame env fuel st).1.repeat_counter = st.repeat_counter ∧
    (play_audio_for_frame env fuel st).1.repeat_count = st.repeat_count ∧
    (play_audio_for_frame env fuel st).1.frame_index = st.frame_index ∧
    (play_audio_for_frame env fuel st).1.audio_index = st.audio_index ∧
    (play_audio_for_frame env fuel st).1.clip_fps = st.clip_fps ∧
    (play_audio_for_frame env fuel st).1.has_audio = st.has_audio ∧
    (play_audio_for_frame env fuel st).1.audio_format = st.audio_format ∧
    (play_audio_for_frame env fuel st).1.video_codec_type = st.video_codec_type := by
  obtain ⟨ci, cp, rd, wr, cnt, regs, sr, ch, mi, dec, ml, mr, sent, h⟩ :=
    play_audio_for_frame_shape env fuel st
  rw [h]
  exact ⟨rfl, rfl, rfl, rfl, rfl, rfl, rfl, rfl, rfl, rfl, rfl⟩

/-- The transport effect of `seek_to_frame`: the frame cursor is the target
clamped by the two guards, the repeat counter is cleared, and only
audio-side fields are otherwise touched. -/
theorem seek_to_frame_shape (env : Env) (fuel : Nat) (f : Int) (st : Player) :
    ∃ ci cp rd wr cnt regs sr ch mi dec ml mr sent,
      seek_to_frame env fuel f st =
      { st with
        current_frame_idx :=
          (if st.total_frames ≤ (if f < 0 then 0 else f) then st.total_frames - 1
            else (if f < 0 then 0 else f)),
        repeat_counter := 0,
        audio_chunk_idx := ci, audio_chunk_pos := cp, aring_read := rd,
        aring_write := wr, aring_count := cnt, adpcm := regs,
        mp3_detected_samplerate := sr, mp3_detected_channels := ch,
        mp3_initialized := mi, mp3_dec := dec,
        mp3_input_len := ml, mp3_input_remaining := mr,
        audio_samples_sent := sent } := by
  simp only [seek_to_frame]
  by_cases hf : f < 0 <;> [simp only [if_pos hf]; simp only [if_neg hf]] <;>
    repeat' split
  all_goals first
    | exact ⟨_, _, _, _, _, _, _, _, _, _, _, _, _, rfl⟩
    | (obtain ⟨dec0, ml0, mr0, hm⟩ := mp3_reset_shape _
       rw [hm]
       exact ⟨_, _, _, _, _, _, _, _, _, _, _, _, _, rfl⟩)
    | (obtain ⟨ci1, cp1, wr1, cnt1, regs1, sr1, ch1, mi1, dec1, ml1, mr1, hrf⟩ :=
        refill_audio_ring_shape env fuel _
       rw [hrf]
       exact ⟨_, _, _, _, _, _, _, _, _, _, _, _, _, rfl⟩)

/-! ## Claim C9: seek clamps to the valid frame range -/

/-- C9.  Seek clamps its target to the valid frame range: on a loaded file
(`0 < total_frames`), a negative target lands on frame 0 and a target at or
beyond the end lands on `total_frames - 1`. -/
theorem seek_clamps_to_frame_range (env : Env) (fuel : Nat) (st : Player) (f : Int)
    (htot : 0 < st.total_frames) :
    (f < 0 → (seek_to_frame env fuel f st).current_frame_idx = 0) ∧
    (st.total_frames ≤ f →
      (seek_to_frame env fuel f st).current_frame_idx = st.total_frames - 1) := by
  obtain ⟨ci, cp, rd, wr, cnt, regs, sr, ch, mi, dec, ml, mr, sent, h⟩ :=
    seek_to_frame_shape env fuel f st
  rw [h]
  constructor
  · intro hneg
    simp only [if_pos hneg]
    rw [if_neg (show ¬st.total_frames ≤ 0 by omega)]
  · intro hge
    rw [if_neg (show ¬f < 0 by omega), if_pos hge]

/-- Witness for C9 at a concrete two-frame file: `seek(-5)` lands on 0 and
`seek(total_frames + 100)` lands on `total_frames - 1 = 1`. -/
theorem seek_clamps_to_frame_range_witness :
    ((seek_to_frame {} 0 (-5) { frame_index := [(12, 4), (20, 4)] }).current_frame_idx = 0) ∧
    ((seek_to_frame {} 0 (2 + 100)
      { frame_index := [(12, 4), (20, 4)] }).current_frame_idx = 2 - 1) := by
  have h := seek_clamps_to_frame_range {} 0 { frame_index := [(12, 4), (20, 4)] } (-5)
    (by decide)
  have h2 := seek_clamps_to_frame_range {} 0 { frame_index := [(12, 4), (20, 4)] } (2 + 100)
    (by decide)
  exact ⟨h.1 (by decide), h2.2 (by decide)⟩

theorem mp3_reset_preserves (st : Player) :
    (mp3_reset st).current_frame_idx = st.current_frame_idx ∧
    (mp3_reset st).repeat_counter = st.repeat_counter ∧
    (mp3_reset st).frame_index = st.frame_index ∧
    (mp3_reset st).is_playing = st.is_playing ∧
    (mp3_reset st).is_paused = st.is_paused ∧
    (mp3_reset st).repeat_count = st.repeat_count ∧
    (mp3_reset st).audio_chunk_idx = st.audio_chunk_idx ∧
    (mp3_reset st).audio_chunk_pos = st.audio_chunk_pos ∧
    (mp3_reset st).audio_samples_sent = st.audio_samples_sent ∧
    (mp3_reset st).aring_read = st.aring_read ∧
    (mp3_reset st).aring_write = st.aring_write ∧
    (mp3_reset st).aring_count = st.aring_count ∧
    (mp3_reset st).mp3_dec = (if st.mp3_initialized then 0 else st.mp3_dec) ∧
    (mp3_reset st).mp3_input_len = 0 ∧
    (mp3_reset st).mp3_input_remaining = 0 := by
  simp only [mp3_reset]
  split <;> simp_all

/-- Projections of `tick_advance` that are preserved. -/
theorem tick_advance_preserves (st : Player) :
    (tick_advance st).is_playing = st.is_playing ∧
    (tick_advance st).is_paused = st.is_paused ∧
    (tick_advance st).frame_index = st.frame_index ∧
    (tick_advance st).repeat_count = st.repeat_count := by
  simp only [tick_advance]
  split <;> exact ⟨rfl, rfl, rfl, rfl⟩

/-- The cursor fields of `tick_advance`. -/
theorem tick_advance_frame (st : Player) :
    (tick_advance st).current_frame_idx =
      (if st.repeat_count ≤ st.repeat_counter + 1 then st.current_frame_idx + 1
        else st.current_frame_idx) ∧
    (tick_advance st).repeat_counter =
      (if st.repeat_count ≤ st.repeat_counter + 1 then 0 else st.repeat_counter + 1) := by
  simp only [tick_advance]
  split <;> simp_all

/-- Trivially preserved projections of `loop_reset`. -/
theorem loop_reset_preserves (st : Player) :
    (loop_reset st).is_playing = st.is_playing ∧
    (loop_reset st).is_paused = st.is_paused ∧
    (loop_reset st).frame_index = st.frame_index ∧
    (loop_reset st).repeat_count = st.repeat_count :=
  ⟨rfl, rfl, rfl, rfl⟩

/-- `tick_advance` in closed form. -/
theorem tick_advance_shape (st : Player) :
    tick_advance st = { st with
      repeat_counter :=
        (if st.repeat_count ≤ st.repeat_counter + 1 then 0 else st.repeat_counter + 1),
      current_frame_idx :=
        (if st.repeat_count ≤ st.repeat_counter + 1 then st.current_frame_idx + 1
          else st.current_frame_idx) } := by
  simp only [tick_advance]
  split
  all_goals simp_all

/-- Control-field preservation of the tick: the playback block never changes
the pause/play flags, the tables, the descriptor or the repeat count. -/
theorem tick_preserves (env : Env) (fuel : Nat) (st : Player) :
    (tick env fuel st).1.is_playing = st.is_playing ∧
    (tick env fuel st).1.is_paused = st.is_paused ∧
    (tick env fuel st).1.frame_index = st.frame_index ∧
    (tick env fuel st).1.repeat_count = st.repeat_count := by
  have C := play_audio_preserves env fuel (tick_advance st)
  have T := tick_advance_preserves st
  simp only [tick]
  split
  · split
    · have B := mp3_reset_preserves
        (loop_reset ((play_audio_for_frame env fuel (tick_advance st)).1))
      have L := loop_reset_preserves ((play_audio_for_frame env fuel (tick_advance st)).1)
      have A := refill_preserves env fuel
        { mp3_reset (loop_reset ((play_audio_for_frame env fuel (tick_advance st)).1)) with
          repeat_counter := 0 }
      refine ⟨?_, ?_, ?_, ?_⟩
      · exact A.1.trans (B.2.2.2.1.trans (L.1.trans (C.1.trans T.1)))
      · exact A.2.1.trans (B.2.2.2.2.1.trans (L.2.1.trans (C.2.1.trans T.2.1)))
      · exact A.2.2.2.2.2.1.trans (B.2.2.1.trans (L.2.2.1.trans (C.2.2.2.2.2.1.trans T.2.2.1)))
      · exact A.2.2.2.2.1.trans
          (B.2.2.2.2.2.1.trans (L.2.2.2.trans (C.2.2.2.2.1.trans T.2.2.2)))
    · exact ⟨C.1.trans T.1, C.2.1.trans T.2.1, C.2.2.2.2.2.1.trans T.2.2.1,
        C.2.2.2.2.1.trans T.2.2.2⟩
  · exact ⟨rfl, rfl, rfl, rfl⟩

/-- Frame-cursor characterization of a playing, unpaused tick: the cursor
advances by at most one and wraps to 0 at `total_frames`. -/
theorem tick_frame_cursor (env : Env) (fuel : Nat) (st : Player)
    (hp : st.is_playing = true) (hq : st.is_paused = false) :
    (tick env fuel st).1.current_frame_idx =
      (if st.total_frames ≤
          (if st.repeat_count ≤ st.repeat_counter + 1 then st.current_frame_idx + 1
            else st.current_frame_idx) then 0
        else (if st.repeat_count ≤ st.repeat_counter + 1 then st.current_frame_idx + 1
            else st.current_frame_idx)) := by
  have C := play_audio_preserves env fuel (tick_advance st)
  have T := tick_advance_preserves st
  have F := tick_advance_frame st
  have hs1tot : ((play_audio_for_frame env fuel (tick_advance st)).1).total_frames =
      st.total_frames := by
    simp only [Player.total_frames]
    rw [C.2.2.2.2.2.1, T.2.2.1]
  have hs1idx : ((play_audio_for_frame env fuel (tick_advance st)).1).current_frame_idx =
      (if st.repeat_count ≤ st.repeat_counter + 1 then st.current_frame_idx + 1
        else st.current_frame_idx) := C.2.2.1.trans F.1
  simp only [tick]
  rw [if_pos (show st.is_playing = true ∧ ¬st.is_paused = true by simp [hp, hq])]
  simp only [hs1tot, hs1idx]
  by_cases hc : st.total_frames ≤
      (if st.repeat_count ≤ st.repeat_counter + 1 then st.current_frame_idx + 1
        else st.current_frame_idx)
  · simp only [if_pos hc]
    have B := mp3_reset_preserves
      (loop_reset ((play_audio_for_frame env fuel (tick_advance st)).1))
    have A := refill_preserves env fuel
      { mp3_reset (loop_reset ((play_audio_for_frame env fuel (tick_advance st)).1)) with
        repeat_counter := 0 }
    exact A.2.2.1.trans (B.1.trans rfl)
  · simp only [if_neg hc]
    exact hs1idx

/-! ## C3: transport-cursor invariant over the public operations -/

/-- `frame_index` and the cursor field of `seek_to_frame`, extracted from its
shape. -/
theorem seek_fields (env : Env) (fuel : Nat) (f : Int) (st : Player) :
    (seek_to_frame env fuel f st).frame_index = st.frame_index ∧
    (seek_to_frame env fuel f st).current_frame_idx =
      (if st.total_frames ≤ (if f < 0 then 0 else f) then st.total_frames - 1
        else (if f < 0 then 0 else f)) := by
  obtain ⟨ci, cp, rd, wr, cnt, regs, sr, ch, mi, dec, ml, mr, sent, h⟩ :=
    seek_to_frame_shape env fuel f st
  rw [h]
  exact ⟨rfl, rfl⟩

/-- `retro_reset` zeroes the cursor and keeps the frame table. -/
theorem retro_reset_fields (st : Player) :
    (retro_reset st).current_frame_idx = 0 ∧
    (retro_reset st).frame_index = st.frame_index := by
  have B := mp3_reset_preserves { st with
    current_frame_idx := 0, audio_chunk_idx := 0, audio_chunk_pos := 0,
    audio_samples_sent := 0, aring_read := 0, aring_write := 0, aring_count := 0 }
  simp only [retro_reset]
  exact ⟨B.1.trans rfl, B.2.2.1.trans rfl⟩

/-- The cursor invariant that actually holds on reachable states. -/
theorem reach_inv (env : Env) (st : Player) (h : Reach env st) :
    0 < st.total_frames ∧ 0 ≤ st.current_frame_idx ∧
    st.current_frame_idx ≤ st.total_frames := by
  induction h with
  | opened st hidx hpos =>
    exact ⟨hpos, by omega, by omega⟩
  | step_tick st fuel hr ih =>
    obtain ⟨h1, h2, h3⟩ := ih
    have T := tick_preserves env fuel st
    have htot : (tick env fuel st).1.total_frames = st.total_frames := by
      simp only [Player.total_frames, T.2.2.1]
    by_cases hp : st.is_playing = true
    · by_cases hq : st.is_paused = true
      · have hst : (tick env fuel st).1 = st := by
          simp only [tick]
          rw [if_neg (by simp [hq])]
        rw [hst]
        exact ⟨h1, h2, h3⟩
      · have hq2 : st.is_paused = false := by simpa using hq
        have F := tick_frame_cursor env fuel st hp hq2
        rw [htot, F]
        refine ⟨h1, ?_, ?_⟩ <;> split_ifs <;> omega
    · have hst : (tick env fuel st).1 = st := by
        simp only [tick]
        rw [if_neg (by simp [hp])]
      rw [hst]
      exact ⟨h1, h2, h3⟩
  | step_seek st fuel f hr ih =>
    obtain ⟨h1, h2, h3⟩ := ih
    have S := seek_fields env fuel f st
    have htot : (seek_to_frame env fuel f st).total_frames = st.total_frames := by
      simp only [Player.total_frames, S.1]
    rw [htot, S.2]
    refine ⟨h1, ?_, ?_⟩ <;> split_ifs <;> omega
  | step_pause st hr ih => exact ih
  | step_reset st hr ih =>
    obtain ⟨h1, h2, h3⟩ := ih
    have R := retro_reset_fields st
    have htot : (retro_reset st).total_frames = st.total_frames := by
      simp only [Player.total_frames, R.2]
    rw [htot, R.1]
    exact ⟨h1, by omega, by omega⟩

/-- **C3** (amended).  In every state reachable from a successful open through
the public operations, `0 ≤ current_frame_idx ≤ total_frames`, and on a
playing, unpaused tick whose advance step reaches `total_frames` the cursor is
reset to 0 before the next tick's frame selection.  The original claim's
unconditional clause fails for `seek`/`retro_reset` on a player with
`total_frames = 0`: such a state is not reachable from a successful open, and
`seek_to_frame` there drives the cursor to `-1` (see the counterexample). -/
theorem frame_cursor_invariant_and_loop (env : Env) (st : Player) (h : Reach env st) :
    (0 ≤ st.current_frame_idx ∧ st.current_frame_idx ≤ st.total_frames) ∧
    (∀ fuel : Nat, st.is_playing = true → st.is_paused = false →
      st.total_frames ≤ (tick_advance st).current_frame_idx →
      (tick env fuel st).1.current_frame_idx = 0) := by
  refine ⟨⟨(reach_inv env st h).2.1, (reach_inv env st h).2.2⟩, ?_⟩
  intro fuel hp hq hwrap
  have A := (tick_advance_frame st).1
  have hwrap2 : st.total_frames ≤
      (if st.repeat_count ≤ st.repeat_counter + 1 then st.current_frame_idx + 1
        else st.current_frame_idx) := by
    rw [← A]
    exact hwrap
  rw [tick_frame_cursor env fuel st hp hq, if_pos hwrap2]

/-- Witness for C3 on a concrete one-frame clip. -/
theorem frame_cursor_invariant_and_loop_witness :
    (0 ≤ ({ frame_index := [(12, 4)], is_playing := true } : Player).current_frame_idx ∧
      ({ frame_index := [(12, 4)], is_playing := true } : Player).current_frame_idx ≤
        ({ frame_index := [(12, 4)], is_playing := true } : Player).total_frames) ∧
    (∀ fuel : Nat,
      ({ frame_index := [(12, 4)], is_playing := true } : Player).is_playing = true →
      ({ frame_index := [(12, 4)], is_playing := true } : Player).is_paused = false →
      ({ frame_index := [(12, 4)], is_playing := true } : Player).total_frames ≤
        (tick_advance
          ({ frame_index := [(12, 4)], is_playing := true } : Player)).current_frame_idx →
      (tick {} fuel ({ frame_index := [(12, 4)], is_playing := true } : Player)).1.current_frame_idx
        = 0) :=
  frame_cursor_invariant_and_loop {} _ (Reach.opened _ rfl (by decide))

/-- **C3** (counterexample to the original unconditional claim): `seek(0)` on a
player with `total_frames = 0` leaves `current_frame_idx = -1`, which is
negative; the clamp `if (target_frame >= total_frames) target_frame =
total_frames - 1` underflows when the table is empty. -/
theorem seek_zero_frames_negative_cursor :
    (seek_to_frame {} 0 0 ({} : Player)).current_frame_idx = -1 := by decide

/-! ## C6: MP3 seek granularity -/

/-- **C6**.  Seeking with MP3 audio works at one-compressed-frame granularity:
`samples_per_mp3_frame` is 1152 when the effective rate is at least 32000 Hz
and 576 otherwise, the target chunk index is `time_samples /
samples_per_mp3_frame` clamped to the last chunk, the byte position inside the
chunk is 0, `audio_samples_sent` is realigned to the chunk boundary
`chunk_index * samples_per_mp3_frame`, and the MP3 decoder state is reset
(`mad` handle freed when initialized, input buffer emptied). -/
theorem seek_mp3_frame_granularity (env : Env) (fuel : Nat) (f : Int) (st : Player)
    (hha : st.has_audio = true) (hbps : 0 < st.audio_bytes_per_sample)
    (hfmt : st.audio_format = AUDIO_FMT_MP3)
    (hf0 : 0 ≤ f) (hflt : f < st.total_frames) :
    (seek_to_frame env fuel f st).audio_chunk_idx =
      (if st.total_audio_chunks ≤
          ((u64ofInt f * effectiveRate st % U64 / st.clip_fps) /
            (if 32000 ≤ effectiveRate st then 1152 else 576) : Nat)
        then st.total_audio_chunks - 1
        else ((u64ofInt f * effectiveRate st % U64 / st.clip_fps) /
            (if 32000 ≤ effectiveRate st then 1152 else 576) : Nat)) ∧
    (seek_to_frame env fuel f st).audio_chunk_pos = 0 ∧
    (seek_to_frame env fuel f st).audio_samples_sent =
      u64ofInt (seek_to_frame env fuel f st).audio_chunk_idx *
        (if 32000 ≤ effectiveRate st then 1152 else 576) % U64 ∧
    (seek_to_frame env fuel f st).mp3_input_len = 0 ∧
    (seek_to_frame env fuel f st).mp3_input_remaining = 0 ∧
    (st.mp3_initialized = true → (seek_to_frame env fuel f st).mp3_dec = 0) := by
  simp only [seek_to_frame, mp3_reset,
    if_neg (show ¬f < 0 by omega),
    if_neg (not_le.mpr hflt),
    if_pos (show st.has_audio = true ∧ 0 < st.audio_bytes_per_sample from ⟨hha, hbps⟩),
    if_pos hfmt]
  refine ⟨?_, ?_, ?_, ?_, ?_, fun hi => ?_⟩ <;>
    first
      | trivial
      | (split_ifs <;> simp_all)

/-- Witness for C6 on a concrete 44.1 kHz MP3 clip, seek to frame 0. -/
theorem seek_mp3_frame_granularity_witness :
    (seek_to_frame {} 0 0 mp3SeekSt).audio_chunk_idx = 0 ∧
    (seek_to_frame {} 0 0 mp3SeekSt).audio_chunk_pos = 0 ∧
    (seek_to_frame {} 0 0 mp3SeekSt).audio_samples_sent = 0 ∧
    (seek_to_frame {} 0 0 mp3SeekSt).mp3_input_len = 0 ∧
    (seek_to_frame {} 0 0 mp3SeekSt).mp3_input_remaining = 0 ∧
    (seek_to_frame {} 0 0 mp3SeekSt).mp3_dec = 0 := by
  have h := seek_mp3_frame_granularity {} 0 0 mp3SeekSt (by decide) (by decide) (by decide)
    (by decide) (by decide)
  refine ⟨?_, h.2.1, ?_, h.2.2.2.1, h.2.2.2.2.1, h.2.2.2.2.2 (by decide)⟩
  · rw [h.1]
    decide
  · rw [h.2.2.1, h.1]
    decide

/-! ## C5: end-of-stream loop reset -/

/-- **C5**.  When the cursor advance reaches `total_frames` on a playing,
unpaused tick, the tick rewinds through an intermediate state with
`current_frame_idx`, the audio cursor, `audio_samples_sent`, the ring buffer
and `repeat_counter` all zeroed, runs exactly one `refill_audio_ring` on it,
the next tick decodes frame index 0, and (for the MJPEG path, which decodes a
frame during open) that is the same index `open_video` decodes at open. -/
theorem tick_loop_reset_and_first_frame (env : Env) (fuel : Nat) (st : Player)
    (hp : st.is_playing = true) (hq : st.is_paused = false)
    (hwrap : st.total_frames ≤ (tick_advance st).current_frame_idx) :
    (∃ mid : Player,
      (tick env fuel st).1 = refill_audio_ring env fuel mid ∧
      mid.current_frame_idx = 0 ∧ mid.repeat_counter = 0 ∧
      mid.audio_chunk_idx = 0 ∧ mid.audio_chunk_pos = 0 ∧
      mid.audio_samples_sent = 0 ∧
      mid.aring_read = 0 ∧ mid.aring_write = 0 ∧ mid.aring_count = 0 ∧
      mid.frame_index = st.frame_index) ∧
    (∀ fuel2 : Nat, 0 < st.total_frames →
      (tick env fuel2 (tick env fuel st).1).2 = some 0) ∧
    (st.video_codec_type ≠ CODEC_TYPE_MPEG4 → open_decoded_frame st = some 0) := by
  have C := play_audio_preserves env fuel (tick_advance st)
  have T := tick_advance_preserves st
  have B := mp3_reset_preserves
    (loop_reset ((play_audio_for_frame env fuel (tick_advance st)).1))
  have L := loop_reset_preserves ((play_audio_for_frame env fuel (tick_advance st)).1)
  have A := refill_preserves env fuel
    { mp3_reset (loop_reset ((play_audio_for_frame env fuel (tick_advance st)).1)) with
      repeat_counter := 0 }
  have hs1tot : ((play_audio_for_frame env fuel (tick_advance st)).1).total_frames =
      st.total_frames := by
    simp only [Player.total_frames]
    rw [C.2.2.2.2.2.1, T.2.2.1]
  have hcond : ((play_audio_for_frame env fuel (tick_advance st)).1).total_frames ≤
      ((play_audio_for_frame env fuel (tick_advance st)).1).current_frame_idx := by
    rw [hs1tot, C.2.2.1]
    exact hwrap
  have htick : (tick env fuel st).1 =
      refill_audio_ring env fuel
        { mp3_reset (loop_reset ((play_audio_for_frame env fuel (tick_advance st)).1)) with
          repeat_counter := 0 } := by
    simp only [tick]
    rw [if_pos (show st.is_playing = true ∧ ¬st.is_paused = true by simp [hp, hq]),
      if_pos hcond]
  have hfi : (tick env fuel st).1.frame_index = st.frame_index := by
    rw [htick]
    exact A.2.2.2.2.2.1.trans (B.2.2.1.trans (L.2.2.1.trans (C.2.2.2.2.2.1.trans T.2.2.1)))
  refine ⟨⟨_, htick, ?_, ?_, ?_, ?_, ?_, ?_, ?_, ?_, ?_⟩, ?_, ?_⟩
  · exact B.1.trans rfl
  · exact rfl
  · exact B.2.2.2.2.2.2.1.trans rfl
  · exact B.2.2.2.2.2.2.2.1.trans rfl
  · exact B.2.2.2.2.2.2.2.2.1.trans rfl
  · exact B.2.2.2.2.2.2.2.2.2.1.trans rfl
  · exact B.2.2.2.2.2.2.2.2.2.2.1.trans rfl
  · exact B.2.2.2.2.2.2.2.2.2.2.2.1.trans rfl
  · exact B.2.2.1.trans (L.2.2.1.trans (C.2.2.2.2.2.1.trans T.2.2.1))
  · intro fuel2 hpos
    have P := tick_preserves env fuel st
    have hidx2 : (tick env fuel st).1.current_frame_idx = 0 := by
      rw [htick]
      exact A.2.2.1.trans (B.1.trans rfl)
    have hrc2 : (tick env fuel st).1.repeat_counter = 0 := by
      rw [htick]
      exact A.2.2.2.1.trans rfl
    have hlt : (tick env fuel st).1.current_frame_idx < (tick env fuel st).1.total_frames := by
      rw [hidx2]
      simp only [Player.total_frames, hfi]
      exact hpos
    have hpl2 : (tick env fuel st).1.is_playing = true := P.1.trans hp
    have hpa2 : (tick env fuel st).1.is_paused = false := P.2.1.trans hq
    generalize hG : (tick env fuel st).1 = s2 at hidx2 hrc2 hlt hpl2 hpa2 ⊢
    simp only [tick]
    rw [if_pos (show s2.is_playing = true ∧ ¬s2.is_paused = true by simp [hpl2, hpa2]),
      if_pos (show s2.repeat_counter = 0 ∧ s2.current_frame_idx < s2.total_frames from
        ⟨hrc2, hlt⟩), hidx2]
  · intro h
    simp [open_decoded_frame, h]

/-- Witness for C5: on the one-frame clip the advance hits `total_frames`,
the loop reset fires, and the next tick decodes frame 0. -/
theorem tick_loop_reset_and_first_frame_witness :
    (∃ mid : Player,
      (tick {} 0 loopSt).1 = refill_audio_ring {} 0 mid ∧
      mid.current_frame_idx = 0 ∧ mid.repeat_counter = 0 ∧
      mid.audio_chunk_idx = 0 ∧ mid.audio_chunk_pos = 0 ∧
      mid.audio_samples_sent = 0 ∧
      mid.aring_read = 0 ∧ mid.aring_write = 0 ∧ mid.aring_count = 0 ∧
      mid.frame_index = loopSt.frame_index) ∧
    (∀ fuel2 : Nat, 0 < loopSt.total_frames →
      (tick {} fuel2 (tick {} 0 loopSt).1).2 = some 0) ∧
    (loopSt.video_codec_type ≠ CODEC_TYPE_MPEG4 → open_decoded_frame loopSt = some 0) :=
  tick_loop_reset_and_first_frame {} 0 loopSt (by decide) (by decide) (by decide)

/-! ## C2: ring-buffer invariant -/

theorem aring_size_pos : (0 : Int) < (AUDIO_RING_SIZE : Int) := by
  norm_num [AUDIO_RING_SIZE]

/-- Exact behaviour of the consume loop under the ring invariant: it
returns `min (max (n - r) 0) count` further bytes, decreases the count by
exactly that amount, and preserves the invariant. -/
theorem read_audio_ring_loop_spec (fuel : Nat) : ∀ (n r : Int) (st : Player),
    RingInv st → n - r ≤ fuel →
    (read_audio_ring_loop fuel n r st).2 =
      r + min (max (n - r) 0) st.aring_count ∧
    (read_audio_ring_loop fuel n r st).1.aring_count =
      st.aring_count - min (max (n - r) 0) st.aring_count ∧
    RingInv (read_audio_ring_loop fuel n r st).1 := by
  induction fuel with
  | zero =>
    intro n r st hInv hf
    obtain ⟨i1, i2, i3, i4, i5, i6⟩ := hInv
    simp only [read_audio_ring_loop]
    exact ⟨by show r = r + min (max (n - r) 0) st.aring_count; omega,
      by show st.aring_count = st.aring_count - min (max (n - r) 0) st.aring_count; omega,
      ⟨i1, i2, i3, i4, i5, i6⟩⟩
  | succ fuel ih =>
    intro n r st hInv hf
    obtain ⟨i1, i2, i3, i4, i5, i6⟩ := hInv
    simp only [read_audio_ring_loop]
    split
    next hcond =>
      have key : ∀ t : Int, 0 < t → t ≤ n - r → t ≤ st.aring_count →
          (read_audio_ring_loop fuel n (r + t)
            { st with aring_read := (st.aring_read + t) % (AUDIO_RING_SIZE : Int),
                      aring_count := st.aring_count - t }).2 =
            r + min (max (n - r) 0) st.aring_count ∧
          (read_audio_ring_loop fuel n (r + t)
            { st with aring_read := (st.aring_read + t) % (AUDIO_RING_SIZE : Int),
                      aring_count := st.aring_count - t }).1.aring_count =
            st.aring_count - min (max (n - r) 0) st.aring_count ∧
          RingInv (read_audio_ring_loop fuel n (r + t)
            { st with aring_read := (st.aring_read + t) % (AUDIO_RING_SIZE : Int),
                      aring_count := st.aring_count - t }).1 := by
        intro t ht0 ht1 ht2
        have hmod0 : 0 ≤ (st.aring_read + t) % (AUDIO_RING_SIZE : Int) :=
          Int.emod_nonneg _ (ne_of_gt aring_size_pos)
        have hmodlt : (st.aring_read + t) % (AUDIO_RING_SIZE : Int) < (AUDIO_RING_SIZE : Int) :=
          Int.emod_lt_of_pos _ aring_size_pos
        have hInv2 : RingInv { st with
            aring_read := (st.aring_read + t) % (AUDIO_RING_SIZE : Int),
            aring_count := st.aring_count - t } :=
          ⟨hmod0, hmodlt, i3, i4, by show 0 ≤ st.aring_count - t; omega,
            by show st.aring_count - t ≤ (AUDIO_RING_SIZE : Int); omega⟩
        obtain ⟨k1, k2, k3⟩ := ih n (r + t) _ hInv2 (by omega)
        have hproj : ({ st with
            aring_read := (st.aring_read + t) % (AUDIO_RING_SIZE : Int),
            aring_count := st.aring_count - t } : Player).aring_count =
            st.aring_count - t := rfl
        rw [hproj] at k1 k2
        exact ⟨by rw [k1]; omega, by rw [k2]; omega, k3⟩
      split_ifs with h1 h2 h2
      · exact key st.aring_count (by omega) (by omega) (by omega)
      · exact key (n - r) (by omega) (by omega) (by omega)
      · exact key ((AUDIO_RING_SIZE : Int) - st.aring_read) (by omega) (by omega) (by omega)
      · exact key (n - r) (by omega) (by omega) (by omega)
    next hcond =>
      exact ⟨by show r = r + min (max (n - r) 0) st.aring_count; omega,
        by show st.aring_count = st.aring_count - min (max (n - r) 0) st.aring_count; omega,
        ⟨i1, i2, i3, i4, i5, i6⟩⟩

/-- Consume spec at the `read_audio_ring` entry point: exactly
`min (max n 0) count` bytes come back and the count drops by that amount. -/
theorem read_audio_ring_spec (n : Int) (st : Player) (hInv : RingInv st) :
    (read_audio_ring n st).2 = min (max n 0) st.aring_count ∧
    (read_audio_ring n st).1.aring_count = st.aring_count - (read_audio_ring n st).2 ∧
    RingInv (read_audio_ring n st).1 := by
  obtain ⟨k1, k2, k3⟩ := read_audio_ring_loop_spec (n.toNat + 1) n 0 st hInv (by omega)
  simp only [read_audio_ring]
  refine ⟨by rw [k1]; omega, by rw [k2, k1]; omega, k3⟩

theorem freadLen_le (f : List Nat) (pos n : Nat) : freadLen f pos n ≤ n :=
  Nat.min_le_left _ _

/-- The PCM disk reader returns between `r` and `n` total bytes. -/
theorem read_audio_disk_pcm_loop_bytes (fuel : Nat) : ∀ (env : Env) (n r : Int) (st : Player),
    r ≤ n → r ≤ (read_audio_disk_pcm_loop fuel env n r st).2 ∧
      (read_audio_disk_pcm_loop fuel env n r st).2 ≤ n := by
  induction fuel with
  | zero =>
    intro env n r st hr
    simp only [read_audio_disk_pcm_loop]
    exact ⟨le_refl r, hr⟩
  | succ fuel ih =>
    intro env n r st hr
    simp only [read_audio_disk_pcm_loop]
    split
    next hcond =>
      have hkey : ∀ (g : Nat) (st2 : Player), (g : Int) ≤ n - r →
          r ≤ (read_audio_disk_pcm_loop fuel env n (r + (g : Int)) st2).2 ∧
          (read_audio_disk_pcm_loop fuel env n (r + (g : Int)) st2).2 ≤ n := by
        intro g st2 hg
        obtain ⟨a, b⟩ := ih env n (r + (g : Int)) st2 (by omega)
        exact ⟨by omega, b⟩
      have hkey2 : ∀ (g : Nat) (st2 : Player), (g : Int) ≤ n - r →
          r ≤ ((st2, r + (g : Int)) : Player × Int).2 ∧
          ((st2, r + (g : Int)) : Player × Int).2 ≤ n := by
        intro g st2 hg
        exact ⟨by show r ≤ r + (g : Int); omega, by show r + (g : Int) ≤ n; omega⟩
      have hA : (freadLen env.file (st.chunkOffset + st.audio_chunk_pos)
          ((u32sub st.chunkSize st.audio_chunk_pos : Int)).toNat : Int) ≤
          max ((u32sub st.chunkSize st.audio_chunk_pos : Nat) : Int) 0 := by
        have := freadLen_le env.file (st.chunkOffset + st.audio_chunk_pos)
          ((u32sub st.chunkSize st.audio_chunk_pos : Int)).toNat
        omega
      have hB : (freadLen env.file (st.chunkOffset + st.audio_chunk_pos)
          (n - r).toNat : Int) ≤ max (n - r) 0 := by
        have := freadLen_le env.file (st.chunkOffset + st.audio_chunk_pos) (n - r).toNat
        omega
      split_ifs with h1 h2 h3 h2 h3 <;>
        first
          | exact hkey _ _ (by omega)
          | exact hkey2 _ _ (by omega)
    next hcond =>
      exact ⟨le_refl r, hr⟩

/-- Entry form of the bytes bound. -/
theorem read_audio_disk_pcm_bytes (env : Env) (n : Int) (st : Player) (hn : 0 ≤ n) :
    0 ≤ (read_audio_disk_pcm env n st).2 ∧ (read_audio_disk_pcm env n st).2 ≤ n :=
  read_audio_disk_pcm_loop_bytes _ env n 0 st (by omega)

/-- PCM refill keeps the ring invariant and writes at most the free space
handed to it. -/
theorem refill_pcm_loop_spec (fuel : Nat) : ∀ (env : Env) (fs : Int) (st : Player),
    RingInv st → fs ≤ (AUDIO_RING_SIZE : Int) - st.aring_count →
    RingInv (refill_pcm_loop fuel env fs st) ∧
    st.aring_count ≤ (refill_pcm_loop fuel env fs st).aring_count ∧
    (refill_pcm_loop fuel env fs st).aring_count ≤ st.aring_count + max fs 0 := by
  induction fuel with
  | zero =>
    intro env fs st hInv hfs
    simp only [refill_pcm_loop]
    exact ⟨hInv, le_refl _, by omega⟩
  | succ fuel ih =>
    intro env fs st hInv hfs
    obtain ⟨i1, i2, i3, i4, i5, i6⟩ := hInv
    simp only [refill_pcm_loop]
    split
    next hcond =>
      have key : ∀ tr : Int, 0 ≤ tr → tr ≤ fs →
          RingInv (if (read_audio_disk_pcm env tr st).2 ≤ 0 then (read_audio_disk_pcm env tr st).1
            else refill_pcm_loop fuel env (fs - (read_audio_disk_pcm env tr st).2)
              { (read_audio_disk_pcm env tr st).1 with
                aring_write := ((read_audio_disk_pcm env tr st).1.aring_write +
                  (read_audio_disk_pcm env tr st).2) % (AUDIO_RING_SIZE : Int),
                aring_count := (read_audio_disk_pcm env tr st).1.aring_count +
                  (read_audio_disk_pcm env tr st).2 }) ∧
          st.aring_count ≤ (if (read_audio_disk_pcm env tr st).2 ≤ 0 then
              (read_audio_disk_pcm env tr st).1
            else refill_pcm_loop fuel env (fs - (read_audio_disk_pcm env tr st).2)
              { (read_audio_disk_pcm env tr st).1 with
                aring_write := ((read_audio_disk_pcm env tr st).1.aring_write +
                  (read_audio_disk_pcm env tr st).2) % (AUDIO_RING_SIZE : Int),
                aring_count := (read_audio_disk_pcm env tr st).1.aring_count +
                  (read_audio_disk_pcm env tr st).2 }).aring_count ∧
          (if (read_audio_disk_pcm env tr st).2 ≤ 0 then (read_audio_disk_pcm env tr st).1
            else refill_pcm_loop fuel env (fs - (read_audio_disk_pcm env tr st).2)
              { (read_audio_disk_pcm env tr st).1 with
                aring_write := ((read_audio_disk_pcm env tr st).1.aring_write +
                  (read_audio_disk_pcm env tr st).2) % (AUDIO_RING_SIZE : Int),
                aring_count := (read_audio_disk_pcm env tr st).1.aring_count +
                  (read_audio_disk_pcm env tr st).2 }).aring_count ≤
            st.aring_count + max fs 0 := by
        intro tr htr0 htrfs
        obtain ⟨hg0, hgtr⟩ := read_audio_disk_pcm_bytes env tr st htr0
        obtain ⟨ci, cp, hp⟩ := read_audio_disk_pcm_shape env tr st
        have hrd : (read_audio_disk_pcm env tr st).1.aring_read = st.aring_read := by rw [hp]
        have hwr : (read_audio_disk_pcm env tr st).1.aring_write = st.aring_write := by rw [hp]
        have hcnt : (read_audio_disk_pcm env tr st).1.aring_count = st.aring_count := by rw [hp]
        split
        next hg =>
          refine ⟨⟨?_, ?_, ?_, ?_, ?_, ?_⟩, ?_, ?_⟩
          · rw [hrd]; exact i1
          · rw [hrd]; exact i2
          · rw [hwr]; exact i3
          · rw [hwr]; exact i4
          · rw [hcnt]; exact i5
          · rw [hcnt]; exact i6
          · rw [hcnt]
          · rw [hcnt]; omega
        next hg =>
          have hInvUp : RingInv { (read_audio_disk_pcm env tr st).1 with
              aring_write := ((read_audio_disk_pcm env tr st).1.aring_write +
                (read_audio_disk_pcm env tr st).2) % (AUDIO_RING_SIZE : Int),
              aring_count := (read_audio_disk_pcm env tr st).1.aring_count +
                (read_audio_disk_pcm env tr st).2 } := by
            refine ⟨?_, ?_, Int.emod_nonneg _ (ne_of_gt aring_size_pos),
              Int.emod_lt_of_pos _ aring_size_pos, ?_, ?_⟩
            · show 0 ≤ (read_audio_disk_pcm env tr st).1.aring_read
              rw [hrd]; exact i1
            · show (read_audio_disk_pcm env tr st).1.aring_read < (AUDIO_RING_SIZE : Int)
              rw [hrd]; exact i2
            · show 0 ≤ (read_audio_disk_pcm env tr st).1.aring_count +
                (read_audio_disk_pcm env tr st).2
              rw [hcnt]; omega
            · show (read_audio_disk_pcm env tr st).1.aring_count +
                (read_audio_disk_pcm env tr st).2 ≤ (AUDIO_RING_SIZE : Int)
              rw [hcnt]; omega
          have hlitc : ({ (read_audio_disk_pcm env tr st).1 with
              aring_write := ((read_audio_disk_pcm env tr st).1.aring_write +
                (read_audio_disk_pcm env tr st).2) % (AUDIO_RING_SIZE : Int),
              aring_count := (read_audio_disk_pcm env tr st).1.aring_count +
                (read_audio_disk_pcm env tr st).2 } : Player).aring_count =
              st.aring_count + (read_audio_disk_pcm env tr st).2 := by
            show (read_audio_disk_pcm env tr st).1.aring_count +
              (read_audio_disk_pcm env tr st).2 = _
            rw [hcnt]
          obtain ⟨j1, j2, j3⟩ := ih env (fs - (read_audio_disk_pcm env tr st).2) _ hInvUp
            (by rw [hlitc]; omega)
          rw [hlitc] at j2 j3
          exact ⟨j1, by omega, by omega⟩
      by_cases h1 : fs < (AUDIO_RING_SIZE : Int) - st.aring_write
      · by_cases h2 : (4096 : Int) < fs
        · simp only [if_pos h1, if_pos h2]
          exact key 4096 (by omega) (by omega)
        · simp only [if_pos h1, if_neg h2]
          exact key fs (by omega) (by omega)
      · by_cases h2 : (4096 : Int) < (AUDIO_RING_SIZE : Int) - st.aring_write
        · simp only [if_neg h1, if_pos h2]
          exact key 4096 (by omega) (by omega)
        · simp only [if_neg h1, if_neg h2]
          exact key ((AUDIO_RING_SIZE : Int) - st.aring_write) (by omega) (by omega)
    next hcond =>
      exact ⟨⟨i1, i2, i3, i4, i5, i6⟩, le_refl _, by omega⟩

/-- `RingInv` only looks at the three ring fields. -/
theorem ringInv_of_eq (a b : Player) (h1 : a.aring_read = b.aring_read)
    (h2 : a.aring_write = b.aring_write) (h3 : a.aring_count = b.aring_count)
    (hb : RingInv b) : RingInv a := by
  simp only [RingInv, h1, h2, h3]
  exact hb

/-- One ADPCM refill iteration writes a nonnegative number of bytes bounded
by the free space, adds exactly that to the count, and keeps the ring
invariant. -/
theorem read_audio_disk_adpcm_iter_spec (env : Env) (fs sc : Int) (st : Player)
    (hInv : RingInv st) (hfs0 : 0 ≤ fs)
    (hfree : fs ≤ (AUDIO_RING_SIZE : Int) - st.aring_count) :
    0 ≤ (read_audio_disk_adpcm_iter env fs sc st).written ∧
    (read_audio_disk_adpcm_iter env fs sc st).written ≤ fs ∧
    (read_audio_disk_adpcm_iter env fs sc st).st.aring_count =
      st.aring_count + (read_audio_disk_adpcm_iter env fs sc st).written ∧
    RingInv (read_audio_disk_adpcm_iter env fs sc st).st := by
  obtain ⟨i1, i2, i3, i4, i5, i6⟩ := hInv
  simp only [read_audio_disk_adpcm_iter]
  split
  next h7 =>
    exact ⟨le_refl 0, hfs0, by show st.aring_count = st.aring_count + 0; omega,
      ⟨i1, i2, i3, i4, i5, i6⟩⟩
  next h7 =>
    split
    next hgot =>
      exact ⟨le_refl 0, hfs0, by show st.aring_count = st.aring_count + 0; omega,
        ⟨i1, i2, i3, i4, i5, i6⟩⟩
    next hgot =>
      obtain ⟨ci, cp, hadv⟩ := advance_audio_cursor_shape _ st
      rw [hadv]
      split
      next hs =>
        exact ⟨le_refl 0, hfs0, by show st.aring_count = st.aring_count + 0; omega,
          ⟨i1, i2, i3, i4, i5, i6⟩⟩
      next hs =>
        split
        next hdb =>
          refine ⟨hfs0, le_refl fs, by show st.aring_count + fs = st.aring_count + fs; rfl,
            ?_, ?_, Int.emod_nonneg _ (ne_of_gt aring_size_pos),
            Int.emod_lt_of_pos _ aring_size_pos, ?_, ?_⟩
          · exact i1
          · exact i2
          · show 0 ≤ st.aring_count + fs
            omega
          · show st.aring_count + fs ≤ (AUDIO_RING_SIZE : Int)
            omega
        next hdb =>
          refine ⟨by
              show (0 : Int) ≤ ((adpcm_decode_block env
                (st.chunkOffset + st.audio_chunk_pos) (adpcm_block_size st) st).2 : Int) * 2
              omega,
            by
              show ((adpcm_decode_block env
                (st.chunkOffset + st.audio_chunk_pos) (adpcm_block_size st) st).2 : Int) * 2 ≤ fs
              omega,
            by show st.aring_count + _ = st.aring_count + _; rfl,
            ?_, ?_, Int.emod_nonneg _ (ne_of_gt aring_size_pos),
            Int.emod_lt_of_pos _ aring_size_pos, ?_, ?_⟩
          · exact i1
          · exact i2
          · show 0 ≤ st.aring_count +
              ((adpcm_decode_block env (st.chunkOffset + st.audio_chunk_pos)
                (adpcm_block_size st) st).2 : Int) * 2
            omega
          · show st.aring_count +
              ((adpcm_decode_block env (st.chunkOffset + st.audio_chunk_pos)
                (adpcm_block_size st) st).2 : Int) * 2 ≤ (AUDIO_RING_SIZE : Int)
            omega

/-- The ADPCM refill loop: total bytes written are nonnegative, bounded by
the free space handed in, accounted exactly in `aring_count`, and the ring
invariant is preserved. -/
theorem read_audio_disk_adpcm_loop_spec (fuel : Nat) :
    ∀ (env : Env) (fs td sc : Int) (st : Player),
    RingInv st → 0 ≤ fs → fs ≤ (AUDIO_RING_SIZE : Int) - st.aring_count →
    td ≤ (read_audio_disk_adpcm_loop fuel env fs td sc st).2 ∧
    (read_audio_disk_adpcm_loop fuel env fs td sc st).2 - td ≤ fs ∧
    (read_audio_disk_adpcm_loop fuel env fs td sc st).1.aring_count =
      st.aring_count + ((read_audio_disk_adpcm_loop fuel env fs td sc st).2 - td) ∧
    RingInv (read_audio_disk_adpcm_loop fuel env fs td sc st).1 := by
  induction fuel with
  | zero =>
    intro env fs td sc st hInv hfs0 hfree
    simp only [read_audio_disk_adpcm_loop]
    exact ⟨le_refl td, by omega,
      by show st.aring_count = st.aring_count + (td - td); omega, hInv⟩
  | succ fuel ih =>
    intro env fs td sc st hInv hfs0 hfree
    simp only [read_audio_disk_adpcm_loop]
    split
    next hcond =>
      obtain ⟨w0, wfs, wcnt, wInv⟩ := read_audio_disk_adpcm_iter_spec env fs sc st hInv hfs0 hfree
      split
      next hbrk =>
        refine ⟨?_, ?_, ?_, wInv⟩
        · show td ≤ td + (read_audio_disk_adpcm_iter env fs sc st).written
          omega
        · show td + (read_audio_disk_adpcm_iter env fs sc st).written - td ≤ fs
          omega
        · show (read_audio_disk_adpcm_iter env fs sc st).st.aring_count =
            st.aring_count + (td + (read_audio_disk_adpcm_iter env fs sc st).written - td)
          omega
      next hbrk =>
        split
        next hlim =>
          refine ⟨?_, ?_, ?_, wInv⟩
          · show td ≤ td + (read_audio_disk_adpcm_iter env fs sc st).written
            omega
          · show td + (read_audio_disk_adpcm_iter env fs sc st).written - td ≤ fs
            omega
          · show (read_audio_disk_adpcm_iter env fs sc st).st.aring_count =
              st.aring_count + (td + (read_audio_disk_adpcm_iter env fs sc st).written - td)
            omega
        next hlim =>
          obtain ⟨j1, j2, j3, j4⟩ := ih env
            (fs - (read_audio_disk_adpcm_iter env fs sc st).written)
            (td + (read_audio_disk_adpcm_iter env fs sc st).written)
            (read_audio_disk_adpcm_iter env fs sc st).ctr
            (read_audio_disk_adpcm_iter env fs sc st).st wInv (by omega) (by omega)
          exact ⟨by omega, by omega, by omega, j4⟩
    next hcond =>
      exact ⟨le_refl td, by omega,
        by show st.aring_count = st.aring_count + (td - td); omega, hInv⟩

/-- `read_audio_disk_adpcm` entry: returned byte total is nonnegative,
bounded by the call-start free space, and equals the count increase. -/
theorem read_audio_disk_adpcm_spec (env : Env) (st : Player) (hInv : RingInv st) :
    0 ≤ (read_audio_disk_adpcm env st).2 ∧
    (read_audio_disk_adpcm env st).2 ≤ (AUDIO_RING_SIZE : Int) - st.aring_count ∧
    (read_audio_disk_adpcm env st).1.aring_count =
      st.aring_count + (read_audio_disk_adpcm env st).2 ∧
    RingInv (read_audio_disk_adpcm env st).1 := by
  obtain ⟨i1, i2, i3, i4, i5, i6⟩ := hInv
  simp only [read_audio_disk_adpcm]
  split
  next h =>
    exact ⟨le_refl 0, by omega, by show st.aring_count = st.aring_count + 0; omega,
      ⟨i1, i2, i3, i4, i5, i6⟩⟩
  next h =>
    obtain ⟨j1, j2, j3, j4⟩ := read_audio_disk_adpcm_loop_spec 500 env
      ((AUDIO_RING_SIZE : Int) - st.aring_count) 0 0 st ⟨i1, i2, i3, i4, i5, i6⟩
      (by omega) (by omega)
    exact ⟨j1, by omega, by omega, j4⟩

/-- `mp3_fill_input_buffer` never touches the ring fields. -/
theorem mp3_fill_input_buffer_ring (env : Env) (st : Player) :
    (mp3_fill_input_buffer env st).1.aring_read = st.aring_read ∧
    (mp3_fill_input_buffer env st).1.aring_write = st.aring_write ∧
    (mp3_fill_input_buffer env st).1.aring_count = st.aring_count := by
  obtain ⟨ci, cp, ml, mr, h⟩ := mp3_fill_input_buffer_shape env st
  exact ⟨by rw [h], by rw [h], by rw [h]⟩

/-- The MP3 ring write: bytes written are nonnegative, clamped to the free
space, accounted exactly in `aring_count`, and the invariant is kept. -/
theorem mp3_write_ring_spec (fs : Int) (bd : Nat) (st : Player) (hInv : RingInv st)
    (hfs0 : 0 ≤ fs) (hfree : fs ≤ (AUDIO_RING_SIZE : Int) - st.aring_count) :
    0 ≤ (mp3_write_ring fs bd st).2 ∧ (mp3_write_ring fs bd st).2 ≤ fs ∧
    (mp3_write_ring fs bd st).1.aring_count = st.aring_count + (mp3_write_ring fs bd st).2 ∧
    RingInv (mp3_write_ring fs bd st).1 := by
  obtain ⟨i1, i2, i3, i4, i5, i6⟩ := hInv
  simp only [mp3_write_ring]
  split_ifs
  all_goals first
    | exact ⟨by show (0 : Int) ≤ fs / 4 * 4; omega, by show fs / 4 * 4 ≤ fs; omega,
        by show st.aring_count + fs / 4 * 4 = st.aring_count + fs / 4 * 4; rfl,
        i1, i2, Int.emod_nonneg _ (ne_of_gt aring_size_pos),
        Int.emod_lt_of_pos _ aring_size_pos,
        by show 0 ≤ st.aring_count + fs / 4 * 4; omega,
        by show st.aring_count + fs / 4 * 4 ≤ (AUDIO_RING_SIZE : Int); omega⟩
    | exact ⟨by show (0 : Int) ≤ (bd : Int) / 2 * 4; omega,
        by show (bd : Int) / 2 * 4 ≤ fs; omega,
        by show st.aring_count + (bd : Int) / 2 * 4 =
          st.aring_count + (bd : Int) / 2 * 4; rfl,
        i1, i2, Int.emod_nonneg _ (ne_of_gt aring_size_pos),
        Int.emod_lt_of_pos _ aring_size_pos,
        by show 0 ≤ st.aring_count + (bd : Int) / 2 * 4; omega,
        by show st.aring_count + (bd : Int) / 2 * 4 ≤ (AUDIO_RING_SIZE : Int); omega⟩
    | exact ⟨hfs0, le_refl fs,
        by show st.aring_count + fs = st.aring_count + fs; rfl,
        i1, i2, Int.emod_nonneg _ (ne_of_gt aring_size_pos),
        Int.emod_lt_of_pos _ aring_size_pos,
        by show 0 ≤ st.aring_count + fs; omega,
        by show st.aring_count + fs ≤ (AUDIO_RING_SIZE : Int); omega⟩
    | exact ⟨by show (0 : Int) ≤ (bd : Int); omega, by show (bd : Int) ≤ fs; omega,
        by show st.aring_count + (bd : Int) = st.aring_count + (bd : Int); rfl,
        i1, i2, Int.emod_nonneg _ (ne_of_gt aring_size_pos),
        Int.emod_lt_of_pos _ aring_size_pos,
        by show 0 ≤ st.aring_count + (bd : Int); omega,
        by show st.aring_count + (bd : Int) ≤ (AUDIO_RING_SIZE : Int); omega⟩

/-- Each MP3 refill iteration either leaves the ring untouched (and writes
nothing) or performs exactly one `mp3_write_ring` on a state whose ring
fields equal the iteration's input. -/
theorem read_audio_disk_mp3_iter_cases (env : Env) (fs ce : Int) (st : Player) :
    ((read_audio_disk_mp3_iter env fs ce st).written = 0 ∧
      (read_audio_disk_mp3_iter env fs ce st).st.aring_read = st.aring_read ∧
      (read_audio_disk_mp3_iter env fs ce st).st.aring_write = st.aring_write ∧
      (read_audio_disk_mp3_iter env fs ce st).st.aring_count = st.aring_count) ∨
    (∃ st4 : Player, ∃ bd : Nat,
      (read_audio_disk_mp3_iter env fs ce st).st = (mp3_write_ring fs bd st4).1 ∧
      (read_audio_disk_mp3_iter env fs ce st).written = (mp3_write_ring fs bd st4).2 ∧
      st4.aring_read = st.aring_read ∧ st4.aring_write = st.aring_write ∧
      st4.aring_count = st.aring_count) := by
  simp only [read_audio_disk_mp3_iter]
  obtain ⟨ci0, cp0, ml0, mr0, hf⟩ := mp3_fill_input_buffer_shape env st
  by_cases hd : st.mp3_input_remaining < 2048 <;>
    [simp only [if_pos hd, hf]; simp only [if_neg hd]] <;>
    repeat' split
  all_goals first
    | exact Or.inl ⟨rfl, rfl, rfl, rfl⟩
    | exact Or.inr ⟨_, _, rfl, rfl, rfl, rfl, rfl⟩
    | (obtain ⟨ci1, cp1, ml1, mr1, hf1⟩ := mp3_fill_input_buffer_shape env _
       rw [hf1]
       exact Or.inl ⟨rfl, rfl, rfl, rfl⟩)

/-- One MP3 refill iteration: written bytes bound and exact accounting. -/
theorem read_audio_disk_mp3_iter_spec (env : Env) (fs ce : Int) (st : Player)
    (hInv : RingInv st) (hfs0 : 0 ≤ fs)
    (hfree : fs ≤ (AUDIO_RING_SIZE : Int) - st.aring_count) :
    0 ≤ (read_audio_disk_mp3_iter env fs ce st).written ∧
    (read_audio_disk_mp3_iter env fs ce st).written ≤ fs ∧
    (read_audio_disk_mp3_iter env fs ce st).st.aring_count =
      st.aring_count + (read_audio_disk_mp3_iter env fs ce st).written ∧
    RingInv (read_audio_disk_mp3_iter env fs ce st).st := by
  rcases read_audio_disk_mp3_iter_cases env fs ce st with
    ⟨hw, hr, hwr2, hc⟩ | ⟨st4, bd, ho, hw, h1, h2, h3⟩
  · rw [hw, hc]
    exact ⟨le_refl 0, hfs0, by omega, ringInv_of_eq _ st hr hwr2 hc hInv⟩
  · have inv4 := ringInv_of_eq st4 st h1 h2 h3 hInv
    obtain ⟨s1, s2, s3, s4⟩ := mp3_write_ring_spec fs bd st4 inv4 hfs0 (by omega)
    rw [ho, hw]
    exact ⟨s1, s2, by rw [s3, h3], s4⟩

/-- The MP3 refill loop: same accounting as the ADPCM loop. -/
theorem read_audio_disk_mp3_loop_spec (fuel : Nat) :
    ∀ (env : Env) (fs td ce : Int) (st : Player),
    RingInv st → 0 ≤ fs → fs ≤ (AUDIO_RING_SIZE : Int) - st.aring_count →
    td ≤ (read_audio_disk_mp3_loop fuel env fs td ce st).2 ∧
    (read_audio_disk_mp3_loop fuel env fs td ce st).2 - td ≤ fs ∧
    (read_audio_disk_mp3_loop fuel env fs td ce st).1.aring_count =
      st.aring_count + ((read_audio_disk_mp3_loop fuel env fs td ce st).2 - td) ∧
    RingInv (read_audio_disk_mp3_loop fuel env fs td ce st).1 := by
  induction fuel with
  | zero =>
    intro env fs td ce st hInv hfs0 hfree
    simp only [read_audio_disk_mp3_loop]
    exact ⟨le_refl td, by omega,
      by show st.aring_count = st.aring_count + (td - td); omega, hInv⟩
  | succ fuel ih =>
    intro env fs td ce st hInv hfs0 hfree
    simp only [read_audio_disk_mp3_loop]
    split
    next hcond =>
      obtain ⟨w0, wfs, wcnt, wInv⟩ := read_audio_disk_mp3_iter_spec env fs ce st hInv hfs0 hfree
      split
      next hbrk =>
        refine ⟨?_, ?_, ?_, wInv⟩
        · show td ≤ td + (read_audio_disk_mp3_iter env fs ce st).written
          omega
        · show td + (read_audio_disk_mp3_iter env fs ce st).written - td ≤ fs
          omega
        · show (read_audio_disk_mp3_iter env fs ce st).st.aring_count =
            st.aring_count + (td + (read_audio_disk_mp3_iter env fs ce st).written - td)
          omega
      next hbrk =>
        split
        next hlim =>
          refine ⟨?_, ?_, ?_, wInv⟩
          · show td ≤ td + (read_audio_disk_mp3_iter env fs ce st).written
            omega
          · show td + (read_audio_disk_mp3_iter env fs ce st).written - td ≤ fs
            omega
          · show (read_audio_disk_mp3_iter env fs ce st).st.aring_count =
              st.aring_count + (td + (read_audio_disk_mp3_iter env fs ce st).written - td)
            omega
        next hlim =>
          obtain ⟨j1, j2, j3, j4⟩ := ih env
            (fs - (read_audio_disk_mp3_iter env fs ce st).written)
            (td + (read_audio_disk_mp3_iter env fs ce st).written)
            (read_audio_disk_mp3_iter env fs ce st).ctr
            (read_audio_disk_mp3_iter env fs ce st).st wInv (by omega) (by omega)
          exact ⟨by omega, by omega, by omega, j4⟩
    next hcond =>
      exact ⟨le_refl td, by omega,
        by show st.aring_count = st.aring_count + (td - td); omega, hInv⟩

/-- `mp3_init` never touches the ring fields. -/
theorem mp3_init_ring (st : Player) :
    (mp3_init st).aring_read = st.aring_read ∧
    (mp3_init st).aring_write = st.aring_write ∧
    (mp3_init st).aring_count = st.aring_count := by
  simp only [mp3_init]
  split <;> exact ⟨rfl, rfl, rfl⟩

/-- `read_audio_disk_mp3` entry: returned byte total bound and accounting. -/
theorem read_audio_disk_mp3_spec (env : Env) (fuel : Nat) (st : Player) (hInv : RingInv st) :
    0 ≤ (read_audio_disk_mp3 env fuel st).2 ∧
    (read_audio_disk_mp3 env fuel st).2 ≤ (AUDIO_RING_SIZE : Int) - st.aring_count ∧
    (read_audio_disk_mp3 env fuel st).1.aring_count =
      st.aring_count + (read_audio_disk_mp3 env fuel st).2 ∧
    RingInv (read_audio_disk_mp3 env fuel st).1 := by
  obtain ⟨m1, m2, m3⟩ := mp3_init_ring st
  obtain ⟨i1, i2, i3, i4, i5, i6⟩ := hInv
  simp only [read_audio_disk_mp3]
  split
  next h =>
    exact ⟨le_refl 0, by omega, by show st.aring_count = st.aring_count + 0; omega,
      ⟨i1, i2, i3, i4, i5, i6⟩⟩
  next h =>
    obtain ⟨j1, j2, j3, j4⟩ := read_audio_disk_mp3_loop_spec fuel env
      ((AUDIO_RING_SIZE : Int) - (mp3_init st).aring_count) 0 0 (mp3_init st)
      (ringInv_of_eq _ st m1 m2 m3 ⟨i1, i2, i3, i4, i5, i6⟩)
      (by rw [m3]; omega) (le_refl _)
    exact ⟨j1, by omega, by omega, j4⟩

/-- `refill_audio_ring` keeps the ring invariant and only adds bytes, for
all three codec paths. -/
theorem refill_audio_ring_spec (env : Env) (fuel : Nat) (st : Player) (hInv : RingInv st) :
    RingInv (refill_audio_ring env fuel st) ∧
    st.aring_count ≤ (refill_audio_ring env fuel st).aring_count := by
  simp only [refill_audio_ring]
  split_ifs with h1 h2 h3
  · exact ⟨hInv, le_refl _⟩
  · obtain ⟨a, b, c, d⟩ := read_audio_disk_adpcm_spec env st hInv
    exact ⟨d, by omega⟩
  · obtain ⟨a, b, c, d⟩ := read_audio_disk_mp3_spec env fuel st hInv
    exact ⟨d, by omega⟩
  · obtain ⟨a, b, c⟩ := refill_pcm_loop_spec
      (((AUDIO_RING_SIZE : Int) - st.aring_count).toNat + 1) env
      ((AUDIO_RING_SIZE : Int) - st.aring_count) st hInv (le_refl _)
    exact ⟨a, b⟩

/-- Every reachable ring state satisfies the ring invariant. -/
theorem audioReach_inv (env : Env) (st : Player) (h : AudioReach env st) : RingInv st := by
  induction h with
  | init st h =>
    have hS := aring_size_pos
    obtain ⟨a, b, c⟩ := h
    exact ⟨by omega, by omega, by omega, by omega, by omega, by omega⟩
  | refill st fuel hr ih => exact (refill_audio_ring_spec env fuel st ih).1
  | consume st n hr ih => exact (read_audio_ring_spec n st ih).2.2

/-- **C2**.  In every ring state reachable by any sequence of refill and
consume operations: the count stays within `[0, AUDIO_RING_SIZE]`; a consume
of `n` bytes returns exactly `min (max n 0) count` bytes (hence at most
`min n count`) and decreases the count by exactly the bytes returned; and a
refill call only adds bytes, the total added never exceeding the free space
`AUDIO_RING_SIZE - count` at the start of the call, on all three codec
paths. -/
theorem ring_buffer_invariant (env : Env) (st : Player) (h : AudioReach env st) :
    (0 ≤ st.aring_count ∧ st.aring_count ≤ (AUDIO_RING_SIZE : Int)) ∧
    (∀ n : Int,
      (read_audio_ring n st).2 = min (max n 0) st.aring_count ∧
      (read_audio_ring n st).1.aring_count = st.aring_count - (read_audio_ring n st).2) ∧
    (∀ fuel : Nat,
      st.aring_count ≤ (refill_audio_ring env fuel st).aring_count ∧
      (refill_audio_ring env fuel st).aring_count - st.aring_count ≤
        (AUDIO_RING_SIZE : Int) - st.aring_count) := by
  obtain ⟨i1, i2, i3, i4, i5, i6⟩ := audioReach_inv env st h
  refine ⟨⟨i5, i6⟩, ?_, ?_⟩
  · intro n
    obtain ⟨a, b, c⟩ := read_audio_ring_spec n st ⟨i1, i2, i3, i4, i5, i6⟩
    exact ⟨a, b⟩
  · intro fuel
    obtain ⟨a, b⟩ := refill_audio_ring_spec env fuel st ⟨i1, i2, i3, i4, i5, i6⟩
    obtain ⟨a1, a2, a3, a4, a5, a6⟩ := a
    exact ⟨b, by omega⟩

/-- Witness for C2 at the empty initial ring. -/
theorem ring_buffer_invariant_witness :
    ((0 ≤ ({} : Player).aring_count ∧ ({} : Player).aring_count ≤ (AUDIO_RING_SIZE : Int)) ∧
    (∀ n : Int,
      (read_audio_ring n ({} : Player)).2 = min (max n 0) ({} : Player).aring_count ∧
      (read_audio_ring n ({} : Player)).1.aring_count =
        ({} : Player).aring_count - (read_audio_ring n ({} : Player)).2) ∧
    (∀ fuel : Nat,
      ({} : Player).aring_count ≤ (refill_audio_ring {} fuel ({} : Player)).aring_count ∧
      (refill_audio_ring {} fuel ({} : Player)).aring_count - ({} : Player).aring_count ≤
        (AUDIO_RING_SIZE : Int) - ({} : Player).aring_count)) :=
  ring_buffer_invariant {} {} (AudioReach.init {} ⟨rfl, rfl, rfl⟩)

/-! ## C1: per-tick audio sample accounting -/

/-- Each conversion branch emits at most `min got MAX_AUDIO_BUFFER` output
samples. -/
theorem outSamples_le (st : Player) (got : Int) (hg : 0 < got) :
    0 ≤ outSamples st got ∧ outSamples st got ≤ got ∧
    outSamples st got ≤ (MAX_AUDIO_BUFFER : Int) := by
  have hM : (MAX_AUDIO_BUFFER : Int) = 4096 := by norm_num [MAX_AUDIO_BUFFER]
  simp only [outSamples]
  split_ifs <;> omega

/-- The two request clamps of `play_audio_for_frame`: the request stays
positive, `bytes_needed / bytes_per_sample` never exceeds the clamped
`to_send`, and the clamped `to_send` is at most both the raw `to_send` and
`MAX_AUDIO_BUFFER`. -/
theorem sendRequest_spec (st : Player) (hbps : 0 < (st.audio_bytes_per_sample : Int))
    (hts : 0 < toSend st) :
    0 < (sendRequest st).2 ∧
    (sendRequest st).2 / (st.audio_bytes_per_sample : Int) ≤ (sendRequest st).1 ∧
    (sendRequest st).1 ≤ toSend st ∧ (sendRequest st).1 ≤ (MAX_AUDIO_BUFFER : Int) := by
  have hM : (MAX_AUDIO_BUFFER : Int) = 4096 := by norm_num [MAX_AUDIO_BUFFER]
  have hdm := Int.ediv_mul_le (16384 : Int) (ne_of_gt hbps)
  simp only [sendRequest]
  split_ifs with h1 h2 h2
  · have hkey : 16384 / (st.audio_bytes_per_sample : Int) < (MAX_AUDIO_BUFFER : Int) := by
      by_contra hc
      push_neg at hc
      have := mul_le_mul_of_nonneg_right hc (le_of_lt hbps)
      omega
    refine ⟨by show (0 : Int) < 16384; omega, ?_, ?_, ?_⟩
    · show (16384 : Int) / (st.audio_bytes_per_sample : Int) ≤
        16384 / (st.audio_bytes_per_sample : Int)
      exact le_refl _
    · show (16384 : Int) / (st.audio_bytes_per_sample : Int) ≤ toSend st
      omega
    · show (16384 : Int) / (st.audio_bytes_per_sample : Int) ≤ (MAX_AUDIO_BUFFER : Int)
      omega
  · have hc : (MAX_AUDIO_BUFFER : Int) * (st.audio_bytes_per_sample : Int) /
        (st.audio_bytes_per_sample : Int) = (MAX_AUDIO_BUFFER : Int) :=
      Int.mul_ediv_cancel _ (ne_of_gt hbps)
    refine ⟨?_, ?_, ?_, ?_⟩
    · show (0 : Int) < (MAX_AUDIO_BUFFER : Int) * (st.audio_bytes_per_sample : Int)
      exact mul_pos (by omega) hbps
    · show (MAX_AUDIO_BUFFER : Int) * (st.audio_bytes_per_sample : Int) /
        (st.audio_bytes_per_sample : Int) ≤ (MAX_AUDIO_BUFFER : Int)
      omega
    · show (MAX_AUDIO_BUFFER : Int) ≤ toSend st
      omega
    · show (MAX_AUDIO_BUFFER : Int) ≤ (MAX_AUDIO_BUFFER : Int)
      exact le_refl _
  · have hkey : 16384 / (st.audio_bytes_per_sample : Int) < toSend st := by
      by_contra hc
      push_neg at hc
      have := mul_le_mul_of_nonneg_right hc (le_of_lt hbps)
      omega
    refine ⟨by show (0 : Int) < 16384; omega, ?_, ?_, ?_⟩
    · show (16384 : Int) / (st.audio_bytes_per_sample : Int) ≤
        16384 / (st.audio_bytes_per_sample : Int)
      exact le_refl _
    · show (16384 : Int) / (st.audio_bytes_per_sample : Int) ≤ toSend st
      omega
    · show (16384 : Int) / (st.audio_bytes_per_sample : Int) ≤ (MAX_AUDIO_BUFFER : Int)
      omega
  · have hc : toSend st * (st.audio_bytes_per_sample : Int) /
        (st.audio_bytes_per_sample : Int) = toSend st :=
      Int.mul_ediv_cancel _ (ne_of_gt hbps)
    refine ⟨?_, ?_, ?_, ?_⟩
    · show (0 : Int) < toSend st * (st.audio_bytes_per_sample : Int)
      exact mul_pos hts hbps
    · show toSend st * (st.audio_bytes_per_sample : Int) /
        (st.audio_bytes_per_sample : Int) ≤ toSend st
      omega
    · show toSend st ≤ toSend st
      exact le_refl _
    · show toSend st ≤ (MAX_AUDIO_BUFFER : Int)
      omega

/-- **C1**.  Per-tick audio accounting, stated on the post-refill state
`st1` (the refill runs first exactly when the ring is below the half-full
threshold): `expected = current_frame_idx * effective_rate / clip_fps +
effective_rate / 10` (absent `uint64` wraparound), `to_send = expected -
samples_sent` (absent `int64` wraparound), a non-positive `to_send` sends
nothing, the delivered batch never exceeds `to_send` nor the fixed
`MAX_AUDIO_BUFFER`, and a delivery adds exactly the delivered count to
`audio_samples_sent`. -/
theorem play_audio_sample_accounting (env : Env) (fuel : Nat) (st st1 : Player)
    (hha : st.has_audio = true) (hcb : env.hasAudioCb = true)
    (hbps : st.audio_bytes_per_sample ≠ 0) (hInv : RingInv st)
    (hst1 : st1 = if st.aring_count < (AUDIO_REFILL_THRESHOLD : Int)
      then refill_audio_ring env fuel st else st) :
    (0 ≤ st1.current_frame_idx →
      st1.current_frame_idx.toNat * effectiveRate st1 < U64 →
      st1.current_frame_idx.toNat * effectiveRate st1 / st1.clip_fps +
        effectiveRate st1 / 10 < U64 →
      expectedSamples st1 =
        st1.current_frame_idx.toNat * effectiveRate st1 / st1.clip_fps +
          effectiveRate st1 / 10) ∧
    ((expectedSamples st1 : Int) - st1.audio_samples_sent < 2 ^ 63 →
      -(2 ^ 63) < (expectedSamples st1 : Int) - st1.audio_samples_sent →
      toSend st1 = (expectedSamples st1 : Int) - st1.audio_samples_sent) ∧
    (toSend st1 ≤ 0 → play_audio_for_frame env fuel st = (st1, 0)) ∧
    ((play_audio_for_frame env fuel st).2 ≤ MAX_AUDIO_BUFFER ∧
      ((play_audio_for_frame env fuel st).2 : Int) ≤ max (toSend st1) 0) ∧
    (st1.audio_samples_sent < U64 →
      (play_audio_for_frame env fuel st).1.audio_samples_sent =
        (st1.audio_samples_sent + (play_audio_for_frame env fuel st).2) % U64) := by
  have hUnat : U64 = 18446744073709551616 := by norm_num [U64]
  have hMnat : MAX_AUDIO_BUFFER = 4096 := by norm_num [MAX_AUDIO_BUFFER]
  have hgate : ¬(¬st.has_audio = true ∨ ¬env.hasAudioCb = true ∨
      st.audio_bytes_per_sample = 0) := by
    simp [hha, hcb, hbps]
  have hInv1 : RingInv st1 := by
    rw [hst1]
    split_ifs
    · exact (refill_audio_ring_spec env fuel st hInv).1
    · exact hInv
  have hbps1 : st1.audio_bytes_per_sample = st.audio_bytes_per_sample := by
    rw [hst1]
    split_ifs
    · exact (refill_preserves env fuel st).2.2.2.2.2.2.2.2.2.2.2.1
    · rfl
  have hbpspos : 0 < (st1.audio_bytes_per_sample : Int) := by
    rw [hbps1]
    omega
  have hpa : play_audio_for_frame env fuel st =
      (if toSend st1 ≤ 0 then (st1, 0)
       else
         if (read_audio_ring (sendRequest st1).2 st1).2 /
             ((read_audio_ring (sendRequest st1).2 st1).1.audio_bytes_per_sample : Int) ≤ 0 then
           ((read_audio_ring (sendRequest st1).2 st1).1, 0)
         else
           if 0 < outSamples (read_audio_ring (sendRequest st1).2 st1).1
               ((read_audio_ring (sendRequest st1).2 st1).2 /
                 ((read_audio_ring (sendRequest st1).2 st1).1.audio_bytes_per_sample : Int)) then
             ({ (read_audio_ring (sendRequest st1).2 st1).1 with
                audio_samples_sent :=
                  ((read_audio_ring (sendRequest st1).2 st1).1.audio_samples_sent +
                    (outSamples (read_audio_ring (sendRequest st1).2 st1).1
                      ((read_audio_ring (sendRequest st1).2 st1).2 /
                        ((read_audio_ring (sendRequest st1).2 st1).1.audio_bytes_per_sample :
                          Int))).toNat) % U64 },
              (outSamples (read_audio_ring (sendRequest st1).2 st1).1
                ((read_audio_ring (sendRequest st1).2 st1).2 /
                  ((read_audio_ring (sendRequest st1).2 st1).1.audio_bytes_per_sample :
                    Int))).toNat)
           else ((read_audio_ring (sendRequest st1).2 st1).1, 0)) := by
    simp only [play_audio_for_frame]
    rw [if_neg hgate, ← hst1]
  obtain ⟨grd, gcnt, hsh⟩ := read_audio_ring_shape (sendRequest st1).2 st1
  have hsent1 : (read_audio_ring (sendRequest st1).2 st1).1.audio_samples_sent =
      st1.audio_samples_sent := by rw [hsh]
  have hbps2 : (read_audio_ring (sendRequest st1).2 st1).1.audio_bytes_per_sample =
      st1.audio_bytes_per_sample := by rw [hsh]
  refine ⟨?_, ?_, ?_, ?_, ?_⟩
  · intro h0 h1 h2
    simp only [expectedSamples, u64ofInt]
    by_cases her : effectiveRate st1 = 0
    · simp [her]
    · have hpos : 0 < effectiveRate st1 := Nat.pos_of_ne_zero her
      have hle : st1.current_frame_idx.toNat ≤ st1.current_frame_idx.toNat * effectiveRate st1 :=
        Nat.le_mul_of_pos_right _ hpos
      have e1 : (st1.current_frame_idx.emod (U64 : Int)).toNat = st1.current_frame_idx.toNat := by
        simp only [hUnat, Nat.cast_ofNat,
          show ∀ a b : Int, a.emod b = a % b from fun a b => rfl] at h1 ⊢
        omega
      rw [e1, Nat.mod_eq_of_lt h1, Nat.mod_eq_of_lt h2]
  · intro hu hl
    simp only [toSend, i64ofU64, hUnat, Nat.cast_ofNat,
      show ∀ a b : Int, a.emod b = a % b from fun a b => rfl]
    split_ifs with hsplit <;> omega
  · intro hts
    rw [hpa, if_pos hts]
  · by_cases hts : toSend st1 ≤ 0
    · rw [hpa, if_pos hts]
      constructor
      · show 0 ≤ MAX_AUDIO_BUFFER
        omega
      · show ((0 : Nat) : Int) ≤ max (toSend st1) 0
        omega
    · push_neg at hts
      obtain ⟨q1, q2, q3, q4⟩ := sendRequest_spec st1 hbpspos hts
      obtain ⟨c1, c2, c3⟩ := read_audio_ring_spec (sendRequest st1).2 st1 hInv1
      rw [hpa, if_neg (by omega)]
      split_ifs with hgot hout
      · constructor
        · show 0 ≤ MAX_AUDIO_BUFFER
          omega
        · show ((0 : Nat) : Int) ≤ max (toSend st1) 0
          omega
      · push_neg at hgot
        rw [hbps2] at hgot ⊢
        obtain ⟨o1, o2, o3⟩ := outSamples_le (read_audio_ring (sendRequest st1).2 st1).1
          ((read_audio_ring (sendRequest st1).2 st1).2 /
            (st1.audio_bytes_per_sample : Int)) hgot
        have hple : (read_audio_ring (sendRequest st1).2 st1).2 ≤ (sendRequest st1).2 := by
          omega
        have hdiv : (read_audio_ring (sendRequest st1).2 st1).2 /
            (st1.audio_bytes_per_sample : Int) ≤
            (sendRequest st1).2 / (st1.audio_bytes_per_sample : Int) :=
          Int.ediv_le_ediv hbpspos hple
        constructor
        · show (outSamples (read_audio_ring (sendRequest st1).2 st1).1
            ((read_audio_ring (sendRequest st1).2 st1).2 /
              (st1.audio_bytes_per_sample : Int))).toNat ≤ MAX_AUDIO_BUFFER
          omega
        · show ((outSamples (read_audio_ring (sendRequest st1).2 st1).1
            ((read_audio_ring (sendRequest st1).2 st1).2 /
              (st1.audio_bytes_per_sample : Int))).toNat : Int) ≤ max (toSend st1) 0
          omega
      · constructor
        · show 0 ≤ MAX_AUDIO_BUFFER
          omega
        · show ((0 : Nat) : Int) ≤ max (toSend st1) 0
          omega
  · intro hsu
    by_cases hts : toSend st1 ≤ 0
    · rw [hpa, if_pos hts]
      show st1.audio_samples_sent = (st1.audio_samples_sent + 0) % U64
      rw [hUnat] at hsu ⊢
      omega
    · push_neg at hts
      rw [hpa, if_neg (by omega)]
      split_ifs with hgot hout
      · show (read_audio_ring (sendRequest st1).2 st1).1.audio_samples_sent =
          (st1.audio_samples_sent + 0) % U64
        rw [hsent1, hUnat] at *
        omega
      · show ((read_audio_ring (sendRequest st1).2 st1).1.audio_samples_sent +
            (outSamples (read_audio_ring (sendRequest st1).2 st1).1
              ((read_audio_ring (sendRequest st1).2 st1).2 /
                ((read_audio_ring (sendRequest st1).2 st1).1.audio_bytes_per_sample :
                  Int))).toNat) % U64 =
          (st1.audio_samples_sent +
            (outSamples (read_audio_ring (sendRequest st1).2 st1).1
              ((read_audio_ring (sendRequest st1).2 st1).2 /
                ((read_audio_ring (sendRequest st1).2 st1).1.audio_bytes_per_sample :
                  Int))).toNat) % U64
        rw [hsent1]
      · show (read_audio_ring (sendRequest st1).2 st1).1.audio_samples_sent =
          (st1.audio_samples_sent + 0) % U64
        rw [hsent1, hUnat] at *
        omega

/-- Witness for C1 at a concrete PCM state (the opportunistic refill fires
but finds no audio chunks, so `st1 = audioSt`). -/
theorem play_audio_sample_accounting_witness :
    (0 ≤ audioSt.current_frame_idx →
      audioSt.current_frame_idx.toNat * effectiveRate audioSt < U64 →
      audioSt.current_frame_idx.toNat * effectiveRate audioSt / audioSt.clip_fps +
        effectiveRate audioSt / 10 < U64 →
      expectedSamples audioSt =
        audioSt.current_frame_idx.toNat * effectiveRate audioSt / audioSt.clip_fps +
          effectiveRate audioSt / 10) ∧
    ((expectedSamples audioSt : Int) - audioSt.audio_samples_sent < 2 ^ 63 →
      -(2 ^ 63) < (expectedSamples audioSt : Int) - audioSt.audio_samples_sent →
      toSend audioSt = (expectedSamples audioSt : Int) - audioSt.audio_samples_sent) ∧
    (toSend audioSt ≤ 0 → play_audio_for_frame audioEnv 0 audioSt = (audioSt, 0)) ∧
    ((play_audio_for_frame audioEnv 0 audioSt).2 ≤ MAX_AUDIO_BUFFER ∧
      ((play_audio_for_frame audioEnv 0 audioSt).2 : Int) ≤ max (toSend audioSt) 0) ∧
    (audioSt.audio_samples_sent < U64 →
      (play_audio_for_frame audioEnv 0 audioSt).1.audio_samples_sent =
        (audioSt.audio_samples_sent + (play_audio_for_frame audioEnv 0 audioSt).2) % U64) :=
  play_audio_sample_accounting audioEnv 0 audioSt audioSt (by decide) (by decide) (by decide)
    ⟨by decide, by decide, by decide, by decide, by decide, by decide⟩ (by decide)

/-! ## C4: seek idempotence -/

theorem ch1Eq_refl (r : AdpcmRegs) : Ch1Eq r r := ⟨rfl, rfl, rfl, rfl⟩

theorem ch1Eq_trans (a b c : AdpcmRegs) (h : Ch1Eq a b) (g : Ch1Eq b c) : Ch1Eq a c :=
  ⟨h.1.trans g.1, h.2.1.trans g.2.1, h.2.2.1.trans g.2.2.1, h.2.2.2.trans g.2.2.2⟩

theorem regs_ext (r r' : AdpcmRegs) (h0 : Ch0Eq r r') (h1 : Ch1Eq r r') : r = r' := by
  rcases r with ⟨⟨a1, a2⟩, ⟨b1, b2⟩, ⟨c1, c2⟩, ⟨d1, d2⟩⟩
  rcases r' with ⟨⟨a1', a2'⟩, ⟨b1', b2'⟩, ⟨c1', c2'⟩, ⟨d1', d2'⟩⟩
  simp_all [Ch0Eq, Ch1Eq]

/-- A channel-0 nibble decode depends only on the channel-0 registers and
leaves the channel-1 registers untouched. -/
theorem decode_adpcm_sample_zero (n : Nat) (r r' : AdpcmRegs) (h : Ch0Eq r r') :
    Ch0Eq (decode_adpcm_sample n 0 r).1 (decode_adpcm_sample n 0 r').1 ∧
    Ch1Eq (decode_adpcm_sample n 0 r).1 r ∧
    Ch1Eq (decode_adpcm_sample n 0 r').1 r' := by
  obtain ⟨h1, h2, h3, h4⟩ := h
  simp [decode_adpcm_sample, pget, pset, Ch0Eq, Ch1Eq, h1, h2, h3, h4]

/-- Congruence of the mono nibble loop: the output count and the channel-0
result registers depend only on the channel-0 input registers; channel 1 is
preserved. -/
theorem adpcm_mono_loop_congr : ∀ (l : List Nat) (o cap : Nat) (r r' : AdpcmRegs),
    Ch0Eq r r' →
    (adpcm_mono_loop l o cap r).2 = (adpcm_mono_loop l o cap r').2 ∧
    Ch0Eq (adpcm_mono_loop l o cap r).1 (adpcm_mono_loop l o cap r').1 ∧
    Ch1Eq (adpcm_mono_loop l o cap r).1 r ∧
    Ch1Eq (adpcm_mono_loop l o cap r').1 r' := by
  intro l
  induction l with
  | nil =>
    intro o cap r r' h
    exact ⟨rfl, h, ch1Eq_refl r, ch1Eq_refl r'⟩
  | cons b rest ih =>
    intro o cap r r' h
    simp only [adpcm_mono_loop]
    split_ifs with h1 h2
    · have s1 := decode_adpcm_sample_zero (b / 16 % 16) r r' h
      have s2 := decode_adpcm_sample_zero (b % 16) _ _ s1.1
      obtain ⟨j1, j2, j3, j4⟩ := ih (o + 1 + 1) cap _ _ s2.1
      exact ⟨j1, j2, ch1Eq_trans _ _ _ j3 (ch1Eq_trans _ _ _ s2.2.1 s1.2.1),
        ch1Eq_trans _ _ _ j4 (ch1Eq_trans _ _ _ s2.2.2 s1.2.2)⟩
    · have s1 := decode_adpcm_sample_zero (b / 16 % 16) r r' h
      obtain ⟨j1, j2, j3, j4⟩ := ih (o + 1) cap _ _ s1.1
      exact ⟨j1, j2, ch1Eq_trans _ _ _ j3 s1.2.1, ch1Eq_trans _ _ _ j4 s1.2.2⟩
    · exact ⟨rfl, h, ch1Eq_refl r, ch1Eq_refl r'⟩

/-- Congruence of the mono block decode: the sample count is independent of
the input registers, channel 1 is preserved, and (when the block has a
header) the channel-0 results agree for any two inputs. -/
theorem decode_adpcm_block_mono_congr (src : List Nat) (cap : Nat) (r r' : AdpcmRegs) :
    (decode_adpcm_block_mono src cap r).2 = (decode_adpcm_block_mono src cap r').2 ∧
    (src.length < 7 → (decode_adpcm_block_mono src cap r).1 = r ∧
      (decode_adpcm_block_mono src cap r').1 = r') ∧
    Ch1Eq (decode_adpcm_block_mono src cap r).1 r ∧
    Ch1Eq (decode_adpcm_block_mono src cap r').1 r' ∧
    (¬src.length < 7 →
      Ch0Eq (decode_adpcm_block_mono src cap r).1 (decode_adpcm_block_mono src cap r').1) := by
  simp only [decode_adpcm_block_mono]
  split
  next h => exact ⟨rfl, fun _ => ⟨rfl, rfl⟩, ch1Eq_refl r, ch1Eq_refl r', fun hc => absurd h hc⟩
  next h =>
    have hcc : Ch0Eq
        { r with coef_idx := pset r.coef_idx 0 (if 6 < src.getD 0 0 then 0 else src.getD 0 0),
                 delta := pset r.delta 0 (s16 (src.getD 1 0 + 256 * src.getD 2 0)),
                 sample1 := pset r.sample1 0 (s16 (src.getD 3 0 + 256 * src.getD 4 0)),
                 sample2 := pset r.sample2 0 (s16 (src.getD 5 0 + 256 * src.getD 6 0)) }
        { r' with coef_idx := pset r'.coef_idx 0 (if 6 < src.getD 0 0 then 0 else src.getD 0 0),
                  delta := pset r'.delta 0 (s16 (src.getD 1 0 + 256 * src.getD 2 0)),
                  sample1 := pset r'.sample1 0 (s16 (src.getD 3 0 + 256 * src.getD 4 0)),
                  sample2 := pset r'.sample2 0 (s16 (src.getD 5 0 + 256 * src.getD 6 0)) } := by
      simp [Ch0Eq, pset]
    have h1r : Ch1Eq
        { r with coef_idx := pset r.coef_idx 0 (if 6 < src.getD 0 0 then 0 else src.getD 0 0),
                 delta := pset r.delta 0 (s16 (src.getD 1 0 + 256 * src.getD 2 0)),
                 sample1 := pset r.sample1 0 (s16 (src.getD 3 0 + 256 * src.getD 4 0)),
                 sample2 := pset r.sample2 0 (s16 (src.getD 5 0 + 256 * src.getD 6 0)) } r := by
      simp [Ch1Eq, pset]
    have h1r' : Ch1Eq
        { r' with coef_idx := pset r'.coef_idx 0 (if 6 < src.getD 0 0 then 0 else src.getD 0 0),
                  delta := pset r'.delta 0 (s16 (src.getD 1 0 + 256 * src.getD 2 0)),
                  sample1 := pset r'.sample1 0 (s16 (src.getD 3 0 + 256 * src.getD 4 0)),
                  sample2 := pset r'.sample2 0 (s16 (src.getD 5 0 + 256 * src.getD 6 0)) } r' := by
      simp [Ch1Eq, pset]
    obtain ⟨j1, j2, j3, j4⟩ := adpcm_mono_loop_congr (src.drop 7)
      (if (if 0 < cap then 0 + 1 else 0) < cap then (if 0 < cap then 0 + 1 else 0) + 1
        else (if 0 < cap then 0 + 1 else 0)) cap _ _ hcc
    exact ⟨j1, fun hc => absurd hc h, ch1Eq_trans _ _ _ j3 h1r, ch1Eq_trans _ _ _ j4 h1r',
      fun _ => j2⟩

/-- Congruence of the stereo block decode: the count is register-independent
and a block with a full header determines the output registers outright. -/
theorem decode_adpcm_block_stereo_congr (src : List Nat) (cap : Nat) (r r' : AdpcmRegs) :
    (decode_adpcm_block_stereo src cap r).2 = (decode_adpcm_block_stereo src cap r').2 ∧
    (src.length < 14 → (decode_adpcm_block_stereo src cap r).1 = r ∧
      (decode_adpcm_block_stereo src cap r').1 = r') ∧
    (¬src.length < 14 →
      (decode_adpcm_block_stereo src cap r).1 = (decode_adpcm_block_stereo src cap r').1) := by
  simp only [decode_adpcm_block_stereo]
  split
  next h => exact ⟨rfl, fun _ => ⟨rfl, rfl⟩, fun hc => absurd h hc⟩
  next h => exact ⟨rfl, fun hc => absurd hc h, fun _ => rfl⟩

theorem ch1Eq_symm (a b : AdpcmRegs) (h : Ch1Eq a b) : Ch1Eq b a :=
  ⟨h.1.symm, h.2.1.symm, h.2.2.1.symm, h.2.2.2.symm⟩

theorem regRel_refl (x y : AdpcmRegs) : RegRel x y x y := Or.inl ⟨rfl, rfl⟩

theorem regRel_trans (x y m n f g : AdpcmRegs)
    (h1 : RegRel x y m n) (h2 : RegRel m n f g) : RegRel x y f g := by
  rcases h2 with ⟨hf, hg⟩ | hfg | ⟨c0, c1m, c1n⟩
  · rw [hf, hg]
    exact h1
  · exact Or.inr (Or.inl hfg)
  · rcases h1 with ⟨hm, hn⟩ | hmn | ⟨c0', c1x, c1y⟩
    · rw [hm] at c1m
      rw [hn] at c1n
      exact Or.inr (Or.inr ⟨c0, c1m, c1n⟩)
    · rw [hmn] at c1m
      exact Or.inr (Or.inl (regs_ext _ _ c0
        (ch1Eq_trans _ _ _ c1m (ch1Eq_symm _ _ c1n))))
    · exact Or.inr (Or.inr ⟨c0, ch1Eq_trans _ _ _ c1m c1x, ch1Eq_trans _ _ _ c1n c1y⟩)

/-- A parallel run whose left input equals the right run's output ends with
equal registers. -/
theorem regRel_fixpoint (y x r' r : AdpcmRegs) (h : RegRel y x r' r) (hy : y = r) :
    r' = r := by
  rcases h with ⟨h1, h2⟩ | h12 | ⟨c0, c1y, c1x⟩
  · rw [h1, hy]
  · exact h12
  · exact regs_ext _ _ c0 (ch1Eq_trans _ _ _ c1y (hy ▸ ch1Eq_refl r))

theorem regRel_mono (src : List Nat) (cap : Nat) (x y : AdpcmRegs) :
    RegRel x y (decode_adpcm_block_mono src cap x).1 (decode_adpcm_block_mono src cap y).1 := by
  by_cases hsrc : src.length < 7
  · obtain ⟨ha, hb⟩ := (decode_adpcm_block_mono_congr src cap x y).2.1 hsrc
    rw [ha, hb]
    exact regRel_refl x y
  · exact Or.inr (Or.inr ⟨(decode_adpcm_block_mono_congr src cap x y).2.2.2.2 hsrc,
      (decode_adpcm_block_mono_congr src cap x y).2.2.1,
      (decode_adpcm_block_mono_congr src cap x y).2.2.2.1⟩)

theorem regRel_stereo (src : List Nat) (cap : Nat) (x y : AdpcmRegs) :
    RegRel x y (decode_adpcm_block_stereo src cap x).1
      (decode_adpcm_block_stereo src cap y).1 := by
  by_cases hsrc : src.length < 14
  · obtain ⟨ha, hb⟩ := (decode_adpcm_block_stereo_congr src cap x y).2.1 hsrc
    rw [ha, hb]
    exact regRel_refl x y
  · exact Or.inr (Or.inl ((decode_adpcm_block_stereo_congr src cap x y).2.2 hsrc))

/-- Overwriting the registers twice keeps only the outer write. -/
theorem adpcm_set_set (a : Player) (r d : AdpcmRegs) :
    ({ { a with adpcm := r } with adpcm := d } : Player) = { a with adpcm := d } := rfl

/-- The audio-cursor advance commutes with a register overwrite. -/
theorem advance_adpcm_comm (g : Nat) (st : Player) (r : AdpcmRegs) :
    advance_audio_cursor g { st with adpcm := r } =
      { advance_audio_cursor g st with adpcm := r } := by
  simp only [advance_audio_cursor, Player.chunkSize]
  split_ifs <;> rfl

/-- The block decode's sample count ignores the input registers. -/
theorem adpcm_decode_count (env : Env) (p : Nat) (k : Int) (st : Player) (r : AdpcmRegs) :
    (adpcm_decode_block env p k { st with adpcm := r }).2 =
      (adpcm_decode_block env p k st).2 := by
  simp only [adpcm_decode_block]
  split_ifs
  · exact (decode_adpcm_block_mono_congr _ _ r st.adpcm).1
  · exact (decode_adpcm_block_stereo_congr _ _ r st.adpcm).1

/-- The block decode's register results of two runs are `RegRel`-related. -/
theorem regRel_decode (env : Env) (p : Nat) (k : Int) (st : Player) (r : AdpcmRegs) :
    RegRel r st.adpcm (adpcm_decode_block env p k { st with adpcm := r }).1
      (adpcm_decode_block env p k st).1 := by
  simp only [adpcm_decode_block]
  split_ifs
  · exact regRel_mono _ _ r st.adpcm
  · exact regRel_stereo _ _ r st.adpcm

set_option maxHeartbeats 2000000 in
/-- One ADPCM refill iteration on two states that differ only in the
registers: identical control outcome and written bytes, states again equal
up to registers, registers related by `RegRel`. -/
theorem read_audio_disk_adpcm_iter_congr (env : Env) (fs sc : Int) (b : Player)
    (x : AdpcmRegs) :
    (read_audio_disk_adpcm_iter env fs sc { b with adpcm := x }).ctr =
      (read_audio_disk_adpcm_iter env fs sc b).ctr ∧
    (read_audio_disk_adpcm_iter env fs sc { b with adpcm := x }).written =
      (read_audio_disk_adpcm_iter env fs sc b).written ∧
    (read_audio_disk_adpcm_iter env fs sc { b with adpcm := x }).brk =
      (read_audio_disk_adpcm_iter env fs sc b).brk ∧
    (read_audio_disk_adpcm_iter env fs sc { b with adpcm := x }).wrote =
      (read_audio_disk_adpcm_iter env fs sc b).wrote ∧
    (read_audio_disk_adpcm_iter env fs sc { b with adpcm := x }).st =
      { (read_audio_disk_adpcm_iter env fs sc b).st with
        adpcm := (read_audio_disk_adpcm_iter env fs sc { b with adpcm := x }).st.adpcm } ∧
    RegRel x b.adpcm
      (read_audio_disk_adpcm_iter env fs sc { b with adpcm := x }).st.adpcm
      (read_audio_disk_adpcm_iter env fs sc b).st.adpcm := by
  simp only [read_audio_disk_adpcm_iter,
    show adpcm_block_size { b with adpcm := x } = adpcm_block_size b from rfl,
    show ({ b with adpcm := x } : Player).chunkOffset = b.chunkOffset from rfl,
    show ({ b with adpcm := x } : Player).audio_chunk_pos = b.audio_chunk_pos from rfl,
    show ({ b with adpcm := x } : Player).audio_chunk_idx = b.audio_chunk_idx from rfl,
    advance_adpcm_comm, adpcm_set_set, adpcm_decode_count]
  split_ifs
  all_goals first
    | exact ⟨rfl, rfl, rfl, rfl, rfl, regRel_refl x b.adpcm⟩
    | exact ⟨rfl, rfl, rfl, rfl, rfl, regRel_decode env _ _ b x⟩

/-- The ADPCM refill loop on two states differing only in the registers:
equal byte totals, states equal up to registers, registers `RegRel`-related. -/
theorem read_audio_disk_adpcm_loop_congr (fuel : Nat) :
    ∀ (env : Env) (fs td sc : Int) (b : Player) (x : AdpcmRegs),
    (read_audio_disk_adpcm_loop fuel env fs td sc { b with adpcm := x }).2 =
      (read_audio_disk_adpcm_loop fuel env fs td sc b).2 ∧
    (read_audio_disk_adpcm_loop fuel env fs td sc { b with adpcm := x }).1 =
      { (read_audio_disk_adpcm_loop fuel env fs td sc b).1 with
        adpcm := (read_audio_disk_adpcm_loop fuel env fs td sc { b with adpcm := x }).1.adpcm } ∧
    RegRel x b.adpcm
      (read_audio_disk_adpcm_loop fuel env fs td sc { b with adpcm := x }).1.adpcm
      (read_audio_disk_adpcm_loop fuel env fs td sc b).1.adpcm := by
  induction fuel with
  | zero =>
    intro env fs td sc b x
    exact ⟨rfl, rfl, regRel_refl x b.adpcm⟩
  | succ fuel ih =>
    intro env fs td sc b x
    obtain ⟨e1, e2, e3, e4, e5, e6⟩ := read_audio_disk_adpcm_iter_congr env fs sc b x
    simp only [read_audio_disk_adpcm_loop,
      show ({ b with adpcm := x } : Player).audio_chunk_idx = b.audio_chunk_idx from rfl,
      show ({ b with adpcm := x } : Player).total_audio_chunks = b.total_audio_chunks from rfl,
      e1, e2, e3, e4]
    split_ifs
    · exact ⟨rfl, e5, e6⟩
    · exact ⟨rfl, e5, e6⟩
    · rw [e5]
      obtain ⟨j1, j2, j3⟩ := ih env
        (fs - (read_audio_disk_adpcm_iter env fs sc b).written)
        (td + (read_audio_disk_adpcm_iter env fs sc b).written)
        (read_audio_disk_adpcm_iter env fs sc b).ctr
        (read_audio_disk_adpcm_iter env fs sc b).st
        ((read_audio_disk_adpcm_iter env fs sc { b with adpcm := x }).st.adpcm)
      exact ⟨j1, j2, regRel_trans _ _ _ _ _ _ e6 j3⟩
    · refine ⟨?_, ?_, ?_⟩ <;> first | trivial | rfl | exact regRel_refl x b.adpcm

/-- `read_audio_disk_adpcm` on two states differing only in the registers. -/
theorem read_audio_disk_adpcm_congr (env : Env) (b : Player) (x : AdpcmRegs) :
    (read_audio_disk_adpcm env { b with adpcm := x }).1 =
      { (read_audio_disk_adpcm env b).1 with
        adpcm := (read_audio_disk_adpcm env { b with adpcm := x }).1.adpcm } ∧
    RegRel x b.adpcm
      (read_audio_disk_adpcm env { b with adpcm := x }).1.adpcm
      (read_audio_disk_adpcm env b).1.adpcm := by
  simp only [read_audio_disk_adpcm,
    show ({ b with adpcm := x } : Player).adpcm_block_align = b.adpcm_block_align from rfl,
    show ({ b with adpcm := x } : Player).audio_chunk_idx = b.audio_chunk_idx from rfl,
    show ({ b with adpcm := x } : Player).total_audio_chunks = b.total_audio_chunks from rfl,
    show ({ b with adpcm := x } : Player).aring_count = b.aring_count from rfl]
  split_ifs
  · exact ⟨rfl, regRel_refl x b.adpcm⟩
  · obtain ⟨j1, j2, j3⟩ := read_audio_disk_adpcm_loop_congr 500 env
      ((AUDIO_RING_SIZE : Int) - b.aring_count) 0 0 b x
    exact ⟨j2, j3⟩

/-- `refill_audio_ring` on an ADPCM clip, on two states differing only in
the registers. -/
theorem refill_adpcm_congr (env : Env) (fuel : Nat) (b : Player) (x : AdpcmRegs)
    (hfmt : b.audio_format = AUDIO_FMT_ADPCM) :
    refill_audio_ring env fuel { b with adpcm := x } =
      { refill_audio_ring env fuel b with
        adpcm := (refill_audio_ring env fuel { b with adpcm := x }).adpcm } ∧
    RegRel x b.adpcm
      (refill_audio_ring env fuel { b with adpcm := x }).adpcm
      (refill_audio_ring env fuel b).adpcm := by
  simp only [refill_audio_ring,
    show ({ b with adpcm := x } : Player).has_audio = b.has_audio from rfl,
    show ({ b with adpcm := x } : Player).audio_chunk_idx = b.audio_chunk_idx from rfl,
    show ({ b with adpcm := x } : Player).total_audio_chunks = b.total_audio_chunks from rfl,
    show ({ b with adpcm := x } : Player).audio_format = b.audio_format from rfl]
  by_cases hg : ¬b.has_audio = true ∨ b.total_audio_chunks ≤ b.audio_chunk_idx
  · simp only [if_pos hg]
    refine ⟨?_, ?_⟩ <;> first | trivial | rfl | exact regRel_refl x b.adpcm
  · simp only [if_neg hg, if_pos hfmt]
    exact read_audio_disk_adpcm_congr env b x

/-- `seek_to_frame` without audio: just the transport-cursor update. -/
theorem seek_nogate_eq (env : Env) (fuel : Nat) (f : Int) (u : Player)
    (hga : ¬(u.has_audio = true ∧ 0 < u.audio_bytes_per_sample)) :
    seek_to_frame env fuel f u =
      { u with
        current_frame_idx :=
          (if u.total_frames ≤ (if f < 0 then 0 else f) then u.total_frames - 1
            else (if f < 0 then 0 else f)),
        repeat_counter := 0 } := by
  simp only [seek_to_frame, if_neg hga]

/-- `seek_to_frame` in the ADPCM-walk configuration, as one refill of the
flattened intermediate state. -/
theorem seek_adpcm_eq (env : Env) (fuel : Nat) (f : Int) (u : Player)
    (hga : u.has_audio = true ∧ 0 < u.audio_bytes_per_sample)
    (hC : u.audio_format = AUDIO_FMT_ADPCM ∧ 0 < u.adpcm_samples_per_block ∧
      0 < u.adpcm_block_align)
    (hfmt : ¬u.audio_format = AUDIO_FMT_MP3) :
    seek_to_frame env fuel f u = refill_audio_ring env fuel
      { u with
        current_frame_idx :=
          (if u.total_frames ≤ (if f < 0 then 0 else f) then u.total_frames - 1
            else (if f < 0 then 0 else f)),
        repeat_counter := 0,
        audio_chunk_idx := (adpcm_seek_walk u.adpcm_block_align
          (u64ofInt (if u.total_frames ≤ (if f < 0 then 0 else f) then u.total_frames - 1
              else (if f < 0 then 0 else f)) * effectiveRate u % U64 / u.clip_fps /
            u.adpcm_samples_per_block.toNat * u.adpcm_block_align % U64)
          u.audio_index 0 0).1,
        audio_chunk_pos := (adpcm_seek_walk u.adpcm_block_align
          (u64ofInt (if u.total_frames ≤ (if f < 0 then 0 else f) then u.total_frames - 1
              else (if f < 0 then 0 else f)) * effectiveRate u % U64 / u.clip_fps /
            u.adpcm_samples_per_block.toNat * u.adpcm_block_align % U64)
          u.audio_index 0 0).2,
        audio_samples_sent :=
          u64ofInt (if u.total_frames ≤ (if f < 0 then 0 else f) then u.total_frames - 1
              else (if f < 0 then 0 else f)) * effectiveRate u % U64 / u.clip_fps % U64,
        aring_read := 0, aring_write := 0, aring_count := 0 } := by
  simp only [seek_to_frame, if_pos hga, if_pos hC, if_neg hfmt]

/-- `seek_to_frame` in the PCM-walk configuration. -/
theorem seek_pcm_eq (env : Env) (fuel : Nat) (f : Int) (u : Player)
    (hga : u.has_audio = true ∧ 0 < u.audio_bytes_per_sample)
    (hC : ¬(u.audio_format = AUDIO_FMT_ADPCM ∧ 0 < u.adpcm_samples_per_block ∧
      0 < u.adpcm_block_align))
    (hfmt : ¬u.audio_format = AUDIO_FMT_MP3) :
    seek_to_frame env fuel f u = refill_audio_ring env fuel
      { u with
        current_frame_idx :=
          (if u.total_frames ≤ (if f < 0 then 0 else f) then u.total_frames - 1
            else (if f < 0 then 0 else f)),
        repeat_counter := 0,
        audio_chunk_idx := (pcm_seek_walk
          (u64ofInt (if u.total_frames ≤ (if f < 0 then 0 else f) then u.total_frames - 1
              else (if f < 0 then 0 else f)) * effectiveRate u % U64 / u.clip_fps *
            u.audio_bytes_per_sample % U64)
          u.audio_index 0 0).1,
        audio_chunk_pos := (pcm_seek_walk
          (u64ofInt (if u.total_frames ≤ (if f < 0 then 0 else f) then u.total_frames - 1
              else (if f < 0 then 0 else f)) * effectiveRate u % U64 / u.clip_fps *
            u.audio_bytes_per_sample % U64)
          u.audio_index 0 0).2,
        audio_samples_sent :=
          u64ofInt (if u.total_frames ≤ (if f < 0 then 0 else f) then u.total_frames - 1
              else (if f < 0 then 0 else f)) * effectiveRate u % U64 / u.clip_fps % U64,
        aring_read := 0, aring_write := 0, aring_count := 0 } := by
  simp only [seek_to_frame, if_pos hga, if_neg hC, if_neg hfmt]

/-- `seek_to_frame` on an MP3 clip, as one decoder reset of the flattened
intermediate state. -/
theorem seek_mp3_eq (env : Env) (fuel : Nat) (f : Int) (u : Player)
    (hga : u.has_audio = true ∧ 0 < u.audio_bytes_per_sample)
    (hfmtM : u.audio_format = AUDIO_FMT_MP3) :
    seek_to_frame env fuel f u = mp3_reset
      { u with
        current_frame_idx :=
          (if u.total_frames ≤ (if f < 0 then 0 else f) then u.total_frames - 1
            else (if f < 0 then 0 else f)),
        repeat_counter := 0,
        audio_chunk_idx :=
          (if u.total_audio_chunks ≤
              ((u64ofInt (if u.total_frames ≤ (if f < 0 then 0 else f) then u.total_frames - 1
                  else (if f < 0 then 0 else f)) * effectiveRate u % U64 / u.clip_fps) /
                (if 32000 ≤ effectiveRate u then 1152 else 576) : Nat)
            then u.total_audio_chunks - 1
            else ((u64ofInt (if u.total_frames ≤ (if f < 0 then 0 else f) then u.total_frames - 1
                  else (if f < 0 then 0 else f)) * effectiveRate u % U64 / u.clip_fps) /
                (if 32000 ≤ effectiveRate u then 1152 else 576) : Nat)),
        audio_chunk_pos := 0,
        audio_samples_sent :=
          u64ofInt (if u.total_audio_chunks ≤
              ((u64ofInt (if u.total_frames ≤ (if f < 0 then 0 else f) then u.total_frames - 1
                  else (if f < 0 then 0 else f)) * effectiveRate u % U64 / u.clip_fps) /
                (if 32000 ≤ effectiveRate u then 1152 else 576) : Nat)
            then u.total_audio_chunks - 1
            else ((u64ofInt (if u.total_frames ≤ (if f < 0 then 0 else f) then u.total_frames - 1
                  else (if f < 0 then 0 else f)) * effectiveRate u % U64 / u.clip_fps) /
                (if 32000 ≤ effectiveRate u then 1152 else 576) : Nat)) *
            (if 32000 ≤ effectiveRate u then 1152 else 576) % U64 % U64,
        aring_read := 0, aring_write := 0, aring_count := 0 } := by
  simp only [seek_to_frame, if_pos hga, if_pos hfmtM]

/-- `refill_audio_ring` on an ADPCM clip changes only the audio cursor, the
write side of the ring and the registers. -/
theorem refill_adpcm_shape (env : Env) (fuel : Nat) (v : Player)
    (hfmtv : v.audio_format = AUDIO_FMT_ADPCM) :
    ∃ ci cp wr cnt regs, refill_audio_ring env fuel v =
      { v with audio_chunk_idx := ci, audio_chunk_pos := cp,
               aring_write := wr, aring_count := cnt, adpcm := regs } := by
  simp only [refill_audio_ring]
  by_cases hg : ¬v.has_audio = true ∨ v.total_audio_chunks ≤ v.audio_chunk_idx
  · simp only [if_pos hg]
    exact ⟨v.audio_chunk_idx, v.audio_chunk_pos, v.aring_write, v.aring_count, v.adpcm, rfl⟩
  · simp only [if_neg hg, if_pos hfmtv]
    exact read_audio_disk_adpcm_shape env v

/-- `refill_audio_ring` on a PCM clip changes only the audio cursor and the
write side of the ring. -/
theorem refill_nonspecial_shape (env : Env) (fuel : Nat) (v : Player)
    (hfA : ¬v.audio_format = AUDIO_FMT_ADPCM) (hfM : ¬v.audio_format = AUDIO_FMT_MP3) :
    ∃ ci cp wr cnt, refill_audio_ring env fuel v =
      { v with audio_chunk_idx := ci, audio_chunk_pos := cp,
               aring_write := wr, aring_count := cnt } := by
  simp only [refill_audio_ring, if_neg hfA, if_neg hfM]
  split
  · exact ⟨v.audio_chunk_idx, v.audio_chunk_pos, v.aring_write, v.aring_count, rfl⟩
  · exact refill_pcm_loop_shape _ env _ v

/-- `seek(f); seek(f) = seek(f)` as full states, for a clip without audio. -/
theorem seek_seek_nogate (env : Env) (fuel : Nat) (f : Int) (st : Player)
    (hga : ¬(st.has_audio = true ∧ 0 < st.audio_bytes_per_sample)) :
    seek_to_frame env fuel f (seek_to_frame env fuel f st) = seek_to_frame env fuel f st := by
  rw [seek_nogate_eq env fuel f st hga]
  rw [seek_nogate_eq env fuel f]
  · rfl
  · exact hga

/-- `seek(f); seek(f) = seek(f)` as full states, for PCM-format audio. -/
theorem seek_seek_pcm (env : Env) (fuel : Nat) (f : Int) (st : Player)
    (hga : st.has_audio = true ∧ 0 < st.audio_bytes_per_sample)
    (hfA : ¬st.audio_format = AUDIO_FMT_ADPCM)
    (hfM : ¬st.audio_format = AUDIO_FMT_MP3) :
    seek_to_frame env fuel f (seek_to_frame env fuel f st) = seek_to_frame env fuel f st := by
  have hC : ¬(st.audio_format = AUDIO_FMT_ADPCM ∧ 0 < st.adpcm_samples_per_block ∧
      0 < st.adpcm_block_align) := fun hc => hfA hc.1
  rw [seek_pcm_eq env fuel f st hga hC hfM]
  obtain ⟨ci, cp, wr, cnt, hsh⟩ := refill_nonspecial_shape env fuel
    ({ st with
        current_frame_idx :=
          (if st.total_frames ≤ (if f < 0 then 0 else f) then st.total_frames - 1
            else (if f < 0 then 0 else f)),
        repeat_counter := 0,
        audio_chunk_idx := (pcm_seek_walk
          (u64ofInt (if st.total_frames ≤ (if f < 0 then 0 else f) then st.total_frames - 1
              else (if f < 0 then 0 else f)) * effectiveRate st % U64 / st.clip_fps *
            st.audio_bytes_per_sample % U64)
          st.audio_index 0 0).1,
        audio_chunk_pos := (pcm_seek_walk
          (u64ofInt (if st.total_frames ≤ (if f < 0 then 0 else f) then st.total_frames - 1
              else (if f < 0 then 0 else f)) * effectiveRate st % U64 / st.clip_fps *
            st.audio_bytes_per_sample % U64)
          st.audio_index 0 0).2,
        audio_samples_sent :=
          u64ofInt (if st.total_frames ≤ (if f < 0 then 0 else f) then st.total_frames - 1
              else (if f < 0 then 0 else f)) * effectiveRate st % U64 / st.clip_fps % U64,
        aring_read := 0, aring_write := 0, aring_count := 0 }) hfA hfM
  rw [hsh]
  rw [seek_pcm_eq env fuel f]
  · exact hsh
  · exact hga
  · exact hC
  · exact hfM

/-- `seek(f); seek(f) = seek(f)` as full states, for ADPCM-format audio:
the second refill re-decodes the same blocks, so even the decoder registers
agree. -/
theorem seek_seek_adpcm (env : Env) (fuel : Nat) (f : Int) (st : Player)
    (hga : st.has_audio = true ∧ 0 < st.audio_bytes_per_sample)
    (hfA : st.audio_format = AUDIO_FMT_ADPCM) :
    seek_to_frame env fuel f (seek_to_frame env fuel f st) = seek_to_frame env fuel f st := by
  have hfM : ¬st.audio_format = AUDIO_FMT_MP3 := by
    rw [hfA]
    decide
  by_cases hC : st.audio_format = AUDIO_FMT_ADPCM ∧ 0 < st.adpcm_samples_per_block ∧
      0 < st.adpcm_block_align
  · rw [seek_adpcm_eq env fuel f st hga hC hfM]
    obtain ⟨ci, cp, wr, cnt, regs, hsh⟩ := refill_adpcm_shape env fuel
      ({ st with
        current_frame_idx :=
          (if st.total_frames ≤ (if f < 0 then 0 else f) then st.total_frames - 1
            else (if f < 0 then 0 else f)),
        repeat_counter := 0,
        audio_chunk_idx := (adpcm_seek_walk st.adpcm_block_align
          (u64ofInt (if st.total_frames ≤ (if f < 0 then 0 else f) then st.total_frames - 1
              else (if f < 0 then 0 else f)) * effectiveRate st % U64 / st.clip_fps /
            st.adpcm_samples_per_block.toNat * st.adpcm_block_align % U64)
          st.audio_index 0 0).1,
        audio_chunk_pos := (adpcm_seek_walk st.adpcm_block_align
          (u64ofInt (if st.total_frames ≤ (if f < 0 then 0 else f) then st.total_frames - 1
              else (if f < 0 then 0 else f)) * effectiveRate st % U64 / st.clip_fps /
            st.adpcm_samples_per_block.toNat * st.adpcm_block_align % U64)
          st.audio_index 0 0).2,
        audio_samples_sent :=
          u64ofInt (if st.total_frames ≤ (if f < 0 then 0 else f) then st.total_frames - 1
              else (if f < 0 then 0 else f)) * effectiveRate st % U64 / st.clip_fps % U64,
        aring_read := 0, aring_write := 0, aring_count := 0 }) hfA
    rw [hsh]
    rw [seek_adpcm_eq env fuel f]
    · obtain ⟨hpack, hrel⟩ := refill_adpcm_congr env fuel
        ({ st with
        current_frame_idx :=
          (if st.total_frames ≤ (if f < 0 then 0 else f) then st.total_frames - 1
            else (if f < 0 then 0 else f)),
        repeat_counter := 0,
        audio_chunk_idx := (adpcm_seek_walk st.adpcm_block_align
          (u64ofInt (if st.total_frames ≤ (if f < 0 then 0 else f) then st.total_frames - 1
              else (if f < 0 then 0 else f)) * effectiveRate st % U64 / st.clip_fps /
            st.adpcm_samples_per_block.toNat * st.adpcm_block_align % U64)
          st.audio_index 0 0).1,
        audio_chunk_pos := (adpcm_seek_walk st.adpcm_block_align
          (u64ofInt (if st.total_frames ≤ (if f < 0 then 0 else f) then st.total_frames - 1
              else (if f < 0 then 0 else f)) * effectiveRate st % U64 / st.clip_fps /
            st.adpcm_samples_per_block.toNat * st.adpcm_block_align % U64)
          st.audio_index 0 0).2,
        audio_samples_sent :=
          u64ofInt (if st.total_frames ≤ (if f < 0 then 0 else f) then st.total_frames - 1
              else (if f < 0 then 0 else f)) * effectiveRate st % U64 / st.clip_fps % U64,
        aring_read := 0, aring_write := 0, aring_count := 0 }) regs hfA
      have hy : regs = (refill_audio_ring env fuel
          ({ st with
        current_frame_idx :=
          (if st.total_frames ≤ (if f < 0 then 0 else f) then st.total_frames - 1
            else (if f < 0 then 0 else f)),
        repeat_counter := 0,
        audio_chunk_idx := (adpcm_seek_walk st.adpcm_block_align
          (u64ofInt (if st.total_frames ≤ (if f < 0 then 0 else f) then st.total_frames - 1
              else (if f < 0 then 0 else f)) * effectiveRate st % U64 / st.clip_fps /
            st.adpcm_samples_per_block.toNat * st.adpcm_block_align % U64)
          st.audio_index 0 0).1,
        audio_chunk_pos := (adpcm_seek_walk st.adpcm_block_align
          (u64ofInt (if st.total_frames ≤ (if f < 0 then 0 else f) then st.total_frames - 1
              else (if f < 0 then 0 else f)) * effectiveRate st % U64 / st.clip_fps /
            st.adpcm_samples_per_block.toNat * st.adpcm_block_align % U64)
          st.audio_index 0 0).2,
        audio_samples_sent :=
          u64ofInt (if st.total_frames ≤ (if f < 0 then 0 else f) then st.total_frames - 1
              else (if f < 0 then 0 else f)) * effectiveRate st % U64 / st.clip_fps % U64,
        aring_read := 0, aring_write := 0, aring_count := 0 })).adpcm := by
        rw [hsh]
      have hfix := regRel_fixpoint _ _ _ _ hrel hy
      exact hpack.trans (by rw [hfix]; exact hsh)
    · exact hga
    · exact hC
    · exact hfM
  · rw [seek_pcm_eq env fuel f st hga hC hfM]
    obtain ⟨ci, cp, wr, cnt, regs, hsh⟩ := refill_adpcm_shape env fuel
      ({ st with
        current_frame_idx :=
          (if st.total_frames ≤ (if f < 0 then 0 else f) then st.total_frames - 1
            else (if f < 0 then 0 else f)),
        repeat_counter := 0,
        audio_chunk_idx := (pcm_seek_walk
          (u64ofInt (if st.total_frames ≤ (if f < 0 then 0 else f) then st.total_frames - 1
              else (if f < 0 then 0 else f)) * effectiveRate st % U64 / st.clip_fps *
            st.audio_bytes_per_sample % U64)
          st.audio_index 0 0).1,
        audio_chunk_pos := (pcm_seek_walk
          (u64ofInt (if st.total_frames ≤ (if f < 0 then 0 else f) then st.total_frames - 1
              else (if f < 0 then 0 else f)) * effectiveRate st % U64 / st.clip_fps *
            st.audio_bytes_per_sample % U64)
          st.audio_index 0 0).2,
        audio_samples_sent :=
          u64ofInt (if st.total_frames ≤ (if f < 0 then 0 else f) then st.total_frames - 1
              else (if f < 0 then 0 else f)) * effectiveRate st % U64 / st.clip_fps % U64,
        aring_read := 0, aring_write := 0, aring_count := 0 }) hfA
    rw [hsh]
    rw [seek_pcm_eq env fuel f]
    · obtain ⟨hpack, hrel⟩ := refill_adpcm_congr env fuel
        ({ st with
        current_frame_idx :=
          (if st.total_frames ≤ (if f < 0 then 0 else f) then st.total_frames - 1
            else (if f < 0 then 0 else f)),
        repeat_counter := 0,
        audio_chunk_idx := (pcm_seek_walk
          (u64ofInt (if st.total_frames ≤ (if f < 0 then 0 else f) then st.total_frames - 1
              else (if f < 0 then 0 else f)) * effectiveRate st % U64 / st.clip_fps *
            st.audio_bytes_per_sample % U64)
          st.audio_index 0 0).1,
        audio_chunk_pos := (pcm_seek_walk
          (u64ofInt (if st.total_frames ≤ (if f < 0 then 0 else f) then st.total_frames - 1
              else (if f < 0 then 0 else f)) * effectiveRate st % U64 / st.clip_fps *
            st.audio_bytes_per_sample % U64)
          st.audio_index 0 0).2,
        audio_samples_sent :=
          u64ofInt (if st.total_frames ≤ (if f < 0 then 0 else f) then st.total_frames - 1
              else (if f < 0 then 0 else f)) * effectiveRate st % U64 / st.clip_fps % U64,
        aring_read := 0, aring_write := 0, aring_count := 0 }) regs hfA
      have hy : regs = (refill_audio_ring env fuel
          ({ st with
        current_frame_idx :=
          (if st.total_frames ≤ (if f < 0 then 0 else f) then st.total_frames - 1
            else (if f < 0 then 0 else f)),
        repeat_counter := 0,
        audio_chunk_idx := (pcm_seek_walk
          (u64ofInt (if st.total_frames ≤ (if f < 0 then 0 else f) then st.total_frames - 1
              else (if f < 0 then 0 else f)) * effectiveRate st % U64 / st.clip_fps *
            st.audio_bytes_per_sample % U64)
          st.audio_index 0 0).1,
        audio_chunk_pos := (pcm_seek_walk
          (u64ofInt (if st.total_frames ≤ (if f < 0 then 0 else f) then st.total_frames - 1
              else (if f < 0 then 0 else f)) * effectiveRate st % U64 / st.clip_fps *
            st.audio_bytes_per_sample % U64)
          st.audio_index 0 0).2,
        audio_samples_sent :=
          u64ofInt (if st.total_frames ≤ (if f < 0 then 0 else f) then st.total_frames - 1
              else (if f < 0 then 0 else f)) * effectiveRate st % U64 / st.clip_fps % U64,
        aring_read := 0, aring_write := 0, aring_count := 0 })).adpcm := by
        rw [hsh]
      have hfix := regRel_fixpoint _ _ _ _ hrel hy
      exact hpack.trans (by rw [hfix]; exact hsh)
    · exact hga
    · exact hC
    · exact hfM

/-- `mp3_reset` in closed form: it zeroes the input buffer counters and, when
the decoder is initialized, the decoder handle. -/
theorem mp3_reset_eq (v : Player) :
    mp3_reset v = { v with
      mp3_dec := (if v.mp3_initialized = true then 0 else v.mp3_dec),
      mp3_input_len := 0, mp3_input_remaining := 0 } := by
  simp only [mp3_reset]
  split <;> rfl

/-- The MP3 seek target commutes with updates of the MP3 decoder fields. -/
theorem mp3SeekTarget_update (f : Int) (v : Player) (d : Nat) (a b : Int) :
    mp3SeekTarget f { v with mp3_dec := d, mp3_input_len := a, mp3_input_remaining := b } =
      { mp3SeekTarget f v with mp3_dec := d, mp3_input_len := a, mp3_input_remaining := b } :=
  rfl

/-- The MP3 seek target is idempotent. -/
theorem mp3SeekTarget_idem (f : Int) (v : Player) :
    mp3SeekTarget f (mp3SeekTarget f v) = mp3SeekTarget f v :=
  rfl

/-- Updating the MP3 decoder fields does not change `mp3_initialized`. -/
theorem mp3_upd_initialized (v : Player) (d : Nat) (a b : Int) :
    ({ v with mp3_dec := d, mp3_input_len := a, mp3_input_remaining := b } : Player).mp3_initialized = v.mp3_initialized :=
  rfl

/-- Updating the MP3 decoder fields sets `mp3_dec`. -/
theorem mp3_upd_dec (v : Player) (d : Nat) (a b : Int) :
    ({ v with mp3_dec := d, mp3_input_len := a, mp3_input_remaining := b } : Player).mp3_dec = d :=
  rfl

/-- The MP3 seek target does not change `mp3_initialized`. -/
theorem mp3SeekTarget_initialized (f : Int) (v : Player) :
    (mp3SeekTarget f v).mp3_initialized = v.mp3_initialized :=
  rfl

/-- The MP3 seek target does not change `mp3_dec`. -/
theorem mp3SeekTarget_dec (f : Int) (v : Player) :
    (mp3SeekTarget f v).mp3_dec = v.mp3_dec :=
  rfl

/-- `seek_to_frame` on an MP3 clip, phrased through `mp3SeekTarget`. -/
theorem seek_mp3_eq2 (env : Env) (fuel : Nat) (f : Int) (u : Player)
    (hga : u.has_audio = true ∧ 0 < u.audio_bytes_per_sample)
    (hfmtM : u.audio_format = AUDIO_FMT_MP3) :
    seek_to_frame env fuel f u = mp3_reset (mp3SeekTarget f u) :=
  seek_mp3_eq env fuel f u hga hfmtM

/-- `seek(f); seek(f) = seek(f)` as full states, for MP3-format audio. -/
theorem seek_seek_mp3 (env : Env) (fuel : Nat) (f : Int) (st : Player)
    (hga : st.has_audio = true ∧ 0 < st.audio_bytes_per_sample)
    (hfM : st.audio_format = AUDIO_FMT_MP3) :
    seek_to_frame env fuel f (seek_to_frame env fuel f st) = seek_to_frame env fuel f st := by
  rw [seek_mp3_eq2 env fuel f st hga hfM]
  rw [seek_mp3_eq2 env fuel f]
  · rw [mp3_reset_eq (mp3SeekTarget f st)]
    rw [mp3SeekTarget_update]
    rw [mp3SeekTarget_idem]
    rw [mp3_reset_eq]
    simp only [mp3_upd_initialized, mp3_upd_dec, mp3SeekTarget_initialized, mp3SeekTarget_dec]
    by_cases hi : st.mp3_initialized = true
    · simp only [if_pos hi]
    · simp only [if_neg hi]
  · rw [mp3_reset_eq]
    exact hga
  · rw [mp3_reset_eq]
    exact hfM

/-- **C4** Seek is idempotent: for every frame target `f` and every player
state, running `seek_to_frame` twice in succession yields exactly the same
transport cursor (`current_frame_idx`, `repeat_counter`) and audio cursor
(`audio_chunk_idx`, `audio_chunk_pos`, `audio_samples_sent`, and the codec
decoder state: the ADPCM predictor registers and the MP3 decoder handle and
input-buffer counters) as running it once, for all three audio formats. -/
theorem seek_idempotent (env : Env) (fuel : Nat) (f : Int) (st : Player) :
    (seek_to_frame env fuel f (seek_to_frame env fuel f st)).current_frame_idx =
      (seek_to_frame env fuel f st).current_frame_idx ∧
    (seek_to_frame env fuel f (seek_to_frame env fuel f st)).repeat_counter =
      (seek_to_frame env fuel f st).repeat_counter ∧
    (seek_to_frame env fuel f (seek_to_frame env fuel f st)).audio_chunk_idx =
      (seek_to_frame env fuel f st).audio_chunk_idx ∧
    (seek_to_frame env fuel f (seek_to_frame env fuel f st)).audio_chunk_pos =
      (seek_to_frame env fuel f st).audio_chunk_pos ∧
    (seek_to_frame env fuel f (seek_to_frame env fuel f st)).audio_samples_sent =
      (seek_to_frame env fuel f st).audio_samples_sent ∧
    (seek_to_frame env fuel f (seek_to_frame env fuel f st)).adpcm =
      (seek_to_frame env fuel f st).adpcm ∧
    (seek_to_frame env fuel f (seek_to_frame env fuel f st)).mp3_dec =
      (seek_to_frame env fuel f st).mp3_dec ∧
    (seek_to_frame env fuel f (seek_to_frame env fuel f st)).mp3_input_len =
      (seek_to_frame env fuel f st).mp3_input_len ∧
    (seek_to_frame env fuel f (seek_to_frame env fuel f st)).mp3_input_remaining =
      (seek_to_frame env fuel f st).mp3_input_remaining := by
  have h : seek_to_frame env fuel f (seek_to_frame env fuel f st) =
      seek_to_frame env fuel f st := by
    by_cases hga : st.has_audio = true ∧ 0 < st.audio_bytes_per_sample
    · by_cases hfA : st.audio_format = AUDIO_FMT_ADPCM
      · exact seek_seek_adpcm env fuel f st hga hfA
      · by_cases hfM : st.audio_format = AUDIO_FMT_MP3
        · exact seek_seek_mp3 env fuel f st hga hfM
        · exact seek_seek_pcm env fuel f st hga hfA hfM
    · exact seek_seek_nogate env fuel f st hga
  rw [h]
  exact ⟨rfl, rfl, rfl, rfl, rfl, rfl, rfl, rfl, rfl⟩

/-- **C7** (amended) Failed opens surface as a single boolean, and no
post-parse open state (playback start, cursor reset, ring pre-fill) is
created: the open fails exactly when the parse fails, and on failure the
returned state is exactly whatever the attempted parse left behind.  A file
rejected at the RIFF/AVI signature check leaves the state fully unchanged
— but a file that passes the signature check and then indexes zero video
frames does *not*: the parse has already reset the index tables and stream
descriptor fields by then, so the original claim's "observable state
unchanged after any failed open" part is false. -/
theorem open_video_failure_propagation (env : Env) (fuel : Nat) (st : Player) :
    ((open_video env fuel st).1 = false ↔ (parse_avi env.file st).1 = false) ∧
    ((open_video env fuel st).1 = false →
      (open_video env fuel st).2 = (parse_avi env.file st).2) ∧
    (¬check4 env.file 0 [82, 73, 70, 70] →
      (open_video env fuel st).1 = false ∧ (open_video env fuel st).2 = st) := by
  refine ⟨?_, ?_, ?_⟩
  · simp only [open_video]
    rcases hb : (parse_avi env.file st).1 with _ | _ <;> simp [hb]
  · intro h
    simp only [open_video] at h ⊢
    rcases hb : (parse_avi env.file st).1 with _ | _ <;> simp [hb] at h ⊢
  · intro hsig
    have hp : parse_avi env.file st = (false, st) := by
      simp only [parse_avi, if_pos hsig]
    simp [open_video, hp]

/-- A 12-byte file with a valid `RIFF…AVI ` signature but no chunks indexes
zero video frames, so the open fails — yet the player's `clip_fps` has been
clobbered from its prior value 15 to the parse-time reset value 30, refuting
the claim that a failed open leaves the observable state unchanged. -/
theorem failed_open_clobbers_state :
    (open_video { file := [82, 73, 70, 70, 4, 0, 0, 0, 65, 86, 73, 32] } 0
        { clip_fps := 15 }).1 = false ∧
    ¬(open_video { file := [82, 73, 70, 70, 4, 0, 0, 0, 65, 86, 73, 32] } 0
        { clip_fps := 15 }).2.clip_fps =
      ({ clip_fps := 15 } : Player).clip_fps := by
  decide

/-- When no record among the first `n` idx1 records is a video (`dc`)
record, the probe finds nothing. -/
theorem idx1_probe_none (f : List Nat) (n : Nat) : ∀ pos,
    (∀ i < n, freadLen f (pos + 16 * i) 16 = 16 →
      ¬(((freadList f (pos + 16 * i) 16).getD 2 0 = 100 ∨
          (freadList f (pos + 16 * i) 16).getD 2 0 = 68) ∧
        ((freadList f (pos + 16 * i) 16).getD 3 0 = 99 ∨
          (freadList f (pos + 16 * i) 16).getD 3 0 = 67))) →
    idx1_probe f pos n = none := by
  induction n with
  | zero =>
    intro pos _
    rfl
  | succ n ih =>
    intro pos h
    simp only [idx1_probe]
    by_cases hr : freadLen f pos 16 = 16
    · have h0 : ¬(((freadList f pos 16).getD 2 0 = 100 ∨
          (freadList f pos 16).getD 2 0 = 68) ∧
        ((freadList f pos 16).getD 3 0 = 99 ∨
          (freadList f pos 16).getD 3 0 = 67)) := by
        have h00 := h 0 (by omega)
        simp only [Nat.mul_zero, Nat.add_zero] at h00
        exact h00 hr
      rw [if_pos hr, if_neg h0]
      apply ih
      intro i hi hread
      have hh := h (i + 1) (by omega)
      have harith : pos + 16 * (i + 1) = pos + 16 + 16 * i := by ring
      rw [harith] at hh
      exact hh hread
    · rw [if_neg hr]

/-- **C10** During idx1 parsing, the offset-base auto-detection probes only
the first 100 index records for a video (`dc`) record: when an `idx1` chunk
is found at `pos` but none of its first `min (chunk_size / 16) 100` records
is a video record, `parse_idx1` rejects the index chunk and returns the
state unchanged — even if valid video records exist later in the index —
and the movi-branch expression of `parse_avi` then falls back to the linear
media-data scan `scan_movi_buffered`. -/
theorem idx1_probe_first_100_fallback (f : List Nat) (movi_data_start pos chunk_size : Nat)
    (st : Player)
    (htag : freadLen f pos 4 = 4 ∧ freadList f pos 4 = [105, 100, 120, 49])
    (hsz : read32 f (pos + 4) = some chunk_size)
    (hnone : ∀ i < min (chunk_size / 16) 100, freadLen f (pos + 8 + 16 * i) 16 = 16 →
      ¬(((freadList f (pos + 8 + 16 * i) 16).getD 2 0 = 100 ∨
          (freadList f (pos + 8 + 16 * i) 16).getD 2 0 = 68) ∧
        ((freadList f (pos + 8 + 16 * i) 16).getD 3 0 = 99 ∨
          (freadList f (pos + 8 + 16 * i) 16).getD 3 0 = 67))) :
    parse_idx1 f movi_data_start pos st = (false, st) ∧
    ∀ movi_end,
      (if ¬(parse_idx1 f movi_data_start pos st).1 then
        scan_movi_buffered f movi_data_start movi_end (parse_idx1 f movi_data_start pos st).2
      else (parse_idx1 f movi_data_start pos st).2) =
        scan_movi_buffered f movi_data_start movi_end st := by
  have hmain : parse_idx1 f movi_data_start pos st = (false, st) := by
    have hp := idx1_probe_none f (min (chunk_size / 16) 100) (pos + 8) hnone
    simp only [parse_idx1, parse_idx1_loop, if_pos htag.1, htag.2, hsz, if_pos rfl,
      parse_idx1_found, hp, if_true]
  refine ⟨hmain, fun movi_end => ?_⟩
  rw [hmain]
  simp

set_option maxRecDepth 100000 in
/-- The probe limit in action on a bare idx1 chunk of 101 records whose
single video record is the 101st: the index chunk is rejected outright. -/
theorem idx1_probe_first_100_fallback_witness :
    parse_idx1 W10f 0 0 ({} : Player) = (false, ({} : Player)) :=
  (idx1_probe_first_100_fallback W10f 0 0 1616 ({} : Player)
    (by decide) (by decide) (by decide)).1

/-- On a failed MPEG-4 decode the framebuffer holds a solid debug screen:
red for an Xvid init failure, orange for a decoder error. -/
theorem decode_mpeg4_frame_fail_fb (venv : VEnv) (size : Nat) (st : Player) (v : VideoSt) :
    (decode_mpeg4_frame venv size st v).2 = false →
      (decode_mpeg4_frame venv size st v).1.2.fb = debug_fill_screen FB_RED ∨
      (decode_mpeg4_frame venv size st v).1.2.fb = debug_fill_screen FB_ORANGE := by
  simp only [decode_mpeg4_frame]
  repeat' split
  all_goals intro h
  all_goals
    first
      | exact Or.inl rfl
      | exact Or.inr rfl
      | exact absurd h (by simp)

set_option maxHeartbeats 4000000 in
/-- **C8** (amended) A failed video decode is recoverable ("no frame this
tick"), but the framebuffer is *not* always left unchanged.  When the tick's
decode returns failure, the framebuffer is: unchanged (all MJPEG/dispatch
failures before decompression — out-of-range index, empty or short payload,
bad JPEG magic, prepare failure); or a solid red debug screen (Xvid init
failure); or a solid orange debug screen (Xvid decode error); or, for an
MJPEG decompression failure, the partial decoder output painted over either
the previous framebuffer or a freshly cleared one.  The original claim's
"previous framebuffer remains unchanged on every decode failure" is
therefore false for the motion-compensated path. -/
theorem decode_failure_framebuffer_effect (env : Env) (venv : VEnv) (idx : Int)
    (st : Player) (v : VideoSt) :
    (decode_single_frame env venv idx st v).2 = false →
      (decode_single_frame env venv idx st v).1.2.fb = v.fb ∨
      (decode_single_frame env venv idx st v).1.2.fb = debug_fill_screen FB_RED ∨
      (decode_single_frame env venv idx st v).1.2.fb = debug_fill_screen FB_ORANGE ∨
      (∃ g, (decode_single_frame env venv idx st v).1.2.fb = venv.jpegPartial g ∧
        (g = v.fb ∨ g = fun _ => 0)) := by
  simp only [decode_single_frame, calculate_scaling]
  repeat' split
  all_goals intro h
  all_goals
    first
      | exact Or.inl rfl
      | exact Or.inr (Or.inr (Or.inr ⟨fun _ => 0, rfl, Or.inr rfl⟩))
      | exact Or.inr (Or.inr (Or.inr ⟨v.fb, rfl, Or.inl rfl⟩))
      | (rcases decode_mpeg4_frame_fail_fb venv _ st v h with h1 | h1
         · exact Or.inr (Or.inl h1)
         · exact Or.inr (Or.inr (Or.inl h1)))
      | exact absurd h (by simp)

/-- The amended failure-effect statement evaluated at a trivial failing
decode (no frames indexed): the framebuffer is unchanged. -/
theorem decode_failure_framebuffer_effect_witness :
    (decode_single_frame ({} : Env) ({} : VEnv) 0 ({} : Player) ({} : VideoSt)).1.2.fb =
        ({} : VideoSt).fb ∨
      (decode_single_frame ({} : Env) ({} : VEnv) 0 ({} : Player)
          ({} : VideoSt)).1.2.fb = debug_fill_screen FB_RED ∨
      (decode_single_frame ({} : Env) ({} : VEnv) 0 ({} : Player)
          ({} : VideoSt)).1.2.fb = debug_fill_screen FB_ORANGE ∨
      (∃ g, (decode_single_frame ({} : Env) ({} : VEnv) 0 ({} : Player)
          ({} : VideoSt)).1.2.fb = ({} : VEnv).jpegPartial g ∧
        (g = ({} : VideoSt).fb ∨ g = fun _ => 0)) :=
  decode_failure_framebuffer_effect {} {} 0 {} {} (by decide)

set_option maxHeartbeats 1000000 in
/-- An Xvid decode error (`xvid_decore` returning `-1`) on an MPEG-4 frame:
the decode fails, yet pixel 0 of the framebuffer has been painted with the
solid orange debug screen instead of keeping its previous contents —
refuting the claim that the previous framebuffer remains on every failed
decode. -/
theorem mpeg4_decode_error_paints_framebuffer :
    (decode_single_frame { file := [1, 2] } { xvid := fun _ => { ret := -1 } } 0
        { frame_index := [(0, 2)], video_codec_type := CODEC_TYPE_MPEG4 }
        ({} : VideoSt)).2 = false ∧
    ¬(decode_single_frame { file := [1, 2] } { xvid := fun _ => { ret := -1 } } 0
        { frame_index := [(0, 2)], video_codec_type := CODEC_TYPE_MPEG4 }
        ({} : VideoSt)).1.2.fb 0 = ({} : VideoSt).fb 0 := by
  decide

end SF2000
